import Mathlib

/-!
# TumbleFeeder: a shallow embedding of the servo pellet-feeder controller

The controller of `TumbleFeeder.cpp` is embedded as pure functions on a
system state `Sys` that holds the object's fields, a millisecond clock, the
state of the indicator and of the servo connection, and the trace of
hardware and callback effects produced so far.

Conventions of the embedding:

* `int` has `16 + extraBits` bits, where `extraBits` is a constant of the
  board (`0` on the AVR boards, `16` on the ARM boards).  An `int` value is an
  integer between `INT_MIN` and `INT_MAX`; `count++`, `pos += 1` and
  `pos -= 1` wrap around (`wrapInt`), which is what the compilers of these
  boards produce for the overflow that C++ leaves undefined, and the
  assignment of the `unsigned long` difference `millis() - startTime` to an
  `int` keeps its low bits (`wrapInt` again).
* `unsigned long` values are natural numbers; the arithmetic done on them
  (`millis() - startTime`, `openDuration * 1000`) wraps modulo `2 ^ 32`.
* `%` on `int` truncates toward zero (`Int.tmod`).
* The sensor lines are an input of the run: `Env.low pin t` tells whether
  the line reads `LOW` at millisecond `t`, and every touch is over at
  `Env.horizon`.
* Time advances by `delay`, and by one millisecond for every turn of the
  busy-wait of the open window, whose condition polls `millis()`.
* A registered callback is an observer: calling it records the value of the
  fields at that moment.  Interrupt handlers (`handleLeftTouch`, ...) run
  between the calls of the other operations.
* Every loop is a recursion on a number of turns that is computed from the
  state at the entry of the loop.  For the loop that waits for the release
  of a sensor and for the open window the number is shown to be large
  enough: the loop is always left through its own condition (`readLoop_eq`,
  `openWindow_over`).  The two sweeps of the servo are allowed `2 ^ (16 +
  extraBits)` turns, which is enough whenever the loop of the source ends
  (`openRun_of_ends`, `closeRun_of_ends`); the loop of `feederOpen` does
  not end when `_openPos = INT_MIN`, nor the loop of `feederClose` when
  `_closedPos = INT_MAX`, whatever the number of turns (`openSweep_hangs`,
  `closeSweep_hangs`, `feederOpen_hung_iff`, `feederClose_hung_iff`).  Such a call
  does not return: the model sets `hung` and leaves the indicator high and
  the servo attached, as the board stays, and the statements that follow
  the call in its callers are not executed.
-/

/-- Board pins: digital pin `D n` and analog pin `A n`. -/
inductive Pin where
  | D (n : Nat)
  | A (n : Nat)
deriving DecidableEq, Repr

/-- Logic level of a digital line. -/
inductive Level where
  | LOW
  | HIGH
deriving DecidableEq, Repr

/-- Pin modes used by `begin`. -/
inductive PinMode where
  | OUTPUT
  | INPUT_PULLUP
deriving DecidableEq, Repr

/-- The data members of class `TumbleFeeder` (the `Servo` member lives in `Sys`).
A callback pointer is `none` for `nullptr` and `some id` for a registered function. -/
structure TumbleFeeder where
  leftPokeCount : Int
  rightPokeCount : Int
  FeederCount : Int
  leftPokeDur : Int
  rightPokeDur : Int
  leftFeederDur : Int
  _closedPos : Int
  _openPos : Int
  _FR : Int
  _leftTouch : Bool
  _rightTouch : Bool
  _feedTouch : Bool
  _openDuration : Nat
  _logCallback : Option Nat
  _displayCallback : Option Nat
deriving DecidableEq, Repr

/-- One observable effect: a call of the Arduino or Servo interface, or the
invocation of a registered callback together with the fields it observes. -/
inductive Effect where
  | pinMode (pin : Pin) (mode : PinMode)
  | digitalWrite (pin : Pin) (level : Level)
  | digitalRead (pin : Pin) (level : Level)
  | millis (value : Nat)
  | delay (ms : Nat)
  | servoAttach (pin : Pin)
  | servoWrite (pos : Int)
  | servoDetach
  | displayCallback (fn : Nat) (seen : TumbleFeeder)
  | logCallback (fn : Nat) (seen : TumbleFeeder)
deriving DecidableEq, Repr

/-- The sensor lines over time: `low pin t` holds when `pin` reads `LOW` at
millisecond `t`; from `horizon` on every line is back at `HIGH`. -/
structure Env where
  low : Pin → Nat → Bool
  horizon : Nat

/-- The controller together with the board it runs on. `int` has `16 + extraBits` bits on
the board, and `hung` tells that a call was entered that does not return. -/
structure Sys where
  tf : TumbleFeeder
  now : Nat
  ledHigh : Bool
  servoAttached : Bool
  trace : List Effect
  extraBits : Nat
  hung : Bool
deriving DecidableEq, Repr

/-- A reference to one `int` member, as passed to `_readTouchPin`. -/
structure IntRef where
  get : TumbleFeeder → Int
  set : Int → TumbleFeeder → TumbleFeeder

namespace TumbleFeeder

/-! ## Constants of the header -/

def SERVO_PIN : Pin := Pin.D 10
def LED_PIN : Pin := Pin.D 13
def LEFT_TOUCH_PIN : Pin := Pin.A 2
def RIGHT_TOUCH_PIN : Pin := Pin.A 0
def FEEDER_TOUCH_PIN : Pin := Pin.A 1

/-- Modulus of `unsigned long` arithmetic. -/
def ULONG_MOD : Nat := 2 ^ 32

/-- Subtraction `a - b` on `unsigned long`. -/
def ulongSub (a b : Nat) : Nat := (a % ULONG_MOD + (ULONG_MOD - b % ULONG_MOD)) % ULONG_MOD

/-- Multiplication `a * b` on `unsigned long`. -/
def ulongMul (a b : Nat) : Nat := (a * b) % ULONG_MOD

/-- The largest `int` of a board whose `int` has `16 + e` bits. -/
def INT_MAX (e : Nat) : Int := 2 ^ (15 + e) - 1

/-- The smallest `int` of a board whose `int` has `16 + e` bits. -/
def INT_MIN (e : Nat) : Int := -(2 ^ (15 + e))

/-- The `int` with the same low `16 + e` bits as `x` (two's complement). -/
def wrapInt (e : Nat) (x : Int) : Int := (x + 2 ^ (15 + e)) % 2 ^ (16 + e) - 2 ^ (15 + e)

/-- The value of `x` after `x++`, `x += 1` on an `int`. -/
def intSucc (e : Nat) (x : Int) : Int := wrapInt e (x + 1)

/-- The value of `x` after `x -= 1` on an `int`. -/
def intPred (e : Nat) (x : Int) : Int := wrapInt e (x - 1)

/-! ## The board interface -/

def emit (e : Effect) (s : Sys) : Sys := { s with trace := s.trace ++ [e] }

def pinMode (pin : Pin) (mode : PinMode) (s : Sys) : Sys := emit (Effect.pinMode pin mode) s

def digitalWrite (pin : Pin) (level : Level) (s : Sys) : Sys :=
  emit (Effect.digitalWrite pin level)
    { s with ledHigh := if pin = LED_PIN then decide (level = Level.HIGH) else s.ledHigh }

/-- Level of a sensor line at the current time. -/
def lineLevel (env : Env) (pin : Pin) (t : Nat) : Level :=
  if t < env.horizon && env.low pin t then Level.LOW else Level.HIGH

def digitalRead (env : Env) (pin : Pin) (s : Sys) : Level × Sys :=
  (lineLevel env pin s.now, emit (Effect.digitalRead pin (lineLevel env pin s.now)) s)

def millis (s : Sys) : Nat × Sys :=
  (s.now % ULONG_MOD, emit (Effect.millis (s.now % ULONG_MOD)) s)

def delay (ms : Nat) (s : Sys) : Sys := emit (Effect.delay ms) { s with now := s.now + ms }

/-- One millisecond passes while the program spins without calling `delay`. -/
def tick (s : Sys) : Sys := { s with now := s.now + 1 }

def servoAttach (pin : Pin) (s : Sys) : Sys :=
  emit (Effect.servoAttach pin) { s with servoAttached := true }

def servoWrite (pos : Int) (s : Sys) : Sys := emit (Effect.servoWrite pos) s

def servoDetach (s : Sys) : Sys := emit Effect.servoDetach { s with servoAttached := false }

/-! ## Constructor, configuration, interrupt handlers -/

/-- The constructor. `_closedPos` and `_openPos` are not initialised by it; their
indeterminate values are the two arguments. -/
def construct (closed0 open0 : Int) : TumbleFeeder :=
  { leftPokeCount := 0, rightPokeCount := 0, FeederCount := 0,
    leftPokeDur := 0, rightPokeDur := 0, leftFeederDur := 0,
    _closedPos := closed0, _openPos := open0,
    _FR := 1,
    _leftTouch := false, _rightTouch := false, _feedTouch := false,
    _openDuration := 60,
    _logCallback := none, _displayCallback := none }

/-- The system right after construction, at clock value `t0`, on a board whose `int` has
`16 + extraBits` bits. -/
def boot (extraBits : Nat) (closed0 open0 : Int) (t0 : Nat) : Sys :=
  { tf := construct closed0 open0, now := t0, ledHigh := false, servoAttached := false,
    trace := [], extraBits := extraBits, hung := false }

def setTf (f : TumbleFeeder → TumbleFeeder) (s : Sys) : Sys := { s with tf := f s.tf }

def begin (closedPosition openPosition : Int) (s : Sys) : Sys :=
  let s1 := setTf (fun t => { t with _closedPos := closedPosition }) s
  let s2 := setTf (fun t => { t with _openPos := openPosition }) s1
  let s3 := pinMode LED_PIN PinMode.OUTPUT s2
  let s4 := pinMode LEFT_TOUCH_PIN PinMode.INPUT_PULLUP s3
  let s5 := pinMode RIGHT_TOUCH_PIN PinMode.INPUT_PULLUP s4
  let s6 := pinMode FEEDER_TOUCH_PIN PinMode.INPUT_PULLUP s5
  digitalWrite LED_PIN Level.LOW s6

def setFR (fr : Int) (s : Sys) : Sys :=
  setTf (fun t => { t with _FR := if fr = 0 then 1 else fr }) s

def setOpenDuration (seconds : Nat) (s : Sys) : Sys :=
  setTf (fun t => { t with _openDuration := seconds }) s

def setPositions (openPos closedPos : Int) (s : Sys) : Sys :=
  setTf (fun t => { t with _closedPos := closedPos })
    (setTf (fun t => { t with _openPos := openPos }) s)

def setLogCallback (callback : Option Nat) (s : Sys) : Sys :=
  setTf (fun t => { t with _logCallback := callback }) s

def setDisplayCallback (callback : Option Nat) (s : Sys) : Sys :=
  setTf (fun t => { t with _displayCallback := callback }) s

def handleLeftTouch (s : Sys) : Sys := setTf (fun t => { t with _leftTouch := true }) s

def handleRightTouch (s : Sys) : Sys := setTf (fun t => { t with _rightTouch := true }) s

def handleFeederTouch (s : Sys) : Sys := setTf (fun t => { t with _feedTouch := true }) s

/-! ## Servo control -/

/-- The loop of `feederOpen`: `for (pos = _closedPos; pos >= _openPos; pos -= 1)`,
entered at `pos`, with at most `fuel` evaluations of its condition. The second component
tells whether the loop was left through its condition. -/
def feederOpenLoop : Nat → Int → Sys → Sys × Bool
  | 0, _, s => (s, false)
  | fuel + 1, pos, s =>
    if pos ≥ s.tf._openPos then
      feederOpenLoop fuel (intPred s.extraBits pos) (delay 50 (servoWrite pos s))
    else (s, true)

/-- The loop of `feederClose`: `for (pos = _openPos; pos <= _closedPos; pos += 1)`. -/
def feederCloseLoop : Nat → Int → Sys → Sys × Bool
  | 0, _, s => (s, false)
  | fuel + 1, pos, s =>
    if pos ≤ s.tf._closedPos then
      feederCloseLoop fuel (intSucc s.extraBits pos) (delay 50 (servoWrite pos s))
    else (s, true)

/-- Number of evaluations of the condition allowed to a sweep loop: the number of `int`
values. A loop that has not ended by then never ends, since `pos` has taken every value. -/
def sweepTurns (e : Nat) : Nat := 2 ^ (16 + e)

/-- Number of angles from `_openPos` to `_closedPos`, both included. -/
def sweepFuel (t : TumbleFeeder) : Nat := (t._closedPos - t._openPos + 1).toNat

/-- The method `feederOpen`. When its loop does not end the call does not return: the
statements after the loop are not reached and `hung` is set. -/
def feederOpen (s : Sys) : Sys :=
  let s1 := digitalWrite LED_PIN Level.HIGH s
  let s2 := servoAttach SERVO_PIN s1
  let r := feederOpenLoop (sweepTurns s2.extraBits) s2.tf._closedPos s2
  if r.2 then
    let s4 := servoDetach r.1
    digitalWrite LED_PIN Level.LOW s4
  else { r.1 with hung := true }

/-- The method `feederClose`. When its loop does not end the call does not return: the
statements after the loop are not reached and `hung` is set. -/
def feederClose (s : Sys) : Sys :=
  let s1 := digitalWrite LED_PIN Level.HIGH s
  let s2 := servoAttach SERVO_PIN s1
  let r := feederCloseLoop (sweepTurns s2.extraBits) s2.tf._openPos s2
  if r.2 then
    let s4 := servoDetach r.1
    digitalWrite LED_PIN Level.LOW s4
  else { r.1 with hung := true }

/-- The loop of `shake`, with `n` turns left. -/
def shakeLoop : Nat → Sys → Sys
  | 0, s => s
  | n + 1, s =>
    shakeLoop n (delay 50 (digitalWrite LED_PIN Level.LOW
      (delay 50 (digitalWrite LED_PIN Level.HIGH s))))

def shake (s : Sys) : Sys := shakeLoop 10 s

/-! ## Callbacks -/

def _callLogCallback (s : Sys) : Sys :=
  match s.tf._logCallback with
  | some fn => emit (Effect.logCallback fn s.tf) s
  | none => s

def _callDisplayCallback (s : Sys) : Sys :=
  match s.tf._displayCallback with
  | some fn => emit (Effect.displayCallback fn s.tf) s
  | none => s

/-- The method `shakeFood`: `feederClose(); feederOpen(); _callLogCallback();`. A statement
is reached when the call before it returned. -/
def shakeFood (s : Sys) : Sys :=
  let s1 := feederClose s
  if s1.hung then s1 else
    let s2 := feederOpen s1
    if s2.hung then s2 else _callLogCallback s2

/-! ## Reading the sensors -/

def leftPokeCountRef : IntRef := ⟨fun t => t.leftPokeCount, fun v t => { t with leftPokeCount := v }⟩
def rightPokeCountRef : IntRef := ⟨fun t => t.rightPokeCount, fun v t => { t with rightPokeCount := v }⟩
def FeederCountRef : IntRef := ⟨fun t => t.FeederCount, fun v t => { t with FeederCount := v }⟩
def leftPokeDurRef : IntRef := ⟨fun t => t.leftPokeDur, fun v t => { t with leftPokeDur := v }⟩
def rightPokeDurRef : IntRef := ⟨fun t => t.rightPokeDur, fun v t => { t with rightPokeDur := v }⟩
def leftFeederDurRef : IntRef := ⟨fun t => t.leftFeederDur, fun v t => { t with leftFeederDur := v }⟩

/-- The loop `while (digitalRead(pin) == LOW) delay(1);`. -/
def readLoop (env : Env) (pin : Pin) : Nat → Sys → Sys
  | 0, s => s
  | fuel + 1, s =>
    if (digitalRead env pin s).1 = Level.LOW then
      readLoop env pin fuel (delay 1 (digitalRead env pin s).2)
    else (digitalRead env pin s).2

/-- Number of turns that exhausts `readLoop`: the line is `HIGH` from `env.horizon` on. -/
def readFuel (env : Env) (s : Sys) : Nat := env.horizon - s.now + 1

/-- The helper `_readTouchPin(pin, startTime, count, duration)`. `startTime` is a local
of every caller that is not read after the call, so it is a local here. The `unsigned long`
difference is narrowed to the `int` `duration`, and `count++` is an `int` increment. -/
def _readTouchPin (env : Env) (pin : Pin) (count duration : IntRef) (s : Sys) : Sys :=
  let startTime := (millis s).1
  let s1 := (millis s).2
  let s2 := readLoop env pin (readFuel env s1) s1
  let s3 := setTf (duration.set
    (wrapInt s2.extraBits (Int.ofNat (ulongSub (millis s2).1 startTime)))) (millis s2).2
  setTf (fun t => count.set (intSucc s3.extraBits (count.get t)) t) s3

/-! ## Polling -/

def checkFeeder (env : Env) (s : Sys) : Sys :=
  if s.tf._feedTouch then
    let s1 := _readTouchPin env FEEDER_TOUCH_PIN FeederCountRef leftFeederDurRef s
    let s2 := _callDisplayCallback s1
    let s3 := _callLogCallback s2
    let s4 := setTf (fun t => { t with _feedTouch := false }) s3
    setTf (fun t => { t with leftFeederDur := 0 }) s4
  else s

def checkRight (env : Env) (s : Sys) : Sys :=
  if s.tf._rightTouch then
    let s1 := _readTouchPin env RIGHT_TOUCH_PIN rightPokeCountRef rightPokeDurRef s
    let s2 := _callDisplayCallback s1
    let s3 := _callLogCallback s2
    let s4 := setTf (fun t => { t with _rightTouch := false }) s3
    setTf (fun t => { t with rightPokeDur := 0 }) s4
  else s

/-- The wait loop of `checkLeft`:
`while (millis() - feederStart < (openDuration * 1000)) checkFeeder();`. -/
def openWaitLoop (env : Env) (feederStart openDuration : Nat) : Nat → Sys → Sys
  | 0, s => s
  | fuel + 1, s =>
    if ulongSub (millis s).1 feederStart < ulongMul openDuration 1000 then
      openWaitLoop env feederStart openDuration fuel (tick (checkFeeder env (millis s).2))
    else (millis s).2

/-- Number of turns that exhausts `openWaitLoop`. -/
def openWaitFuel (openDuration : Nat) : Nat := ulongMul openDuration 1000 + 2

/-- The statements of `checkLeft` up to the fixed-ratio test: read, notify, clear. -/
def leftRecord (env : Env) (s : Sys) : Sys :=
  let s1 := _readTouchPin env LEFT_TOUCH_PIN leftPokeCountRef leftPokeDurRef s
  let s2 := _callDisplayCallback s1
  let s3 := _callLogCallback s2
  let s4 := setTf (fun t => { t with _leftTouch := false }) s3
  setTf (fun t => { t with leftPokeDur := 0 }) s4

/-- The open window of `checkLeft`: `feederStart = millis();` followed by the wait loop. -/
def openWindow (env : Env) (openDuration : Nat) (s : Sys) : Sys :=
  let feederStart := (millis s).1
  openWaitLoop env feederStart openDuration (openWaitFuel openDuration) (millis s).2

/-- The method `checkLeft`. The fixed-ratio test is `leftPokeCount % _FR == 0`; `_FR` is
never `0` in a run from the constructor (`Int.tmod` by `0` returns the dividend). -/
def checkLeft (env : Env) (openDuration : Nat) (s : Sys) : Sys :=
  if s.tf._leftTouch then
    let s5 := leftRecord env s
    if Int.tmod s5.tf.leftPokeCount s5.tf._FR = 0 then
      let s6 := feederOpen s5
      if s6.hung then s6 else feederClose (openWindow env openDuration s6)
    else s5
  else s

/-- The method `checkInputs`: `checkRight(); checkLeft(openDuration); checkFeeder();`. -/
def checkInputs (env : Env) (openDuration : Nat) (s : Sys) : Sys :=
  let s1 := checkRight env s
  if s1.hung then s1 else
    let s2 := checkLeft env openDuration s1
    if s2.hung then s2 else checkFeeder env s2

def freeInputs (env : Env) (s : Sys) : Sys :=
  let s1 := checkFeeder env (checkRight env s)
  if s1.tf._leftTouch then leftRecord env s1 else s1

/-! ## Getters and reset -/

def getLeftPokeCount (s : Sys) : Int := s.tf.leftPokeCount
def getRightPokeCount (s : Sys) : Int := s.tf.rightPokeCount
def getFeederCount (s : Sys) : Int := s.tf.FeederCount
def getLeftPokeDur (s : Sys) : Int := s.tf.leftPokeDur
def getRightPokeDur (s : Sys) : Int := s.tf.rightPokeDur
def getLeftFeederDur (s : Sys) : Int := s.tf.leftFeederDur
def getFR (s : Sys) : Int := s.tf._FR

def resetCounts (s : Sys) : Sys :=
  setTf (fun t => { t with leftPokeCount := 0, rightPokeCount := 0, FeederCount := 0,
                           leftPokeDur := 0, rightPokeDur := 0, leftFeederDur := 0 }) s

/-! ## Public operations as data -/

/-- The public operations that change the state. -/
inductive Op where
  | begin (closedPosition openPosition : Int)
  | setFR (fr : Int)
  | setOpenDuration (seconds : Nat)
  | setPositions (openPos closedPos : Int)
  | setLogCallback (callback : Option Nat)
  | setDisplayCallback (callback : Option Nat)
  | feederOpen
  | feederClose
  | shakeFood
  | shake
  | checkLeft (openDuration : Nat)
  | checkRight
  | checkFeeder
  | checkInputs (openDuration : Nat)
  | freeInputs
  | handleLeftTouch
  | handleRightTouch
  | handleFeederTouch
  | resetCounts
deriving DecidableEq, Repr

/-- Effect of one public operation. -/
def step (env : Env) : Op → Sys → Sys
  | Op.begin c o => begin c o
  | Op.setFR fr => setFR fr
  | Op.setOpenDuration n => setOpenDuration n
  | Op.setPositions o c => setPositions o c
  | Op.setLogCallback cb => setLogCallback cb
  | Op.setDisplayCallback cb => setDisplayCallback cb
  | Op.feederOpen => feederOpen
  | Op.feederClose => feederClose
  | Op.shakeFood => shakeFood
  | Op.shake => shake
  | Op.checkLeft d => checkLeft env d
  | Op.checkRight => checkRight env
  | Op.checkFeeder => checkFeeder env
  | Op.checkInputs d => checkInputs env d
  | Op.freeInputs => freeInputs env
  | Op.handleLeftTouch => handleLeftTouch
  | Op.handleRightTouch => handleRightTouch
  | Op.handleFeederTouch => handleFeederTouch
  | Op.resetCounts => resetCounts

/-- Effect of a sequence of public operations, first to last. An operation is called when
the one before it returned. -/
def run (env : Env) : List Op → Sys → Sys
  | [], s => s
  | op :: ops, s =>
    let s1 := step env op s
    if s1.hung then s1 else run env ops s1

/-! ## Vocabulary for stating properties of traces -/

/-- Effects that drive the indicator or the servo. -/
def isActuation : Effect → Bool
  | Effect.digitalWrite _ _ => true
  | Effect.servoAttach _ => true
  | Effect.servoWrite _ => true
  | Effect.servoDetach => true
  | _ => false

/-- Invocations of a registered callback. -/
def isCallback : Effect → Bool
  | Effect.displayCallback _ _ => true
  | Effect.logCallback _ _ => true
  | _ => false

/-- The effects added to the trace between `before` and `after`. -/
def newEffects (before after : Sys) : List Effect := after.trace.drop before.trace.length

/-- The trace of `s'` is the trace of `s` followed by effects that all satisfy `P`. -/
def Adds (P : Effect → Prop) (s s' : Sys) : Prop :=
  ∃ l, s'.trace = s.trace ++ l ∧ ∀ e ∈ l, P e

/-- Effects of a downward sweep of `n` steps starting at `pos`. -/
def sweepDown : Nat → Int → List Effect
  | 0, _ => []
  | n + 1, pos => Effect.servoWrite pos :: Effect.delay 50 :: sweepDown n (pos - 1)

/-- Effects of an upward sweep of `n` steps starting at `pos`. -/
def sweepUp : Nat → Int → List Effect
  | 0, _ => []
  | n + 1, pos => Effect.servoWrite pos :: Effect.delay 50 :: sweepUp n (pos + 1)

/-- Number of consecutive milliseconds, from `t` on and at most `fuel`, at which the
line reads `LOW`. -/
def lowRunAux (env : Env) (pin : Pin) : Nat → Nat → Nat
  | 0, _ => 0
  | fuel + 1, t => if lineLevel env pin t = Level.LOW then lowRunAux env pin fuel (t + 1) + 1 else 0

/-- How long the line stays `LOW` from time `t` on. -/
def lowRun (env : Env) (pin : Pin) (t : Nat) : Nat := lowRunAux env pin (env.horizon - t) t

/-- Effects of waiting out a touch that lasts `n` more milliseconds. -/
def holdEffects (pin : Pin) : Nat → List Effect
  | 0 => [Effect.digitalRead pin Level.HIGH]
  | n + 1 => Effect.digitalRead pin Level.LOW :: Effect.delay 1 :: holdEffects pin n

/-- The callback invocations of one notification, display first, observing `t`. -/
def notifyEffects (t : TumbleFeeder) : List Effect :=
  (match t._displayCallback with
    | some fn => [Effect.displayCallback fn t]
    | none => []) ++
  (match t._logCallback with
    | some fn => [Effect.logCallback fn t]
    | none => [])

/-- The duration stored for a touch that is read from time `t` on, on a board whose `int`
has `16 + e` bits: the `unsigned long` difference of the two clock readings, as an `int`. -/
def measured (env : Env) (e : Nat) (pin : Pin) (t : Nat) : Int :=
  wrapInt e (Int.ofNat (ulongSub ((t + lowRun env pin t) % ULONG_MOD) (t % ULONG_MOD)))

/-- Effects of `_readTouchPin` on `pin` when it starts at time `t`. -/
def senseEffects (env : Env) (pin : Pin) (t : Nat) : List Effect :=
  Effect.millis (t % ULONG_MOD) :: holdEffects pin (lowRun env pin t)
    ++ [Effect.millis ((t + lowRun env pin t) % ULONG_MOD)]

/-- Effects of `n` further turns of the open window entered at time `t`: one clock poll
per turn and the poll that ends the window. -/
def spinEffects : Nat → Nat → List Effect
  | 0, t => [Effect.millis (t % ULONG_MOD)]
  | n + 1, t => Effect.millis (t % ULONG_MOD) :: spinEffects n (t + 1)

/-- Milliseconds left in the open window at time `t`. -/
def windowLeft (feederStart openDuration t : Nat) : Nat :=
  ulongMul openDuration 1000 - ulongSub (t % ULONG_MOD) feederStart

/-- Rounds of one left touch followed by `checkLeft`; the round `i` is polled with the
open duration `ds[i]`. -/
def leftRounds (env : Env) : List Nat → Sys → Sys
  | [], s => s
  | d :: ds, s =>
    let s1 := checkLeft env d (handleLeftTouch s)
    if s1.hung then s1 else leftRounds env ds s1

/-- The reward path of `checkLeft`: `feederOpen`, the open window, `feederClose`. -/
def rewardPath (env : Env) (openDuration : Nat) (s5 : Sys) : Sys :=
  let s6 := feederOpen s5
  if s6.hung then s6 else feederClose (openWindow env openDuration s6)

/-- An environment in which no sensor line is ever active. -/
def quietEnv : Env := ⟨fun _ _ => false, 0⟩

/-- An environment in which every sensor line is active during the first 10 ms of every
100 ms, up to the time 100000. -/
def pulseEnv : Env := ⟨fun _ t => decide (t % 100 < 10), 100000⟩

/-- An environment in which every sensor line is held active until the time `T`. -/
def holdEnv (T : Nat) : Env := ⟨fun _ t => decide (t < T), T⟩

/-- Free-feeding rounds: `k` times one left touch followed by `freeInputs`. -/
def freeRounds (env : Env) : Nat → Sys → Sys
  | 0, s => s
  | k + 1, s => freeRounds env k (freeInputs env (handleLeftTouch s))

/-- The fields as the callbacks of a left activation processed from the state `s` observe
them. -/
def seenLeft (env : Env) (s : Sys) : TumbleFeeder :=
  { s.tf with leftPokeCount := intSucc s.extraBits s.tf.leftPokeCount,
              leftPokeDur := measured env s.extraBits LEFT_TOUCH_PIN s.now }

/-- The fields as the callbacks of a right activation processed from the state `s` observe
them. -/
def seenRight (env : Env) (s : Sys) : TumbleFeeder :=
  { s.tf with rightPokeCount := intSucc s.extraBits s.tf.rightPokeCount,
              rightPokeDur := measured env s.extraBits RIGHT_TOUCH_PIN s.now }

/-- The fields as the callbacks of a feeder activation processed from the state `s` observe
them. -/
def seenFeeder (env : Env) (s : Sys) : TumbleFeeder :=
  { s.tf with FeederCount := intSucc s.extraBits s.tf.FeederCount,
              leftFeederDur := measured env s.extraBits FEEDER_TOUCH_PIN s.now }

/-- A controller after `begin(150, 0)` with display callback `1` and log callback `2`
registered and all three touches pending, at time `0`, on a board with 16-bit `int`. -/
def demoState : Sys :=
  handleFeederTouch (handleLeftTouch (handleRightTouch
    (setLogCallback (some 2) (setDisplayCallback (some 1) (begin 150 0 (boot 0 0 0 0))))))

/-- Servo writes. -/
def isServoWrite : Effect → Bool
  | Effect.servoWrite _ => true
  | _ => false

/-- The sum of the `delay` arguments in a list of effects. -/
def totalDelay : List Effect → Nat
  | [] => 0
  | Effect.delay ms :: l => ms + totalDelay l
  | _ :: l => totalDelay l

/-- The state `v` differs from `u` at most in the stored open duration, which is `x` in `v`,
and in the trace. -/
def StoredOnly (x : Nat) (u v : Sys) : Prop :=
  v.now = u.now ∧ v.ledHigh = u.ledHigh ∧ v.servoAttached = u.servoAttached ∧
  v.tf = { u.tf with _openDuration := x } ∧
  v.extraBits = u.extraBits ∧ v.hung = u.hung

/-- The polling sequence in the words of the specification: right, then left, then feeder. -/
def pollAllSpec (env : Env) (openDuration : Nat) (s : Sys) : Sys :=
  run env [Op.checkRight, Op.checkLeft openDuration, Op.checkFeeder] s

/-- The callback calls among a list of effects, in order. -/
def callbacks (l : List Effect) : List Effect := l.filter isCallback

/-- In the effects `tr`, no indicator or servo effect comes after a display call that observes
the feeder counter at `n`: every reward cycle is over before the feeder activation number `n`
is notified. -/
def RewardBeforeFeederCalls (n : Int) (tr : List Effect) : Prop :=
  ∀ pre post fn f, tr = pre ++ Effect.displayCallback fn f :: post → f.FeederCount = n →
    ∀ e ∈ post, isActuation e = false

/-- From `s` to `s'` durations that were all zero are all zero, a call that did not return
is not forgotten, and, when every call returned, an indicator that was low and a servo that
was detached are so again. -/
def Steady (s s' : Sys) : Prop :=
  (s.tf.leftPokeDur = 0 ∧ s.tf.rightPokeDur = 0 ∧ s.tf.leftFeederDur = 0 →
    s'.tf.leftPokeDur = 0 ∧ s'.tf.rightPokeDur = 0 ∧ s'.tf.leftFeederDur = 0) ∧
  s'.extraBits = s.extraBits ∧
  (s.hung = true → s'.hung = true) ∧
  (s'.hung = false → s.ledHigh = false → s'.ledHigh = false) ∧
  (s'.hung = false → s.servoAttached = false → s'.servoAttached = false)

/-- From `s` to `s'` each counter is unchanged or incremented once. -/
def CountedOnce (s s' : Sys) : Prop :=
  (s'.tf.leftPokeCount = s.tf.leftPokeCount ∨
    s'.tf.leftPokeCount = intSucc s.extraBits s.tf.leftPokeCount) ∧
  (s'.tf.rightPokeCount = s.tf.rightPokeCount ∨
    s'.tf.rightPokeCount = intSucc s.extraBits s.tf.rightPokeCount) ∧
  (s'.tf.FeederCount = s.tf.FeederCount ∨
    s'.tf.FeederCount = intSucc s.extraBits s.tf.FeederCount)

/-- `1` for a pending flag, `0` otherwise. -/
def pendingCount (b : Bool) : Int := if b then 1 else 0

/-- The counter `x` after a poll of its sensor: incremented when the flag `b` is pending. -/
def bump (e : Nat) (b : Bool) (x : Int) : Int := if b then intSucc e x else x

/-- The turns of the loop of `feederOpen` from `pos` on, with at most `fuel` evaluations of
its condition: their effects, and whether the loop is left through its condition. -/
def openSweep (e : Nat) (openPos : Int) : Nat → Int → List Effect × Bool
  | 0, _ => ([], false)
  | fuel + 1, pos =>
    if pos ≥ openPos then
      (Effect.servoWrite pos :: Effect.delay 50 :: (openSweep e openPos fuel (intPred e pos)).1,
       (openSweep e openPos fuel (intPred e pos)).2)
    else ([], true)

/-- The turns of the loop of `feederClose` from `pos` on. -/
def closeSweep (e : Nat) (closedPos : Int) : Nat → Int → List Effect × Bool
  | 0, _ => ([], false)
  | fuel + 1, pos =>
    if pos ≤ closedPos then
      (Effect.servoWrite pos :: Effect.delay 50 :: (closeSweep e closedPos fuel (intSucc e pos)).1,
       (closeSweep e closedPos fuel (intSucc e pos)).2)
    else ([], true)

/-- The loop of `feederOpen` on a controller with fields `t`. -/
def openRun (e : Nat) (t : TumbleFeeder) : List Effect × Bool :=
  openSweep e t._openPos (sweepTurns e) t._closedPos

/-- The loop of `feederClose` on a controller with fields `t`. -/
def closeRun (e : Nat) (t : TumbleFeeder) : List Effect × Bool :=
  closeSweep e t._closedPos (sweepTurns e) t._openPos

/-- Positions for which the loop of `feederOpen` ends: `pos` can go below `_openPos`. -/
def OpenEnds (e : Nat) (t : TumbleFeeder) : Prop :=
  INT_MIN e < t._openPos ∧ t._closedPos ≤ INT_MAX e

/-- Positions for which the loop of `feederClose` ends: `pos` can go above `_closedPos`. -/
def CloseEnds (e : Nat) (t : TumbleFeeder) : Prop :=
  t._closedPos < INT_MAX e ∧ INT_MIN e ≤ t._openPos

/-- Positions for which both sweeps end: `INT_MIN < _openPos` and `_closedPos < INT_MAX`. -/
def SweepsEnd (s : Sys) : Prop :=
  INT_MIN s.extraBits < s.tf._openPos ∧ s.tf._closedPos < INT_MAX s.extraBits

/-- The positions given to `begin` and `setPositions` in `ops` are positions for which both
sweeps end on a board whose `int` has `16 + e` bits. -/
def OpsInRange (e : Nat) : List Op → Prop
  | [] => True
  | Op.begin c o :: ops => (INT_MIN e < o ∧ c < INT_MAX e) ∧ OpsInRange e ops
  | Op.setPositions o c :: ops => (INT_MIN e < o ∧ c < INT_MAX e) ∧ OpsInRange e ops
  | _ :: ops => OpsInRange e ops

/-- The three counters are `int` values below `INT_MAX`: incrementing them is exact. -/
def CountersBelowMax (s : Sys) : Prop :=
  (INT_MIN s.extraBits ≤ s.tf.leftPokeCount ∧ s.tf.leftPokeCount < INT_MAX s.extraBits) ∧
  (INT_MIN s.extraBits ≤ s.tf.rightPokeCount ∧ s.tf.rightPokeCount < INT_MAX s.extraBits) ∧
  (INT_MIN s.extraBits ≤ s.tf.FeederCount ∧ s.tf.FeederCount < INT_MAX s.extraBits)

/-- The effects of `feederOpen` on a controller with fields `t`. -/
def feederOpenEffects (t : TumbleFeeder) : List Effect :=
  [Effect.digitalWrite LED_PIN Level.HIGH, Effect.servoAttach SERVO_PIN]
    ++ sweepDown (sweepFuel t) t._closedPos
    ++ [Effect.servoDetach, Effect.digitalWrite LED_PIN Level.LOW]

/-- The effects of `feederClose` on a controller with fields `t`. -/
def feederCloseEffects (t : TumbleFeeder) : List Effect :=
  [Effect.digitalWrite LED_PIN Level.HIGH, Effect.servoAttach SERVO_PIN]
    ++ sweepUp (sweepFuel t) t._openPos
    ++ [Effect.servoDetach, Effect.digitalWrite LED_PIN Level.LOW]

/-- The call of the log callback, if one is registered, observing `t`. -/
def logEffects (t : TumbleFeeder) : List Effect :=
  match t._logCallback with
  | some fn => [Effect.logCallback fn t]
  | none => []

/-- Calls of the display callback. -/
def isDisplayCall : Effect → Bool
  | Effect.displayCallback _ _ => true
  | _ => false

/-- The effects of a sweep: servo writes and delays only. -/
def isSweepEffect : Effect → Bool
  | Effect.servoWrite _ => true
  | Effect.delay _ => true
  | _ => false

/-- The servo angles written by a list of effects, in order. -/
def writtenAngles : List Effect → List Int
  | [] => []
  | Effect.servoWrite pos :: l => pos :: writtenAngles l
  | _ :: l => writtenAngles l

/-- The operation `f` performed `k` times in a row. -/
def repeatOp (f : Sys → Sys) : Nat → Sys → Sys
  | 0, s => s
  | k + 1, s => repeatOp f k (f s)

/-- Time passing in the caller between two calls: the clock advances by `ms`. -/
def elapse (ms : Nat) (s : Sys) : Sys := { s with now := s.now + ms }

/-- The scenario of the specification: `begin(150, 0)`, fixed ratio 3, display callback `1`
and log callback `2`, at time `0`. -/
def scenarioStart : Sys :=
  setLogCallback (some 2) (setDisplayCallback (some 1) (setFR 3 (begin 150 0 (boot 0 0 0 0))))

/-- The fields of the scenario when the left counter is `n` and the left flag is `pending`. -/
def scenarioFields (n : Int) (pending : Bool) : TumbleFeeder :=
  { leftPokeCount := n, rightPokeCount := 0, FeederCount := 0,
    leftPokeDur := 0, rightPokeDur := 0, leftFeederDur := 0,
    _closedPos := 150, _openPos := 0, _FR := 3,
    _leftTouch := pending, _rightTouch := false, _feedTouch := false,
    _openDuration := 60, _logCallback := some 2, _displayCallback := some 1 }

/-- First left edge, at time 0; the line is held for 10 ms. -/
def edge1 : Sys := handleLeftTouch scenarioStart

def after1 : Sys := checkLeft pulseEnv 2 edge1

/-- Second left edge, at time 100. -/
def edge2 : Sys := handleLeftTouch (elapse 90 after1)

def after2 : Sys := checkLeft pulseEnv 2 edge2

/-- Third left edge, at time 200. -/
def edge3 : Sys := handleLeftTouch (elapse 90 after2)

def after3 : Sys := checkLeft pulseEnv 2 edge3

/-- The fields observed by the callbacks of the third activation. -/
def scenarioSeen : TumbleFeeder := { scenarioFields 3 true with leftPokeDur := 10 }

/-- The configuration (positions, ratio, stored open duration, callbacks) is the same in `t`
and `t'`. -/
def SameSetup (t t' : TumbleFeeder) : Prop :=
  t'._closedPos = t._closedPos ∧ t'._openPos = t._openPos ∧ t'._FR = t._FR ∧
  t'._openDuration = t._openDuration ∧ t'._logCallback = t._logCallback ∧
  t'._displayCallback = t._displayCallback

/-- On a board whose `int` has `16 + e` bits: a controller after `begin(150, 0)` and
`setFR(3)` that has processed `2 ^ (15 + e)` left activations by `checkLeft(0)`, with one
more left touch pending. -/
def afterMaxRounds (e : Nat) : Sys :=
  handleLeftTouch (leftRounds quietEnv (List.replicate (2 ^ (15 + e)) 0)
    (setFR 3 (begin 150 0 (boot e 0 0 0))))

/-- A controller after `begin(150, 0)` on a board whose `int` has `16 + e` bits, with display
callback `1` and log callback `2` registered and all three touches pending, at time `0`. -/
def demoBoard (e : Nat) : Sys :=
  handleFeederTouch (handleLeftTouch (handleRightTouch
    (setLogCallback (some 2) (setDisplayCallback (some 1) (begin 150 0 (boot e 0 0 0))))))

/-- A controller after `begin(150, 0)` on a board whose `int` has `16 + e` bits. -/
def freshBoard (e : Nat) : Sys := begin 150 0 (boot e 0 0 0)

/-- On a board whose `int` has `16 + e` bits: a controller with log callback `2` registered
whose closed position is `INT_MAX` (`setPositions(0, INT_MAX)`). -/
def closedAtMax (e : Nat) : Sys :=
  setPositions 0 (INT_MAX e) (setLogCallback (some 2) (freshBoard e))

/-- On a board whose `int` has `16 + e` bits: a controller whose open and closed positions
are `INT_MIN` (`setPositions(INT_MIN, INT_MIN)`). -/
def openAtMin (e : Nat) : Sys := setPositions (INT_MIN e) (INT_MIN e) (freshBoard e)

/-! # Properties

## Traces -/

theorem Adds.refl (P : Effect → Prop) (s : Sys) : Adds P s s := ⟨[], by simp, by simp⟩

theorem Adds.of_trace_eq {P : Effect → Prop} {s s' : Sys} (h : s'.trace = s.trace) : Adds P s s' :=
  ⟨[], by simp [h], by simp⟩

theorem Adds.trans {P : Effect → Prop} {a b c : Sys} (h1 : Adds P a b) (h2 : Adds P b c) :
    Adds P a c := by
  obtain ⟨l1, e1, p1⟩ := h1
  obtain ⟨l2, e2, p2⟩ := h2
  refine ⟨l1 ++ l2, by simp [e2, e1], ?_⟩
  intro e he
  rcases List.mem_append.mp he with h | h
  · exact p1 e h
  · exact p2 e h

theorem Adds.mono {P Q : Effect → Prop} {s s' : Sys} (h : Adds P s s') (hPQ : ∀ e, P e → Q e) :
    Adds Q s s' := by
  obtain ⟨l, e1, p1⟩ := h
  exact ⟨l, e1, fun e he => hPQ e (p1 e he)⟩

theorem Adds.emit {P : Effect → Prop} {e : Effect} (s : Sys) (h : P e) : Adds P s (emit e s) :=
  ⟨[e], rfl, by simpa using h⟩

theorem Adds.newEffects {P : Effect → Prop} {s s' : Sys} (h : Adds P s s') :
    s'.trace = s.trace ++ newEffects s s' ∧ ∀ e ∈ newEffects s s', P e := by
  obtain ⟨l, e1, p1⟩ := h
  have : TumbleFeeder.newEffects s s' = l := by simp [TumbleFeeder.newEffects, e1]
  rw [this]; exact ⟨e1, p1⟩

theorem newEffects_append {P Q : Effect → Prop} {a b c : Sys} (h1 : Adds P a b) (h2 : Adds Q b c) :
    newEffects a c = newEffects a b ++ newEffects b c := by
  have e1 := h1.newEffects.1
  have e2 := h2.newEffects.1
  have : c.trace = a.trace ++ (TumbleFeeder.newEffects a b ++ TumbleFeeder.newEffects b c) := by
    rw [e2, e1]; simp
  conv_lhs => rw [TumbleFeeder.newEffects, this]
  simp

theorem newEffects_of_trace {s s' : Sys} {l : List Effect} (h : s'.trace = s.trace ++ l) :
    newEffects s s' = l := by
  simp [newEffects, h]

theorem newEffects_self (s : Sys) : newEffects s s = [] := by
  simp [newEffects]

theorem Adds.of_trace {P : Effect → Prop} {s s' : Sys} {l : List Effect}
    (h : s'.trace = s.trace ++ l) (hl : ∀ e ∈ l, P e) : Adds P s s' := ⟨l, h, hl⟩

theorem Adds.any {P : Effect → Prop} {s s' : Sys} (h : Adds P s s') : Adds (fun _ => True) s s' :=
  h.mono (fun _ _ => trivial)

/-! ## Arithmetic of `int` -/

theorem pow_bits (e : Nat) : (2 : Int) ^ (16 + e) = 2 * 2 ^ (15 + e) := by
  have : 16 + e = (15 + e) + 1 := by omega
  rw [this, pow_succ]; ring

theorem pow_bits_pos (e : Nat) : (0 : Int) < 2 ^ (15 + e) := by positivity

theorem pow_bits_ge (e : Nat) : (32768 : Int) ≤ 2 ^ (15 + e) := by
  have h : (2 : Int) ^ (15 + e) = 32768 * 2 ^ e := by rw [pow_add]; norm_num
  have h2 : (1 : Int) ≤ 2 ^ e := one_le_pow₀ (by norm_num)
  rw [h]; omega

/-- An `int` value is not changed by the conversion to `int`. -/
theorem wrapInt_of_fits (e : Nat) (x : Int) (h1 : INT_MIN e ≤ x) (h2 : x ≤ INT_MAX e) :
    wrapInt e x = x := by
  unfold wrapInt
  unfold INT_MIN at h1
  unfold INT_MAX at h2
  have hp := pow_bits e
  rw [Int.emod_eq_of_lt (by omega) (by omega)]
  omega

/-- The conversion to `int` gives an `int`. -/
theorem wrapInt_range (e : Nat) (x : Int) : INT_MIN e ≤ wrapInt e x ∧ wrapInt e x ≤ INT_MAX e := by
  unfold wrapInt INT_MIN INT_MAX
  have hp := pow_bits e
  have hpos := pow_bits_pos e
  have h1 := Int.emod_nonneg (x + 2 ^ (15 + e)) (by omega : (2 : Int) ^ (16 + e) ≠ 0)
  have h2 := Int.emod_lt_of_pos (x + 2 ^ (15 + e)) (by omega : (0 : Int) < 2 ^ (16 + e))
  constructor <;> omega

theorem wrapInt_add (e : Nat) (x y : Int) : wrapInt e (wrapInt e x + y) = wrapInt e (x + y) := by
  unfold wrapInt
  have : (x + 2 ^ (15 + e)) % 2 ^ (16 + e) - 2 ^ (15 + e) + y + 2 ^ (15 + e)
      = (x + 2 ^ (15 + e)) % 2 ^ (16 + e) + y := by ring
  rw [this, Int.emod_add_emod]
  have : x + 2 ^ (15 + e) + y = x + y + 2 ^ (15 + e) := by ring
  rw [this]

theorem intSucc_of_lt (e : Nat) (x : Int) (h1 : INT_MIN e ≤ x) (h2 : x < INT_MAX e) :
    intSucc e x = x + 1 := by
  unfold intSucc
  exact wrapInt_of_fits e _ (by omega) (by omega)

theorem intPred_of_gt (e : Nat) (x : Int) (h1 : INT_MIN e < x) (h2 : x ≤ INT_MAX e) :
    intPred e x = x - 1 := by
  unfold intPred
  exact wrapInt_of_fits e _ (by omega) (by omega)

/-- Incrementing the largest `int` gives the smallest one. -/
theorem intSucc_max (e : Nat) : intSucc e (INT_MAX e) = INT_MIN e := by
  unfold intSucc wrapInt INT_MAX INT_MIN
  have hp := pow_bits e
  have hpos := pow_bits_pos e
  have : (2 : Int) ^ (15 + e) - 1 + 1 + 2 ^ (15 + e) = 2 ^ (16 + e) := by omega
  rw [this, Int.emod_self]
  omega

/-- Decrementing the smallest `int` gives the largest one. -/
theorem intPred_min (e : Nat) : intPred e (INT_MIN e) = INT_MAX e := by
  unfold intPred wrapInt INT_MAX INT_MIN
  have hp := pow_bits e
  have hpos := pow_bits_pos e
  have : -(2 : Int) ^ (15 + e) - 1 + 2 ^ (15 + e) = -1 := by omega
  rw [this]
  have h2 : (-1 : Int) % 2 ^ (16 + e) = 2 ^ (16 + e) - 1 := by
    have := Int.emod_emod_of_dvd (-1) (dvd_refl ((2 : Int) ^ (16 + e)))
    have h3 : (-1 : Int) = (2 ^ (16 + e) - 1) + (-1) * 2 ^ (16 + e) := by ring
    conv_lhs => rw [h3]
    rw [Int.add_mul_emod_self]
    exact Int.emod_eq_of_lt (by omega) (by omega)
  rw [h2]; omega

theorem intSucc_range (e : Nat) (x : Int) : INT_MIN e ≤ intSucc e x ∧ intSucc e x ≤ INT_MAX e :=
  wrapInt_range e _

theorem intPred_range (e : Nat) (x : Int) : INT_MIN e ≤ intPred e x ∧ intPred e x ≤ INT_MAX e :=
  wrapInt_range e _

theorem sweepTurns_cast (e : Nat) : ((sweepTurns e : Nat) : Int) = 2 * 2 ^ (15 + e) := by
  unfold sweepTurns
  push_cast
  exact pow_bits e

/-! ## The sweeps of the servo -/

theorem totalDelay_append (l1 l2 : List Effect) :
    totalDelay (l1 ++ l2) = totalDelay l1 + totalDelay l2 := by
  induction l1 with
  | nil => simp [totalDelay]
  | cons e l ih => cases e <;> simp [totalDelay, ih]; omega

theorem sweepDown_count (n : Nat) (pos : Int) :
    (sweepDown n pos).countP isServoWrite = n ∧ totalDelay (sweepDown n pos) = 50 * n := by
  induction n generalizing pos with
  | zero => simp [sweepDown, totalDelay]
  | succ k ih =>
    have := ih (pos - 1)
    simp only [sweepDown, List.countP_cons, totalDelay, isServoWrite, this.1, this.2]
    constructor
    · simp
    · omega

theorem sweepUp_count (n : Nat) (pos : Int) :
    (sweepUp n pos).countP isServoWrite = n ∧ totalDelay (sweepUp n pos) = 50 * n := by
  induction n generalizing pos with
  | zero => simp [sweepUp, totalDelay]
  | succ k ih =>
    have := ih (pos + 1)
    simp only [sweepUp, List.countP_cons, totalDelay, isServoWrite, this.1, this.2]
    constructor
    · simp
    · omega

theorem mem_sweepDown_kind (n : Nat) (pos : Int) (e : Effect) (h : e ∈ sweepDown n pos) :
    isSweepEffect e = true := by
  induction n generalizing pos with
  | zero => simp [sweepDown] at h
  | succ k ih =>
    simp only [sweepDown, List.mem_cons] at h
    rcases h with h | h | h
    · subst h; rfl
    · subst h; rfl
    · exact ih _ h

theorem mem_sweepUp_kind (n : Nat) (pos : Int) (e : Effect) (h : e ∈ sweepUp n pos) :
    isSweepEffect e = true := by
  induction n generalizing pos with
  | zero => simp [sweepUp] at h
  | succ k ih =>
    simp only [sweepUp, List.mem_cons] at h
    rcases h with h | h | h
    · subst h; rfl
    · subst h; rfl
    · exact ih _ h

theorem mem_openSweep_kind (e : Nat) (openPos : Int) (fuel : Nat) (pos : Int) (x : Effect)
    (h : x ∈ (openSweep e openPos fuel pos).1) : isSweepEffect x = true := by
  induction fuel generalizing pos with
  | zero => simp [openSweep] at h
  | succ k ih =>
    rw [openSweep] at h
    split at h
    · simp only [List.mem_cons] at h
      rcases h with h | h | h
      · subst h; rfl
      · subst h; rfl
      · exact ih _ h
    · simp at h

theorem mem_closeSweep_kind (e : Nat) (closedPos : Int) (fuel : Nat) (pos : Int) (x : Effect)
    (h : x ∈ (closeSweep e closedPos fuel pos).1) : isSweepEffect x = true := by
  induction fuel generalizing pos with
  | zero => simp [closeSweep] at h
  | succ k ih =>
    rw [closeSweep] at h
    split at h
    · simp only [List.mem_cons] at h
      rcases h with h | h | h
      · subst h; rfl
      · subst h; rfl
      · exact ih _ h
    · simp at h

theorem sweepEffect_kind (x : Effect) (h : isSweepEffect x = true) :
    isCallback x = false ∧ x ≠ Effect.servoDetach ∧
    x ≠ Effect.digitalWrite LED_PIN Level.LOW ∧ x ≠ Effect.digitalWrite LED_PIN Level.HIGH := by
  cases x <;> simp_all [isSweepEffect, isCallback]

/-- The loop of `feederOpen` adds the effects of its turns and the time of its delays. -/
theorem feederOpenLoop_eq (fuel : Nat) (pos : Int) (s : Sys) :
    feederOpenLoop fuel pos s =
      ({ s with now := s.now + totalDelay (openSweep s.extraBits s.tf._openPos fuel pos).1,
                trace := s.trace ++ (openSweep s.extraBits s.tf._openPos fuel pos).1 },
       (openSweep s.extraBits s.tf._openPos fuel pos).2) := by
  induction fuel generalizing pos s with
  | zero => simp [feederOpenLoop, openSweep, totalDelay]
  | succ n ih =>
    by_cases hpos : pos ≥ s.tf._openPos
    · rw [feederOpenLoop, if_pos hpos, ih, openSweep, if_pos hpos]
      simp [delay, servoWrite, emit, totalDelay]
      omega
    · rw [feederOpenLoop, if_neg hpos, openSweep, if_neg hpos]
      simp [totalDelay]

/-- The loop of `feederClose` adds the effects of its turns and the time of its delays. -/
theorem feederCloseLoop_eq (fuel : Nat) (pos : Int) (s : Sys) :
    feederCloseLoop fuel pos s =
      ({ s with now := s.now + totalDelay (closeSweep s.extraBits s.tf._closedPos fuel pos).1,
                trace := s.trace ++ (closeSweep s.extraBits s.tf._closedPos fuel pos).1 },
       (closeSweep s.extraBits s.tf._closedPos fuel pos).2) := by
  induction fuel generalizing pos s with
  | zero => simp [feederCloseLoop, closeSweep, totalDelay]
  | succ n ih =>
    by_cases hpos : pos ≤ s.tf._closedPos
    · rw [feederCloseLoop, if_pos hpos, ih, closeSweep, if_pos hpos]
      simp [delay, servoWrite, emit, totalDelay]
      omega
    · rw [feederCloseLoop, if_neg hpos, closeSweep, if_neg hpos]
      simp [totalDelay]

/-- The call `feederOpen()` when its loop ends. -/
theorem feederOpen_returns (s : Sys) (h : (openRun s.extraBits s.tf).2 = true) :
    feederOpen s =
      { s with
        now := s.now + totalDelay (openRun s.extraBits s.tf).1
        ledHigh := false
        servoAttached := false
        trace := s.trace ++ ([Effect.digitalWrite LED_PIN Level.HIGH, Effect.servoAttach SERVO_PIN]
          ++ (openRun s.extraBits s.tf).1
          ++ [Effect.servoDetach, Effect.digitalWrite LED_PIN Level.LOW]) } := by
  unfold feederOpen
  simp only []
  rw [feederOpenLoop_eq]
  unfold openRun at h
  simp only [digitalWrite, servoAttach, emit] at h ⊢
  rw [if_pos h]
  simp [digitalWrite, servoDetach, emit, openRun]

/-- The call `feederOpen()` when its loop does not end: the board stays with the indicator
high and the servo attached. -/
theorem feederOpen_stuck (s : Sys) (h : (openRun s.extraBits s.tf).2 = false) :
    feederOpen s =
      { s with
        now := s.now + totalDelay (openRun s.extraBits s.tf).1
        ledHigh := true
        servoAttached := true
        hung := true
        trace := s.trace ++ ([Effect.digitalWrite LED_PIN Level.HIGH, Effect.servoAttach SERVO_PIN]
          ++ (openRun s.extraBits s.tf).1) } := by
  unfold feederOpen
  simp only []
  rw [feederOpenLoop_eq]
  unfold openRun at h
  simp only [digitalWrite, servoAttach, emit] at h ⊢
  rw [if_neg (by rw [h]; simp)]
  simp [openRun]

/-- The call `feederClose()` when its loop ends. -/
theorem feederClose_returns (s : Sys) (h : (closeRun s.extraBits s.tf).2 = true) :
    feederClose s =
      { s with
        now := s.now + totalDelay (closeRun s.extraBits s.tf).1
        ledHigh := false
        servoAttached := false
        trace := s.trace ++ ([Effect.digitalWrite LED_PIN Level.HIGH, Effect.servoAttach SERVO_PIN]
          ++ (closeRun s.extraBits s.tf).1
          ++ [Effect.servoDetach, Effect.digitalWrite LED_PIN Level.LOW]) } := by
  unfold feederClose
  simp only []
  rw [feederCloseLoop_eq]
  unfold closeRun at h
  simp only [digitalWrite, servoAttach, emit] at h ⊢
  rw [if_pos h]
  simp [digitalWrite, servoDetach, emit, closeRun]

/-- The call `feederClose()` when its loop does not end. -/
theorem feederClose_stuck (s : Sys) (h : (closeRun s.extraBits s.tf).2 = false) :
    feederClose s =
      { s with
        now := s.now + totalDelay (closeRun s.extraBits s.tf).1
        ledHigh := true
        servoAttached := true
        hung := true
        trace := s.trace ++ ([Effect.digitalWrite LED_PIN Level.HIGH, Effect.servoAttach SERVO_PIN]
          ++ (closeRun s.extraBits s.tf).1) } := by
  unfold feederClose
  simp only []
  rw [feederCloseLoop_eq]
  unfold closeRun at h
  simp only [digitalWrite, servoAttach, emit] at h ⊢
  rw [if_neg (by rw [h]; simp)]
  simp [closeRun]

/-- A downward loop whose bound is above `INT_MIN` ends after the angles from `pos` down to
`openPos`: `pos` never wraps around. -/
theorem openSweep_ends (e : Nat) (openPos : Int) (n fuel : Nat) (pos : Int)
    (hn : n = (pos - openPos + 1).toNat) (hf : n < fuel)
    (ho : INT_MIN e < openPos) (hp : pos ≤ INT_MAX e) :
    openSweep e openPos fuel pos = (sweepDown n pos, true) := by
  induction n generalizing fuel pos with
  | zero =>
    obtain ⟨f, rfl⟩ : ∃ f, fuel = f + 1 := ⟨fuel - 1, by omega⟩
    rw [openSweep, if_neg (by omega)]
    rfl
  | succ k ih =>
    obtain ⟨f, rfl⟩ : ∃ f, fuel = f + 1 := ⟨fuel - 1, by omega⟩
    have hpos : pos ≥ openPos := by omega
    rw [openSweep, if_pos hpos, intPred_of_gt e pos (by omega) hp,
      ih f (pos - 1) (by omega) (by omega) (by omega)]
    rfl

/-- An upward loop whose bound is below `INT_MAX` ends after the angles from `pos` up to
`closedPos`. -/
theorem closeSweep_ends (e : Nat) (closedPos : Int) (n fuel : Nat) (pos : Int)
    (hn : n = (closedPos - pos + 1).toNat) (hf : n < fuel)
    (hc : closedPos < INT_MAX e) (hp : INT_MIN e ≤ pos) :
    closeSweep e closedPos fuel pos = (sweepUp n pos, true) := by
  induction n generalizing fuel pos with
  | zero =>
    obtain ⟨f, rfl⟩ : ∃ f, fuel = f + 1 := ⟨fuel - 1, by omega⟩
    rw [closeSweep, if_neg (by omega)]
    rfl
  | succ k ih =>
    obtain ⟨f, rfl⟩ : ∃ f, fuel = f + 1 := ⟨fuel - 1, by omega⟩
    have hpos : pos ≤ closedPos := by omega
    rw [closeSweep, if_pos hpos, intSucc_of_lt e pos hp (by omega),
      ih f (pos + 1) (by omega) (by omega) (by omega)]
    rfl

theorem sweepFuel_lt_open (e : Nat) (t : TumbleFeeder) (h : OpenEnds e t) :
    sweepFuel t < sweepTurns e := by
  have hc := sweepTurns_cast e
  have hpos := pow_bits_pos e
  unfold OpenEnds INT_MIN INT_MAX at h
  unfold sweepFuel
  omega

theorem sweepFuel_lt_close (e : Nat) (t : TumbleFeeder) (h : CloseEnds e t) :
    sweepFuel t < sweepTurns e := by
  have hc := sweepTurns_cast e
  have hpos := pow_bits_pos e
  unfold CloseEnds INT_MIN INT_MAX at h
  unfold sweepFuel
  omega

/-- The turns allowed to the loop of `feederOpen` are enough when `INT_MIN < _openPos`: the
loop is left through its condition after the angles `_closedPos` down to `_openPos`. -/
theorem openRun_of_ends (e : Nat) (t : TumbleFeeder) (h : OpenEnds e t) :
    openRun e t = (sweepDown (sweepFuel t) t._closedPos, true) :=
  openSweep_ends e t._openPos (sweepFuel t) (sweepTurns e) t._closedPos rfl
    (sweepFuel_lt_open e t h) h.1 h.2

/-- The turns allowed to the loop of `feederClose` are enough when `_closedPos < INT_MAX`. -/
theorem closeRun_of_ends (e : Nat) (t : TumbleFeeder) (h : CloseEnds e t) :
    closeRun e t = (sweepUp (sweepFuel t) t._openPos, true) :=
  closeSweep_ends e t._closedPos (sweepFuel t) (sweepTurns e) t._openPos rfl
    (sweepFuel_lt_close e t h) h.1 h.2

/-- A downward loop whose bound is `INT_MIN` is not left, whatever the number of turns: its
condition `pos >= INT_MIN` holds for every `int`. Every turn writes one angle. -/
theorem openSweep_hangs (e : Nat) (openPos : Int) (fuel : Nat) (pos : Int)
    (ho : openPos ≤ INT_MIN e) (hp : INT_MIN e ≤ pos) :
    (openSweep e openPos fuel pos).2 = false ∧
    (openSweep e openPos fuel pos).1.countP isServoWrite = fuel ∧
    totalDelay (openSweep e openPos fuel pos).1 = 50 * fuel := by
  induction fuel generalizing pos with
  | zero => simp [openSweep, totalDelay]
  | succ k ih =>
    have := ih (intPred e pos) (intPred_range e pos).1
    rw [openSweep, if_pos (by omega)]
    simp only [List.countP_cons, totalDelay, isServoWrite, this.1, this.2.1, this.2.2]
    refine ⟨trivial, by simp, by omega⟩

/-- An upward loop whose bound is `INT_MAX` is not left, whatever the number of turns. -/
theorem closeSweep_hangs (e : Nat) (closedPos : Int) (fuel : Nat) (pos : Int)
    (hc : INT_MAX e ≤ closedPos) (hp : pos ≤ INT_MAX e) :
    (closeSweep e closedPos fuel pos).2 = false ∧
    (closeSweep e closedPos fuel pos).1.countP isServoWrite = fuel ∧
    totalDelay (closeSweep e closedPos fuel pos).1 = 50 * fuel := by
  induction fuel generalizing pos with
  | zero => simp [closeSweep, totalDelay]
  | succ k ih =>
    have := ih (intSucc e pos) (intSucc_range e pos).2
    rw [closeSweep, if_pos (by omega)]
    simp only [List.countP_cons, totalDelay, isServoWrite, this.1, this.2.1, this.2.2]
    refine ⟨trivial, by simp, by omega⟩

/-- The loop of `feederOpen` does not end when `_openPos` is `INT_MIN`. -/
theorem openRun_hangs (e : Nat) (t : TumbleFeeder)
    (ho : t._openPos ≤ INT_MIN e) (hc : INT_MIN e ≤ t._closedPos) :
    (openRun e t).2 = false ∧ (openRun e t).1.countP isServoWrite = sweepTurns e :=
  ⟨(openSweep_hangs e _ _ _ ho hc).1, (openSweep_hangs e _ _ _ ho hc).2.1⟩

/-- The loop of `feederClose` does not end when `_closedPos` is `INT_MAX`. -/
theorem closeRun_hangs (e : Nat) (t : TumbleFeeder)
    (hc : INT_MAX e ≤ t._closedPos) (ho : t._openPos ≤ INT_MAX e) :
    (closeRun e t).2 = false ∧ (closeRun e t).1.countP isServoWrite = sweepTurns e :=
  ⟨(closeSweep_hangs e _ _ _ hc ho).1, (closeSweep_hangs e _ _ _ hc ho).2.1⟩

theorem feederOpen_eq (s : Sys) (h : OpenEnds s.extraBits s.tf) :
    feederOpen s =
      { s with
        now := s.now + 50 * sweepFuel s.tf
        ledHigh := false
        servoAttached := false
        trace := s.trace ++ ([Effect.digitalWrite LED_PIN Level.HIGH, Effect.servoAttach SERVO_PIN]
          ++ sweepDown (sweepFuel s.tf) s.tf._closedPos
          ++ [Effect.servoDetach, Effect.digitalWrite LED_PIN Level.LOW]) } := by
  have hr := openRun_of_ends s.extraBits s.tf h
  rw [feederOpen_returns s (by rw [hr]), hr]
  simp only [(sweepDown_count _ _).2]

theorem feederClose_eq (s : Sys) (h : CloseEnds s.extraBits s.tf) :
    feederClose s =
      { s with
        now := s.now + 50 * sweepFuel s.tf
        ledHigh := false
        servoAttached := false
        trace := s.trace ++ ([Effect.digitalWrite LED_PIN Level.HIGH, Effect.servoAttach SERVO_PIN]
          ++ sweepUp (sweepFuel s.tf) s.tf._openPos
          ++ [Effect.servoDetach, Effect.digitalWrite LED_PIN Level.LOW]) } := by
  have hr := closeRun_of_ends s.extraBits s.tf h
  rw [feederClose_returns s (by rw [hr]), hr]
  simp only [(sweepUp_count _ _).2]

theorem SweepsEnd.openEnds {s : Sys} (h : SweepsEnd s) : OpenEnds s.extraBits s.tf :=
  ⟨h.1, le_of_lt h.2⟩

theorem SweepsEnd.closeEnds {s : Sys} (h : SweepsEnd s) : CloseEnds s.extraBits s.tf :=
  ⟨h.2, le_of_lt h.1⟩

theorem SweepsEnd.of_eq {s s' : Sys} (h : SweepsEnd s) (h1 : s'.tf._openPos = s.tf._openPos)
    (h2 : s'.tf._closedPos = s.tf._closedPos) (h3 : s'.extraBits = s.extraBits) :
    SweepsEnd s' := by
  unfold SweepsEnd at *
  rw [h1, h2, h3]; exact h

/-- What `feederOpen` leaves unchanged, and what it adds, whether or not its loop ends. -/
theorem feederOpen_frame (s : Sys) :
    (feederOpen s).tf = s.tf ∧ (feederOpen s).extraBits = s.extraBits ∧
    (s.hung = true → (feederOpen s).hung = true) ∧
    ((feederOpen s).hung = false → (feederOpen s).ledHigh = false ∧
      (feederOpen s).servoAttached = false ∧ (openRun s.extraBits s.tf).2 = true) ∧
    (∃ l, (feederOpen s).trace = s.trace ++ Effect.digitalWrite LED_PIN Level.HIGH :: l ∧
      ∀ x ∈ l, isCallback x = false) := by
  cases h : (openRun s.extraBits s.tf).2 with
  | true =>
    rw [feederOpen_returns s h]
    refine ⟨rfl, rfl, fun hh => hh, fun _ => ⟨rfl, rfl, rfl⟩, _, by simp; rfl, ?_⟩
    intro x hx
    simp only [List.mem_append, List.mem_cons, List.mem_singleton, List.not_mem_nil,
      or_false] at hx
    rcases hx with hx | hx | hx | hx
    · subst hx; rfl
    · exact (sweepEffect_kind x (mem_openSweep_kind _ _ _ _ x hx)).1
    · subst hx; rfl
    · subst hx; rfl
  | false =>
    rw [feederOpen_stuck s h]
    refine ⟨rfl, rfl, fun _ => rfl, fun hh => by simp at hh, _, by simp; rfl, ?_⟩
    intro x hx
    simp only [List.mem_append, List.mem_cons, List.mem_singleton, List.not_mem_nil,
      or_false] at hx
    rcases hx with hx | hx
    · subst hx; rfl
    · exact (sweepEffect_kind x (mem_openSweep_kind _ _ _ _ x hx)).1

/-- What `feederClose` leaves unchanged, and what it adds, whether or not its loop ends. -/
theorem feederClose_frame (s : Sys) :
    (feederClose s).tf = s.tf ∧ (feederClose s).extraBits = s.extraBits ∧
    (s.hung = true → (feederClose s).hung = true) ∧
    ((feederClose s).hung = false → (feederClose s).ledHigh = false ∧
      (feederClose s).servoAttached = false ∧ (closeRun s.extraBits s.tf).2 = true) ∧
    (∃ l, (feederClose s).trace = s.trace ++ Effect.digitalWrite LED_PIN Level.HIGH :: l ∧
      ∀ x ∈ l, isCallback x = false) := by
  cases h : (closeRun s.extraBits s.tf).2 with
  | true =>
    rw [feederClose_returns s h]
    refine ⟨rfl, rfl, fun hh => hh, fun _ => ⟨rfl, rfl, rfl⟩, _, by simp; rfl, ?_⟩
    intro x hx
    simp only [List.mem_append, List.mem_cons, List.mem_singleton, List.not_mem_nil,
      or_false] at hx
    rcases hx with hx | hx | hx | hx
    · subst hx; rfl
    · exact (sweepEffect_kind x (mem_closeSweep_kind _ _ _ _ x hx)).1
    · subst hx; rfl
    · subst hx; rfl
  | false =>
    rw [feederClose_stuck s h]
    refine ⟨rfl, rfl, fun _ => rfl, fun hh => by simp at hh, _, by simp; rfl, ?_⟩
    intro x hx
    simp only [List.mem_append, List.mem_cons, List.mem_singleton, List.not_mem_nil,
      or_false] at hx
    rcases hx with hx | hx
    · subst hx; rfl
    · exact (sweepEffect_kind x (mem_closeSweep_kind _ _ _ _ x hx)).1

theorem feederOpen_adds (s : Sys) : Adds (fun e => isCallback e = false) s (feederOpen s) := by
  obtain ⟨l, hl, hp⟩ := (feederOpen_frame s).2.2.2.2
  refine ⟨_, hl, ?_⟩
  intro x hx
  rcases List.mem_cons.mp hx with h | h
  · subst h; rfl
  · exact hp x h

theorem feederClose_adds (s : Sys) : Adds (fun e => isCallback e = false) s (feederClose s) := by
  obtain ⟨l, hl, hp⟩ := (feederClose_frame s).2.2.2.2
  refine ⟨_, hl, ?_⟩
  intro x hx
  rcases List.mem_cons.mp hx with h | h
  · subst h; rfl
  · exact hp x h

theorem feederOpen_hung (s : Sys) (hh : s.hung = false) (h : OpenEnds s.extraBits s.tf) :
    (feederOpen s).hung = false := by
  rw [feederOpen_eq s h]; exact hh

theorem feederClose_hung (s : Sys) (hh : s.hung = false) (h : CloseEnds s.extraBits s.tf) :
    (feederClose s).hung = false := by
  rw [feederClose_eq s h]; exact hh

/-- For `int` positions the call `feederOpen()` fails to return exactly when `_openPos` is
`INT_MIN`: the model's bound on the number of turns cuts no loop that would end. -/
theorem feederOpen_hung_iff (s : Sys) (hh : s.hung = false)
    (ho : INT_MIN s.extraBits ≤ s.tf._openPos)
    (hc : INT_MIN s.extraBits ≤ s.tf._closedPos ∧ s.tf._closedPos ≤ INT_MAX s.extraBits) :
    (feederOpen s).hung = true ↔ s.tf._openPos = INT_MIN s.extraBits := by
  constructor
  · intro h
    by_contra hne
    have he : OpenEnds s.extraBits s.tf := ⟨lt_of_le_of_ne ho (Ne.symm hne), hc.2⟩
    rw [feederOpen_hung s hh he] at h
    cases h
  · intro h
    rw [feederOpen_stuck s (openRun_hangs _ _ (le_of_eq h) hc.1).1]

/-- For `int` positions the call `feederClose()` fails to return exactly when `_closedPos` is
`INT_MAX`. -/
theorem feederClose_hung_iff (s : Sys) (hh : s.hung = false)
    (hc : s.tf._closedPos ≤ INT_MAX s.extraBits)
    (ho : INT_MIN s.extraBits ≤ s.tf._openPos ∧ s.tf._openPos ≤ INT_MAX s.extraBits) :
    (feederClose s).hung = true ↔ s.tf._closedPos = INT_MAX s.extraBits := by
  constructor
  · intro h
    by_contra hne
    have he : CloseEnds s.extraBits s.tf := ⟨lt_of_le_of_ne hc hne, ho.1⟩
    rw [feederClose_hung s hh he] at h
    cases h
  · intro h
    rw [feederClose_stuck s (closeRun_hangs _ _ (le_of_eq h.symm) ho.2).1]

/-! ## Reading a sensor -/

theorem lowRun_le (env : Env) (pin : Pin) (t : Nat) : lowRun env pin t ≤ env.horizon - t := by
  unfold lowRun
  generalize env.horizon - t = fuel
  induction fuel generalizing t with
  | zero => simp [lowRunAux]
  | succ n ih =>
    simp only [lowRunAux]
    split
    · have := ih (t + 1); omega
    · omega

theorem lowRun_unfold (env : Env) (pin : Pin) (t : Nat) :
    lowRun env pin t =
      if lineLevel env pin t = Level.LOW then lowRun env pin (t + 1) + 1 else 0 := by
  unfold lowRun
  by_cases h : lineLevel env pin t = Level.LOW
  · have ht : t < env.horizon := by
      by_contra hc
      simp [lineLevel, hc] at h
    have : env.horizon - t = (env.horizon - (t + 1)) + 1 := by omega
    rw [this, lowRunAux, if_pos h]
  · rw [if_neg h]
    cases env.horizon - t with
    | zero => rfl
    | succ n => rw [lowRunAux, if_neg h]

/-- A line held until the time `T` stays low for `T - t` milliseconds from `t` on. -/
theorem lowRun_holdEnv (T : Nat) (pin : Pin) (t : Nat) : lowRun (holdEnv T) pin t = T - t := by
  generalize hk : T - t = k
  induction k generalizing t with
  | zero =>
    rw [lowRun_unfold, if_neg]
    have : ¬ t < T := by omega
    simp [lineLevel, holdEnv, this]
  | succ n ih =>
    rw [lowRun_unfold, if_pos, ih (t + 1) (by omega)]
    have : t < T := by omega
    simp [lineLevel, holdEnv, this]

theorem readLoop_eq (env : Env) (pin : Pin) (fuel : Nat) (s : Sys)
    (hf : lowRun env pin s.now < fuel) :
    readLoop env pin fuel s =
      { s with now := s.now + lowRun env pin s.now,
               trace := s.trace ++ holdEffects pin (lowRun env pin s.now) } := by
  induction fuel generalizing s with
  | zero => omega
  | succ n ih =>
    rw [lowRun_unfold] at hf ⊢
    by_cases h : lineLevel env pin s.now = Level.LOW
    · rw [if_pos h] at hf
      rw [readLoop, if_pos (by simpa [digitalRead] using h), ih]
      · simp [delay, digitalRead, emit, h, holdEffects]; omega
      · simpa [delay, digitalRead, emit] using (by omega : lowRun env pin (s.now + 1) < n)
    · rw [readLoop, if_neg (by simpa [digitalRead] using h)]
      have hH : lineLevel env pin s.now = Level.HIGH := by
        cases hl : lineLevel env pin s.now with
        | LOW => exact absurd hl h
        | HIGH => rfl
      simp [digitalRead, emit, h, hH, holdEffects]

theorem _readTouchPin_eq (env : Env) (pin : Pin) (count duration : IntRef) (s : Sys) :
    _readTouchPin env pin count duration s =
      { s with
        tf := count.set
                (intSucc s.extraBits
                  (count.get (duration.set (measured env s.extraBits pin s.now) s.tf)))
                (duration.set (measured env s.extraBits pin s.now) s.tf)
        now := s.now + lowRun env pin s.now
        trace := s.trace ++ (Effect.millis (s.now % ULONG_MOD) :: holdEffects pin (lowRun env pin s.now)
                  ++ [Effect.millis ((s.now + lowRun env pin s.now) % ULONG_MOD)]) } := by
  unfold _readTouchPin
  simp only []
  rw [readLoop_eq]
  · simp [millis, emit, setTf, measured]
  · have := lowRun_le env pin s.now
    simp [millis, emit, readFuel]; omega

theorem notify_eq (s : Sys) :
    _callLogCallback (_callDisplayCallback s) = { s with trace := s.trace ++ notifyEffects s.tf } := by
  unfold _callLogCallback _callDisplayCallback notifyEffects
  cases h1 : s.tf._displayCallback <;> cases h2 : s.tf._logCallback <;> simp [emit, h1, h2]

theorem checkFeeder_eq (env : Env) (s : Sys) (h : s.tf._feedTouch = true) :
    checkFeeder env s =
      { s with
        tf := { s.tf with FeederCount := intSucc s.extraBits s.tf.FeederCount, leftFeederDur := 0,
                          _feedTouch := false }
        now := s.now + lowRun env FEEDER_TOUCH_PIN s.now
        trace := s.trace ++ (senseEffects env FEEDER_TOUCH_PIN s.now ++
          notifyEffects (seenFeeder env s)) } := by
  unfold checkFeeder
  rw [if_pos h]
  simp only []
  rw [notify_eq, _readTouchPin_eq]
  simp [setTf, FeederCountRef, leftFeederDurRef, senseEffects, seenFeeder]

theorem checkFeeder_idle (env : Env) (s : Sys) (h : s.tf._feedTouch = false) :
    checkFeeder env s = s := by
  simp [checkFeeder, h]

theorem checkRight_eq (env : Env) (s : Sys) (h : s.tf._rightTouch = true) :
    checkRight env s =
      { s with
        tf := { s.tf with rightPokeCount := intSucc s.extraBits s.tf.rightPokeCount,
                          rightPokeDur := 0, _rightTouch := false }
        now := s.now + lowRun env RIGHT_TOUCH_PIN s.now
        trace := s.trace ++ (senseEffects env RIGHT_TOUCH_PIN s.now ++
          notifyEffects (seenRight env s)) } := by
  unfold checkRight
  rw [if_pos h]
  simp only []
  rw [notify_eq, _readTouchPin_eq]
  simp [setTf, rightPokeCountRef, rightPokeDurRef, senseEffects, seenRight]

theorem checkRight_idle (env : Env) (s : Sys) (h : s.tf._rightTouch = false) :
    checkRight env s = s := by
  simp [checkRight, h]

theorem leftRecord_eq (env : Env) (s : Sys) :
    leftRecord env s =
      { s with
        tf := { s.tf with leftPokeCount := intSucc s.extraBits s.tf.leftPokeCount,
                          leftPokeDur := 0, _leftTouch := false }
        now := s.now + lowRun env LEFT_TOUCH_PIN s.now
        trace := s.trace ++ (senseEffects env LEFT_TOUCH_PIN s.now ++
          notifyEffects (seenLeft env s)) } := by
  unfold leftRecord
  simp only []
  rw [notify_eq, _readTouchPin_eq]
  simp [setTf, leftPokeCountRef, leftPokeDurRef, senseEffects, seenLeft]

/-! ## The open window -/

theorem ulongSub_lt (a b : Nat) : ulongSub a b < ULONG_MOD := by
  unfold ulongSub ULONG_MOD; omega

theorem ulongSub_succ (t b : Nat) (h : ulongSub (t % ULONG_MOD) b + 1 < ULONG_MOD) :
    ulongSub ((t + 1) % ULONG_MOD) b = ulongSub (t % ULONG_MOD) b + 1 := by
  unfold ulongSub ULONG_MOD at *; omega

theorem ulongMul_lt (a b : Nat) : ulongMul a b < ULONG_MOD := by
  unfold ulongMul ULONG_MOD; omega

/-- With no feeder touch pending the open window only polls the clock until it is over. -/
theorem openWaitLoop_idle (env : Env) (feederStart openDuration fuel : Nat) (s : Sys)
    (h : s.tf._feedTouch = false) (hf : windowLeft feederStart openDuration s.now < fuel) :
    openWaitLoop env feederStart openDuration fuel s =
      { s with now := s.now + windowLeft feederStart openDuration s.now,
               trace := s.trace ++ spinEffects (windowLeft feederStart openDuration s.now) s.now } := by
  induction fuel generalizing s with
  | zero => omega
  | succ n ih =>
    by_cases hc : ulongSub (s.now % ULONG_MOD) feederStart < ulongMul openDuration 1000
    · have hT := ulongMul_lt openDuration 1000
      have hs := ulongSub_succ s.now feederStart (by omega)
      have hw : windowLeft feederStart openDuration s.now
          = windowLeft feederStart openDuration (s.now + 1) + 1 := by
        unfold windowLeft; rw [hs]; omega
      rw [openWaitLoop, if_pos (by simpa [millis] using hc), checkFeeder_idle _ _ (by simpa [millis, emit] using h), ih]
      · rw [hw]; simp [tick, millis, emit, spinEffects]; omega
      · simpa [tick, millis, emit] using h
      · simp only [tick, millis, emit]; omega
    · have hw : windowLeft feederStart openDuration s.now = 0 := by
        unfold windowLeft; omega
      rw [openWaitLoop, if_neg (by simpa [millis] using hc), hw]
      simp [millis, emit, spinEffects]

theorem openWaitLoop_over (env : Env) (feederStart openDuration fuel : Nat) (s : Sys)
    (h : ¬ ulongSub (s.now % ULONG_MOD) feederStart < ulongMul openDuration 1000) :
    openWaitLoop env feederStart openDuration (fuel + 1) s = (millis s).2 := by
  rw [openWaitLoop, if_neg (by simpa [millis] using h)]

theorem ulongSub_self (t : Nat) : ulongSub (t % ULONG_MOD) (t % ULONG_MOD) = 0 := by
  unfold ulongSub ULONG_MOD; omega

theorem windowLeft_start (d t : Nat) : windowLeft (t % ULONG_MOD) d t = ulongMul d 1000 := by
  unfold windowLeft; rw [ulongSub_self]; rfl

/-- The open window when no feeder touch is pending, or when its length is zero:
the clock is polled once per millisecond for `openDuration * 1000` milliseconds. -/
theorem openWindow_idle (env : Env) (d : Nat) (s : Sys)
    (h : s.tf._feedTouch = false ∨ ulongMul d 1000 = 0) :
    openWindow env d s =
      { s with now := s.now + ulongMul d 1000,
               trace := s.trace ++ (Effect.millis (s.now % ULONG_MOD)
                          :: spinEffects (ulongMul d 1000) s.now) } := by
  unfold openWindow
  simp only []
  by_cases hT : ulongMul d 1000 = 0
  · have hu := ulongSub_self s.now
    have e1 : openWaitFuel d = 1 + 1 := by unfold openWaitFuel; omega
    rw [e1, openWaitLoop_over]
    · simp [millis, emit, hT, spinEffects]
    · simp only [millis, emit]; omega
  · have hf : s.tf._feedTouch = false := by
      rcases h with h | h
      · exact h
      · exact absurd h hT
    rw [openWaitLoop_idle]
    · simp only [millis, emit]
      rw [windowLeft_start]
      simp
    · simpa [millis, emit] using hf
    · simp only [millis, emit]
      rw [windowLeft_start]
      unfold openWaitFuel; omega

/-- The open window when a feeder touch is pending and the window is not empty: the first
turn of the loop processes the touch, the remaining turns only poll the clock. -/
theorem openWindow_busy (env : Env) (d : Nat) (s : Sys)
    (h : s.tf._feedTouch = true) (hT : 0 < ulongMul d 1000) :
    openWindow env d s =
      { s with
        tf := { s.tf with FeederCount := intSucc s.extraBits s.tf.FeederCount, leftFeederDur := 0,
                          _feedTouch := false }
        now := s.now + lowRun env FEEDER_TOUCH_PIN s.now + 1
          + windowLeft (s.now % ULONG_MOD) d (s.now + lowRun env FEEDER_TOUCH_PIN s.now + 1)
        trace := s.trace ++ ([Effect.millis (s.now % ULONG_MOD), Effect.millis (s.now % ULONG_MOD)]
          ++ senseEffects env FEEDER_TOUCH_PIN s.now
          ++ notifyEffects (seenFeeder env s)
          ++ spinEffects
              (windowLeft (s.now % ULONG_MOD) d (s.now + lowRun env FEEDER_TOUCH_PIN s.now + 1))
              (s.now + lowRun env FEEDER_TOUCH_PIN s.now + 1)) } := by
  unfold openWindow
  simp only []
  have hu := ulongSub_self s.now
  have e1 : openWaitFuel d = (ulongMul d 1000 + 1) + 1 := rfl
  rw [e1, openWaitLoop, if_pos (by simp only [millis, emit]; omega), checkFeeder_eq,
    openWaitLoop_idle]
  · simp [millis, emit, tick, seenFeeder]
  · simp [millis, emit, tick]
  · simp only [millis, emit, tick, windowLeft]; omega
  · simpa [millis, emit] using h

theorem openWindow_cases (d : Nat) (s : Sys) :
    (s.tf._feedTouch = false ∨ ulongMul d 1000 = 0) ∨
    (s.tf._feedTouch = true ∧ 0 < ulongMul d 1000) := by
  by_cases h : s.tf._feedTouch = false ∨ ulongMul d 1000 = 0
  · exact Or.inl h
  · right
    constructor
    · cases hb : s.tf._feedTouch with
      | true => rfl
      | false => exact absurd (Or.inl hb) h
    · rcases Nat.eq_zero_or_pos (ulongMul d 1000) with h0 | h0
      · exact absurd (Or.inr h0) h
      · exact h0

/-- When `openWindow` returns the window is over: the loop was left through its condition. -/
theorem openWindow_over (env : Env) (d : Nat) (s : Sys) :
    ¬ ulongSub ((openWindow env d s).now % ULONG_MOD) (s.now % ULONG_MOD) < ulongMul d 1000 := by
  have hT := ulongMul_lt d 1000
  rcases openWindow_cases d s with h | ⟨h1, h2⟩
  · rw [openWindow_idle env d s h]
    simp only []
    unfold ulongSub ULONG_MOD at *; omega
  · rw [openWindow_busy env d s h1 h2]
    simp only []
    unfold windowLeft ulongSub ULONG_MOD at *; omega

theorem openWindow_tf (env : Env) (d : Nat) (s : Sys) :
    (openWindow env d s).tf = s.tf ∨
    (s.tf._feedTouch = true ∧
      (openWindow env d s).tf =
        { s.tf with FeederCount := intSucc s.extraBits s.tf.FeederCount, leftFeederDur := 0,
                    _feedTouch := false }) := by
  rcases openWindow_cases d s with h | ⟨h1, h2⟩
  · left; rw [openWindow_idle env d s h]
  · right; rw [openWindow_busy env d s h1 h2]; exact ⟨h1, rfl⟩

theorem openWindow_board (env : Env) (d : Nat) (s : Sys) :
    (openWindow env d s).ledHigh = s.ledHigh ∧
    (openWindow env d s).servoAttached = s.servoAttached ∧
    (openWindow env d s).extraBits = s.extraBits ∧
    (openWindow env d s).hung = s.hung := by
  rcases openWindow_cases d s with h | ⟨h1, h2⟩
  · rw [openWindow_idle env d s h]; exact ⟨rfl, rfl, rfl, rfl⟩
  · rw [openWindow_busy env d s h1 h2]; exact ⟨rfl, rfl, rfl, rfl⟩

/-! ## The kinds of effects -/

theorem mem_holdEffects (pin : Pin) (n : Nat) (e : Effect) (h : e ∈ holdEffects pin n) :
    isActuation e = false ∧ isCallback e = false := by
  induction n with
  | zero =>
    simp only [holdEffects, List.mem_singleton] at h
    subst h; exact ⟨rfl, rfl⟩
  | succ k ih =>
    simp only [holdEffects, List.mem_cons] at h
    rcases h with h | h | h
    · subst h; exact ⟨rfl, rfl⟩
    · subst h; exact ⟨rfl, rfl⟩
    · exact ih h

theorem mem_senseEffects (env : Env) (pin : Pin) (t : Nat) (e : Effect)
    (h : e ∈ senseEffects env pin t) : isActuation e = false ∧ isCallback e = false := by
  simp only [senseEffects, List.cons_append, List.mem_cons, List.mem_append,
    List.mem_singleton] at h
  rcases h with h | h | h
  · subst h; exact ⟨rfl, rfl⟩
  · exact mem_holdEffects pin _ e h
  · rcases h with h | h
    · subst h; exact ⟨rfl, rfl⟩
    · cases h

theorem mem_spinEffects (n t : Nat) (e : Effect) (h : e ∈ spinEffects n t) :
    isActuation e = false ∧ isCallback e = false := by
  induction n generalizing t with
  | zero =>
    simp only [spinEffects, List.mem_singleton] at h
    subst h; exact ⟨rfl, rfl⟩
  | succ k ih =>
    simp only [spinEffects, List.mem_cons] at h
    rcases h with h | h
    · subst h; exact ⟨rfl, rfl⟩
    · exact ih _ h

theorem mem_notifyEffects (t : TumbleFeeder) (e : Effect) (h : e ∈ notifyEffects t) :
    isActuation e = false ∧ isCallback e = true := by
  unfold notifyEffects at h
  cases h1 : t._displayCallback <;> cases h2 : t._logCallback <;> simp [h1, h2] at h
  · subst h; exact ⟨rfl, rfl⟩
  · subst h; exact ⟨rfl, rfl⟩
  · rcases h with h | h <;> (subst h; exact ⟨rfl, rfl⟩)

theorem mem_sweepDown (n : Nat) (pos : Int) (e : Effect) (h : e ∈ sweepDown n pos) :
    isCallback e = false :=
  (sweepEffect_kind e (mem_sweepDown_kind n pos e h)).1

theorem mem_sweepUp (n : Nat) (pos : Int) (e : Effect) (h : e ∈ sweepUp n pos) :
    isCallback e = false :=
  (sweepEffect_kind e (mem_sweepUp_kind n pos e h)).1

theorem leftRecord_adds (env : Env) (s : Sys) :
    Adds (fun e => isActuation e = false) s (leftRecord env s) := by
  rw [leftRecord_eq]
  refine Adds.of_trace rfl ?_
  intro e he
  rcases List.mem_append.mp he with h | h
  · exact (mem_senseEffects _ _ _ e h).1
  · exact (mem_notifyEffects _ e h).1

theorem checkRight_adds (env : Env) (s : Sys) :
    Adds (fun e => isActuation e = false) s (checkRight env s) := by
  cases h : s.tf._rightTouch with
  | false => rw [checkRight_idle env s h]; exact Adds.refl _ _
  | true =>
    rw [checkRight_eq env s h]
    refine Adds.of_trace rfl ?_
    intro e he
    rcases List.mem_append.mp he with h | h
    · exact (mem_senseEffects _ _ _ e h).1
    · exact (mem_notifyEffects _ e h).1

theorem checkFeeder_adds (env : Env) (s : Sys) :
    Adds (fun e => isActuation e = false) s (checkFeeder env s) := by
  cases h : s.tf._feedTouch with
  | false => rw [checkFeeder_idle env s h]; exact Adds.refl _ _
  | true =>
    rw [checkFeeder_eq env s h]
    refine Adds.of_trace rfl ?_
    intro e he
    rcases List.mem_append.mp he with h | h
    · exact (mem_senseEffects _ _ _ e h).1
    · exact (mem_notifyEffects _ e h).1

theorem openWindow_adds (env : Env) (d : Nat) (s : Sys) :
    Adds (fun e => isActuation e = false) s (openWindow env d s) := by
  rcases openWindow_cases d s with h | ⟨h1, h2⟩
  · rw [openWindow_idle env d s h]
    refine Adds.of_trace rfl ?_
    intro e he
    rcases List.mem_cons.mp he with h | h
    · subst h; rfl
    · exact (mem_spinEffects _ _ e h).1
  · rw [openWindow_busy env d s h1 h2]
    refine Adds.of_trace rfl ?_
    intro e he
    simp only [List.mem_append, List.mem_cons, List.mem_singleton, List.not_mem_nil,
      or_false] at he
    rcases he with ((h | h) | h) | h
    · rcases h with h | h <;> (subst h; rfl)
    · exact (mem_senseEffects _ _ _ e h).1
    · exact (mem_notifyEffects _ e h).1
    · exact (mem_spinEffects _ _ e h).1

/-! ## The left poll -/

theorem checkLeft_idle (env : Env) (d : Nat) (s : Sys) (h : s.tf._leftTouch = false) :
    checkLeft env d s = s := by
  simp [checkLeft, h]

/-- The fixed-ratio test of `checkLeft`, on the fields left by `leftRecord`. -/
theorem checkLeft_eq (env : Env) (d : Nat) (s : Sys) (h : s.tf._leftTouch = true) :
    checkLeft env d s =
      if Int.tmod (intSucc s.extraBits s.tf.leftPokeCount) s.tf._FR = 0 then
        rewardPath env d (leftRecord env s)
      else leftRecord env s := by
  unfold checkLeft rewardPath
  rw [if_pos h]
  simp only []
  have h1 : (leftRecord env s).tf.leftPokeCount = intSucc s.extraBits s.tf.leftPokeCount := by
    rw [leftRecord_eq]
  have h2 : (leftRecord env s).tf._FR = s.tf._FR := by
    rw [leftRecord_eq]
  rw [h1, h2]

/-- The reward path when both sweeps end: the three calls in a row, all of which return. -/
theorem rewardPath_eq (env : Env) (d : Nat) (s : Sys) (hh : s.hung = false) (hs : SweepsEnd s) :
    rewardPath env d s = feederClose (openWindow env d (feederOpen s)) ∧
    (rewardPath env d s).hung = false := by
  have h6 := feederOpen_hung s hh hs.openEnds
  have f6 := feederOpen_frame s
  have b7 := openWindow_board env d (feederOpen s)
  have hs7 : SweepsEnd (openWindow env d (feederOpen s)) := by
    unfold SweepsEnd
    rw [b7.2.2.1, f6.2.1]
    rcases openWindow_tf env d (feederOpen s) with h | ⟨_, h⟩
    · rw [h, f6.1]; exact hs
    · rw [h]; simp only []; rw [f6.1]; exact hs
  have e1 : rewardPath env d s = feederClose (openWindow env d (feederOpen s)) := by
    unfold rewardPath
    simp only []
    rw [if_neg (by rw [h6]; simp)]
  refine ⟨e1, ?_⟩
  rw [e1]
  exact feederClose_hung _ (by rw [b7.2.2.2]; exact h6) hs7.closeEnds

theorem leftRecord_frame (env : Env) (s : Sys) :
    (leftRecord env s).hung = s.hung ∧ (leftRecord env s).extraBits = s.extraBits ∧
    (leftRecord env s).tf._openPos = s.tf._openPos ∧
    (leftRecord env s).tf._closedPos = s.tf._closedPos ∧
    (leftRecord env s).ledHigh = s.ledHigh ∧
    (leftRecord env s).servoAttached = s.servoAttached := by
  rw [leftRecord_eq]; exact ⟨rfl, rfl, rfl, rfl, rfl, rfl⟩

theorem leftRecord_sweepsEnd (env : Env) (s : Sys) (hs : SweepsEnd s) :
    SweepsEnd (leftRecord env s) :=
  hs.of_eq (leftRecord_frame env s).2.2.1 (leftRecord_frame env s).2.2.2.1
    (leftRecord_frame env s).2.1

/-- The left poll of a pending touch when both sweeps end. -/
theorem checkLeft_returns (env : Env) (d : Nat) (s : Sys) (h : s.tf._leftTouch = true)
    (hh : s.hung = false) (hs : SweepsEnd s) :
    checkLeft env d s =
      (if Int.tmod (intSucc s.extraBits s.tf.leftPokeCount) s.tf._FR = 0 then
        feederClose (openWindow env d (feederOpen (leftRecord env s)))
      else leftRecord env s) ∧
    (checkLeft env d s).hung = false := by
  have hr := rewardPath_eq env d (leftRecord env s)
    (by rw [(leftRecord_frame env s).1]; exact hh) (leftRecord_sweepsEnd env s hs)
  rw [checkLeft_eq env d s h]
  split
  · exact ⟨hr.1, hr.2⟩
  · exact ⟨rfl, by rw [(leftRecord_frame env s).1]; exact hh⟩

theorem SameSetup.same (t : TumbleFeeder) : SameSetup t t := ⟨rfl, rfl, rfl, rfl, rfl, rfl⟩

theorem SameSetup.next {a b c : TumbleFeeder} (h1 : SameSetup a b) (h2 : SameSetup b c) :
    SameSetup a c :=
  ⟨h2.1.trans h1.1, h2.2.1.trans h1.2.1, h2.2.2.1.trans h1.2.2.1, h2.2.2.2.1.trans h1.2.2.2.1,
   h2.2.2.2.2.1.trans h1.2.2.2.2.1, h2.2.2.2.2.2.trans h1.2.2.2.2.2⟩

/-- What the reward path does to the fields and to the board, whether or not it returns: at
most a pending feeder touch is processed, in the open window. -/
theorem rewardPath_frame (env : Env) (d : Nat) (s : Sys) :
    ((rewardPath env d s).tf = s.tf ∨
      (s.tf._feedTouch = true ∧
        (rewardPath env d s).tf =
          { s.tf with FeederCount := intSucc s.extraBits s.tf.FeederCount, leftFeederDur := 0,
                      _feedTouch := false })) ∧
    (rewardPath env d s).extraBits = s.extraBits ∧
    (s.hung = true → (rewardPath env d s).hung = true) ∧
    ((rewardPath env d s).hung = false →
      (rewardPath env d s).ledHigh = false ∧ (rewardPath env d s).servoAttached = false) ∧
    (∃ l, (rewardPath env d s).trace = s.trace ++ Effect.digitalWrite LED_PIN Level.HIGH :: l) := by
  have f6 := feederOpen_frame s
  have b7 := openWindow_board env d (feederOpen s)
  have f8 := feederClose_frame (openWindow env d (feederOpen s))
  obtain ⟨l6, hl6, _⟩ := f6.2.2.2.2
  unfold rewardPath
  simp only []
  cases hh : (feederOpen s).hung with
  | true =>
    simp only [if_true]
    refine ⟨Or.inl f6.1, f6.2.1, fun _ => hh, fun hc => ?_, l6, hl6⟩
    rw [hh] at hc; cases hc
  | false =>
    simp only [Bool.false_eq_true, if_false]
    obtain ⟨l7, hl7, _⟩ := openWindow_adds env d (feederOpen s)
    obtain ⟨l8, hl8, _⟩ := f8.2.2.2.2
    refine ⟨?_, ?_, ?_, ?_, ?_⟩
    · rw [f8.1]
      rcases openWindow_tf env d (feederOpen s) with h | ⟨h1, h⟩
      · left; rw [h, f6.1]
      · right; rw [f6.1] at h1; refine ⟨h1, ?_⟩
        rw [h, f6.1, f6.2.1]
    · rw [f8.2.1, b7.2.2.1, f6.2.1]
    · intro h1
      have := f6.2.2.1 h1
      rw [hh] at this; cases this
    · intro h1
      exact ⟨(f8.2.2.2.1 h1).1, (f8.2.2.2.1 h1).2.1⟩
    · refine ⟨l6 ++ l7 ++ Effect.digitalWrite LED_PIN Level.HIGH :: l8, ?_⟩
      rw [hl8, hl7, hl6]; simp

theorem rewardPath_adds (env : Env) (d : Nat) (s : Sys) :
    Adds (fun _ => True) s (rewardPath env d s) := by
  obtain ⟨l, hl⟩ := (rewardPath_frame env d s).2.2.2.2
  exact ⟨_, hl, fun _ _ => trivial⟩

/-- What `checkLeft` does to the counters and the flags, whether or not it returns: the left
touch, if pending, is counted once and its flag cleared; a pending feeder touch is either
still pending or counted once; the right counter and flag are untouched. -/
theorem checkLeft_tally (env : Env) (d : Nat) (s : Sys) :
    (checkLeft env d s).tf.leftPokeCount
      = bump s.extraBits s.tf._leftTouch s.tf.leftPokeCount ∧
    (checkLeft env d s).tf._leftTouch = false ∧
    (((checkLeft env d s).tf.FeederCount = s.tf.FeederCount ∧
        (checkLeft env d s).tf._feedTouch = s.tf._feedTouch) ∨
      (s.tf._feedTouch = true ∧ (checkLeft env d s).tf._feedTouch = false ∧
        (checkLeft env d s).tf.FeederCount = intSucc s.extraBits s.tf.FeederCount)) ∧
    (checkLeft env d s).tf.rightPokeCount = s.tf.rightPokeCount ∧
    (checkLeft env d s).tf._rightTouch = s.tf._rightTouch ∧
    SameSetup s.tf (checkLeft env d s).tf ∧
    (checkLeft env d s).extraBits = s.extraBits := by
  cases h : s.tf._leftTouch with
  | false =>
    rw [checkLeft_idle env d s h]
    exact ⟨by simp [bump], h, Or.inl ⟨rfl, rfl⟩, rfl, rfl, SameSetup.same _, rfl⟩
  | true =>
    rw [checkLeft_eq env d s h]
    split
    · have hr := rewardPath_frame env d (leftRecord env s)
      have e5 : (leftRecord env s).tf
          = { s.tf with leftPokeCount := intSucc s.extraBits s.tf.leftPokeCount,
                        leftPokeDur := 0, _leftTouch := false } := by
        rw [leftRecord_eq]
      have x5 : (leftRecord env s).extraBits = s.extraBits := (leftRecord_frame env s).2.1
      rw [e5, x5] at hr
      rcases hr.1 with h1 | ⟨h0, h1⟩
      · rw [h1, hr.2.1]
        exact ⟨by simp [bump], rfl, Or.inl ⟨rfl, rfl⟩, rfl, rfl, ⟨rfl, rfl, rfl, rfl, rfl, rfl⟩, rfl⟩
      · rw [h1, hr.2.1]
        exact ⟨by simp [bump], rfl, Or.inr ⟨h0, rfl, rfl⟩, rfl, rfl,
          ⟨rfl, rfl, rfl, rfl, rfl, rfl⟩, rfl⟩
    · rw [leftRecord_eq]
      exact ⟨by simp [bump], rfl, Or.inl ⟨rfl, rfl⟩, rfl, rfl, ⟨rfl, rfl, rfl, rfl, rfl, rfl⟩, rfl⟩

theorem checkLeft_adds (env : Env) (d : Nat) (s : Sys) :
    Adds (fun _ => True) s (checkLeft env d s) := by
  cases h : s.tf._leftTouch with
  | false => rw [checkLeft_idle env d s h]; exact Adds.refl _ _
  | true =>
    rw [checkLeft_eq env d s h]
    split
    · exact (leftRecord_adds env s).any.trans (rewardPath_adds env d _)
    · exact (leftRecord_adds env s).any

theorem checkLeft_hung (env : Env) (d : Nat) (s : Sys) (hh : s.hung = false) (hs : SweepsEnd s) :
    (checkLeft env d s).hung = false := by
  cases h : s.tf._leftTouch with
  | false => rw [checkLeft_idle env d s h]; exact hh
  | true => exact (checkLeft_returns env d s h hh hs).2

theorem checkLeft_sweepsEnd (env : Env) (d : Nat) (s : Sys) (hs : SweepsEnd s) :
    SweepsEnd (checkLeft env d s) := by
  have t := checkLeft_tally env d s
  exact hs.of_eq t.2.2.2.2.2.1.2.1 t.2.2.2.2.2.1.1 t.2.2.2.2.2.2

theorem wrapInt_idem (e : Nat) (x : Int) : wrapInt e (wrapInt e x) = wrapInt e x :=
  wrapInt_of_fits e _ (wrapInt_range e x).1 (wrapInt_range e x).2

/-- After rounds of left touches on a controller whose sweeps end, the left counter is the
`int` with the low bits of the number of rounds added to it; every round returns. -/
theorem leftRounds_spec (env : Env) (ds : List Nat) (s : Sys)
    (hh : s.hung = false) (hs : SweepsEnd s)
    (hfit : wrapInt s.extraBits s.tf.leftPokeCount = s.tf.leftPokeCount) :
    (leftRounds env ds s).tf.leftPokeCount
      = wrapInt s.extraBits (s.tf.leftPokeCount + (ds.length : Int)) ∧
    (leftRounds env ds s).tf._FR = s.tf._FR ∧
    (leftRounds env ds s).hung = false ∧
    SweepsEnd (leftRounds env ds s) ∧
    (leftRounds env ds s).extraBits = s.extraBits := by
  induction ds generalizing s with
  | nil => exact ⟨by simp [leftRounds, hfit], rfl, hh, hs, rfl⟩
  | cons d ds ih =>
    have hs0 : SweepsEnd (handleLeftTouch s) := hs
    have t := checkLeft_tally env d (handleLeftTouch s)
    have h1 := checkLeft_hung env d (handleLeftTouch s) hh hs0
    have s1 := checkLeft_sweepsEnd env d (handleLeftTouch s) hs0
    have c1 : (checkLeft env d (handleLeftTouch s)).tf.leftPokeCount
        = intSucc s.extraBits s.tf.leftPokeCount := by
      rw [t.1]; rfl
    have x1 : (checkLeft env d (handleLeftTouch s)).extraBits = s.extraBits := t.2.2.2.2.2.2
    have := ih (checkLeft env d (handleLeftTouch s)) h1 s1
      (by rw [c1, x1]; exact wrapInt_idem _ _)
    have e1 : leftRounds env (d :: ds) s = leftRounds env ds (checkLeft env d (handleLeftTouch s)) := by
      simp only [leftRounds]
      rw [if_neg (by rw [h1]; simp)]
    rw [e1]
    refine ⟨?_, ?_, this.2.2.1, this.2.2.2.1, by rw [this.2.2.2.2, x1]⟩
    · rw [this.1, c1, x1]
      unfold intSucc
      rw [wrapInt_add]
      congr 1
      simp only [List.length_cons]
      push_cast; ring
    · rw [this.2.1]; exact t.2.2.2.2.2.1.2.2.1

theorem tmod_natCast_eq_zero (a b : Nat) : Int.tmod (a : Int) (b : Int) = 0 ↔ a % b = 0 := by
  constructor
  · intro h
    have := Int.dvd_of_tmod_eq_zero h
    exact Nat.mod_eq_zero_of_dvd (Int.natCast_dvd_natCast.mp this)
  · intro h
    exact Int.tmod_eq_zero_of_dvd (Int.natCast_dvd_natCast.mpr (Nat.dvd_of_mod_eq_zero h))

/-- The reward path drives the indicator: its effects contain an actuation. -/
theorem reward_actuates (env : Env) (d : Nat) (s s5 : Sys)
    (h : Adds (fun _ => True) s s5) :
    ∃ e ∈ newEffects s (rewardPath env d s5), isActuation e = true := by
  obtain ⟨l, hl⟩ := (rewardPath_frame env d s5).2.2.2.2
  obtain ⟨l5, hl5, _⟩ := h
  refine ⟨Effect.digitalWrite LED_PIN Level.HIGH, ?_, rfl⟩
  have : newEffects s (rewardPath env d s5) = l5 ++ Effect.digitalWrite LED_PIN Level.HIGH :: l :=
    newEffects_of_trace (by rw [hl, hl5]; simp)
  rw [this]
  simp

/-- The state on which the `n`-th left touch of `leftRounds` is polled. -/
theorem gate_state (env : Env) (z : Sys) (g : Int) (ds : List Nat)
    (hz : z.tf.leftPokeCount = 0) (hg : g ≠ 0)
    (hn : (((ds.length + 1 : Nat)) : Int) ≤ INT_MAX z.extraBits)
    (hh : z.hung = false) (hs : SweepsEnd z) :
    (handleLeftTouch (leftRounds env ds (setFR g z))).tf._FR = g ∧
    intSucc (handleLeftTouch (leftRounds env ds (setFR g z))).extraBits
        (handleLeftTouch (leftRounds env ds (setFR g z))).tf.leftPokeCount
      = (((ds.length + 1 : Nat)) : Int) ∧
    (handleLeftTouch (leftRounds env ds (setFR g z))).hung = false ∧
    SweepsEnd (handleLeftTouch (leftRounds env ds (setFR g z))) := by
  have hpos := pow_bits_pos z.extraBits
  have hmin : INT_MIN z.extraBits ≤ 0 := by unfold INT_MIN; omega
  have hc := leftRounds_spec env ds (setFR g z) hh hs
    (by
      have : (setFR g z).tf.leftPokeCount = 0 := hz
      rw [this]
      show wrapInt z.extraBits 0 = 0
      exact wrapInt_of_fits _ 0 hmin (by push_cast at hn; omega))
  have e0 : (setFR g z).extraBits = z.extraBits := rfl
  have c0 : (setFR g z).tf.leftPokeCount = 0 := hz
  rw [e0, c0] at hc
  push_cast at hn
  refine ⟨?_, ?_, hc.2.2.1, hc.2.2.2.1⟩
  · simp only [handleLeftTouch, setTf]
    rw [hc.2.1]
    simp [setFR, setTf, hg]
  · simp only [handleLeftTouch, setTf]
    rw [hc.2.2.2.2, hc.1, wrapInt_of_fits _ _ (by omega) (by omega),
      intSucc_of_lt _ _ (by omega) (by omega)]
    push_cast; ring

/-- Claim C1 (fixed-ratio gate, amended). On a board whose sweeps end (`INT_MIN < openPos`,
`closedPos < INT_MAX`), start from a state `z` whose left counter is zero and set the fixed
ratio to `f ≥ 1` with `setFR`. After `ds.length` left activations, each processed by
`checkLeft`, the next one, number `n = ds.length + 1`, with `n ≤ INT_MAX`, runs the reward
path `feederOpen`, open window, `feederClose` exactly when `n mod f = 0`, and otherwise only
records the activation; the call returns; the indicator and the servo are driven during that
call exactly when `n mod f = 0`. Configuring the ratio `0` gives the same state as configuring
`1`, and then every activation is rewarded. -/
theorem C1_fixed_ratio_gate (env : Env) (z : Sys) (f : Nat) (ds : List Nat) (d : Nat)
    (hz : z.tf.leftPokeCount = 0) (hf : 1 ≤ f)
    (hn : (((ds.length + 1 : Nat)) : Int) ≤ INT_MAX z.extraBits)
    (hh : z.hung = false)
    (ho : INT_MIN z.extraBits < z.tf._openPos) (hc : z.tf._closedPos < INT_MAX z.extraBits) :
    (checkLeft env d (handleLeftTouch (leftRounds env ds (setFR (f : Int) z))) =
      if (ds.length + 1) % f = 0 then
        feederClose (openWindow env d (feederOpen
          (leftRecord env (handleLeftTouch (leftRounds env ds (setFR (f : Int) z))))))
      else leftRecord env (handleLeftTouch (leftRounds env ds (setFR (f : Int) z)))) ∧
    (checkLeft env d (handleLeftTouch (leftRounds env ds (setFR (f : Int) z)))).hung = false ∧
    ((∃ e ∈ newEffects (handleLeftTouch (leftRounds env ds (setFR (f : Int) z)))
          (checkLeft env d (handleLeftTouch (leftRounds env ds (setFR (f : Int) z)))),
        isActuation e = true) ↔ (ds.length + 1) % f = 0) ∧
    setFR 0 z = setFR 1 z ∧
    checkLeft env d (handleLeftTouch (leftRounds env ds (setFR 0 z))) =
      feederClose (openWindow env d (feederOpen
        (leftRecord env (handleLeftTouch (leftRounds env ds (setFR 0 z)))))) := by
  have hs : SweepsEnd z := ⟨ho, hc⟩
  have hgate : ∀ g : Nat, 1 ≤ g →
      checkLeft env d (handleLeftTouch (leftRounds env ds (setFR (g : Int) z))) =
      if (ds.length + 1) % g = 0 then
        feederClose (openWindow env d (feederOpen
          (leftRecord env (handleLeftTouch (leftRounds env ds (setFR (g : Int) z))))))
      else leftRecord env (handleLeftTouch (leftRounds env ds (setFR (g : Int) z))) := by
    intro g hg
    have st := gate_state env z (g : Int) ds hz (by omega) hn hh hs
    rw [(checkLeft_returns env d _ rfl st.2.2.1 st.2.2.2).1, st.1, st.2.1]
    simp only [tmod_natCast_eq_zero]
  have st := gate_state env z (f : Int) ds hz (by omega) hn hh hs
  refine ⟨hgate f hf, (checkLeft_returns env d _ rfl st.2.2.1 st.2.2.2).2, ?_, ?_, ?_⟩
  · rw [checkLeft_eq env d _ rfl, st.1, st.2.1]
    simp only [tmod_natCast_eq_zero]
    constructor
    · intro hex
      by_contra hn
      rw [if_neg hn] at hex
      obtain ⟨e, he, hact⟩ := hex
      have := (leftRecord_adds env _).newEffects.2 e he
      simp only [] at this
      rw [this] at hact
      cases hact
    · intro hn
      rw [if_pos hn]
      exact reward_actuates env d _ _ (leftRecord_adds env _).any
  · simp [setFR]
  · have h01 : setFR 0 z = setFR ((1 : Nat) : Int) z := by simp [setFR]
    rw [h01, hgate 1 (le_refl 1), if_pos (Nat.mod_one _)]

/-- Witness of C1: ratio 2, second activation, from a controller after `begin 1 0`. -/
theorem C1_fixed_ratio_gate_witness :
    (begin 1 0 (boot 0 0 0 0)).tf.leftPokeCount = 0 ∧ 1 ≤ 2 ∧
    (((([0] : List Nat).length + 1 : Nat)) : Int) ≤ INT_MAX (begin 1 0 (boot 0 0 0 0)).extraBits ∧
    (begin 1 0 (boot 0 0 0 0)).hung = false ∧
    INT_MIN (begin 1 0 (boot 0 0 0 0)).extraBits < (begin 1 0 (boot 0 0 0 0)).tf._openPos ∧
    (begin 1 0 (boot 0 0 0 0)).tf._closedPos < INT_MAX (begin 1 0 (boot 0 0 0 0)).extraBits ∧
    ((∃ e ∈ newEffects
          (handleLeftTouch (leftRounds pulseEnv [0] (setFR ((2 : Nat) : Int) (begin 1 0 (boot 0 0 0 0)))))
          (checkLeft pulseEnv 0
            (handleLeftTouch (leftRounds pulseEnv [0] (setFR ((2 : Nat) : Int) (begin 1 0 (boot 0 0 0 0)))))),
        isActuation e = true) ↔ (([0] : List Nat).length + 1) % 2 = 0) :=
  ⟨rfl, by decide, by decide, rfl, by decide, by decide,
   (C1_fixed_ratio_gate pulseEnv (begin 1 0 (boot 0 0 0 0)) 2 [0] 0 rfl (by decide) (by decide) rfl
      (by decide) (by decide)).2.2.1⟩

/-- The counter of `afterMaxRounds` has wrapped around to `INT_MIN`. -/
theorem afterMaxRounds_state (e : Nat) :
    (afterMaxRounds e).tf.leftPokeCount = INT_MIN e ∧ (afterMaxRounds e).tf._FR = 3 ∧
    (afterMaxRounds e).tf._leftTouch = true ∧ (afterMaxRounds e).extraBits = e := by
  have hpos := pow_bits_pos e
  have hge := pow_bits_ge e
  have hs : SweepsEnd (setFR 3 (begin 150 0 (boot e 0 0 0))) := by
    unfold SweepsEnd INT_MIN INT_MAX
    simp only [setFR, begin, setTf, pinMode, digitalWrite, emit, boot, construct]
    constructor <;> omega
  have hc := leftRounds_spec quietEnv (List.replicate (2 ^ (15 + e)) 0)
    (setFR 3 (begin 150 0 (boot e 0 0 0))) rfl hs
    (by
      have : (setFR 3 (begin 150 0 (boot e 0 0 0))).tf.leftPokeCount = 0 := rfl
      rw [this]
      show wrapInt e 0 = 0
      exact wrapInt_of_fits _ 0 (by unfold INT_MIN; omega) (by unfold INT_MAX; omega))
  have c0 : (setFR 3 (begin 150 0 (boot e 0 0 0))).tf.leftPokeCount = 0 := rfl
  have e0 : (setFR 3 (begin 150 0 (boot e 0 0 0))).extraBits = e := rfl
  rw [c0, e0] at hc
  refine ⟨?_, ?_, rfl, ?_⟩
  · unfold afterMaxRounds
    simp only [handleLeftTouch, setTf]
    rw [hc.1]
    simp only [List.length_replicate, zero_add]
    push_cast
    have := intSucc_max e
    unfold intSucc INT_MAX at this
    rw [← this]
    congr 1
    ring
  · unfold afterMaxRounds
    simp only [handleLeftTouch, setTf]
    rw [hc.2.1]; rfl
  · unfold afterMaxRounds
    simp only [handleLeftTouch, setTf]
    exact hc.2.2.2.2

/-- Claim C1 fails as stated for `n` above `INT_MAX`. With ratio 3 on a board with 16-bit
`int`, the activation number `n = 32769` is a multiple of 3, but `leftPokeCount`, which has
wrapped around from `32767` to `-32768`, is `-32767` when the ratio is tested: the activation
is only recorded, and neither the indicator nor the servo is driven. The same happens on a
board with 32-bit `int` at `n = 2147483649`. -/
theorem C1_counterexample :
    ((2 ^ (15 + 0) + 1) % 3 = 0 ∧
      checkLeft quietEnv 0 (afterMaxRounds 0) = leftRecord quietEnv (afterMaxRounds 0) ∧
      (leftRecord quietEnv (afterMaxRounds 0)).tf.leftPokeCount = -32767 ∧
      ∀ x ∈ newEffects (afterMaxRounds 0) (checkLeft quietEnv 0 (afterMaxRounds 0)),
        isActuation x = false) ∧
    ((2 ^ (15 + 16) + 1) % 3 = 0 ∧
      checkLeft quietEnv 0 (afterMaxRounds 16) = leftRecord quietEnv (afterMaxRounds 16) ∧
      (leftRecord quietEnv (afterMaxRounds 16)).tf.leftPokeCount = -2147483647 ∧
      ∀ x ∈ newEffects (afterMaxRounds 16) (checkLeft quietEnv 0 (afterMaxRounds 16)),
        isActuation x = false) := by
  have key : ∀ e : Nat, Int.tmod (intSucc e (INT_MIN e)) 3 ≠ 0 →
      checkLeft quietEnv 0 (afterMaxRounds e) = leftRecord quietEnv (afterMaxRounds e) ∧
      (leftRecord quietEnv (afterMaxRounds e)).tf.leftPokeCount = intSucc e (INT_MIN e) ∧
      ∀ x ∈ newEffects (afterMaxRounds e) (checkLeft quietEnv 0 (afterMaxRounds e)),
        isActuation x = false := by
    intro e he
    have st := afterMaxRounds_state e
    have h1 : checkLeft quietEnv 0 (afterMaxRounds e) = leftRecord quietEnv (afterMaxRounds e) := by
      rw [checkLeft_eq _ _ _ st.2.2.1, st.1, st.2.1, st.2.2.2, if_neg he]
    refine ⟨h1, ?_, ?_⟩
    · rw [leftRecord_eq]; simp only []; rw [st.1, st.2.2.2]
    · rw [h1]; exact (leftRecord_adds quietEnv _).newEffects.2
  have v0 : intSucc 0 (INT_MIN 0) = -32767 := by decide
  have v16 : intSucc 16 (INT_MIN 16) = -2147483647 := by decide
  have k0 := key 0 (by rw [v0]; decide)
  have k16 := key 16 (by rw [v16]; decide)
  rw [v0] at k0
  rw [v16] at k16
  exact ⟨⟨by decide, k0⟩, ⟨by decide, k16⟩⟩

/-! ## What each operation changes -/

theorem _callLogCallback_eq (s : Sys) :
    _callLogCallback s = { s with trace := s.trace ++ logEffects s.tf } := by
  unfold _callLogCallback logEffects
  cases h : s.tf._logCallback <;> simp [emit]

theorem shakeLoop_tf (n : Nat) (s : Sys) :
    (shakeLoop n s).tf = s.tf ∧ (shakeLoop n s).extraBits = s.extraBits ∧
    (shakeLoop n s).hung = s.hung := by
  induction n generalizing s with
  | zero => exact ⟨rfl, rfl, rfl⟩
  | succ k ih =>
    rw [shakeLoop]
    have := ih (delay 50 (digitalWrite LED_PIN Level.LOW
      (delay 50 (digitalWrite LED_PIN Level.HIGH s))))
    exact ⟨this.1, this.2.1, this.2.2⟩

theorem shakeLoop_board (n : Nat) (s : Sys) :
    (shakeLoop n s).servoAttached = s.servoAttached ∧
    (shakeLoop n s).ledHigh = (if n = 0 then s.ledHigh else false) := by
  induction n generalizing s with
  | zero => exact ⟨rfl, rfl⟩
  | succ k ih =>
    rw [shakeLoop]
    have := ih (delay 50 (digitalWrite LED_PIN Level.LOW
      (delay 50 (digitalWrite LED_PIN Level.HIGH s))))
    refine ⟨by rw [this.1]; rfl, ?_⟩
    rw [this.2]
    by_cases hk : k = 0
    · simp [hk, delay, digitalWrite, emit]
    · simp [hk]

theorem checkRight_tally (env : Env) (s : Sys) :
    (checkRight env s).tf.rightPokeCount
      = bump s.extraBits s.tf._rightTouch s.tf.rightPokeCount ∧
    (checkRight env s).tf._rightTouch = false ∧
    (checkRight env s).tf.leftPokeCount = s.tf.leftPokeCount ∧
    (checkRight env s).tf._leftTouch = s.tf._leftTouch ∧
    (checkRight env s).tf.FeederCount = s.tf.FeederCount ∧
    (checkRight env s).tf._feedTouch = s.tf._feedTouch ∧
    SameSetup s.tf (checkRight env s).tf ∧
    (checkRight env s).extraBits = s.extraBits ∧
    (checkRight env s).hung = s.hung ∧
    (checkRight env s).ledHigh = s.ledHigh ∧
    (checkRight env s).servoAttached = s.servoAttached := by
  cases h : s.tf._rightTouch with
  | false =>
    rw [checkRight_idle env s h]
    exact ⟨by simp [bump], h, rfl, rfl, rfl, rfl, SameSetup.same _, rfl, rfl, rfl, rfl⟩
  | true =>
    rw [checkRight_eq env s h]
    exact ⟨by simp [bump], rfl, rfl, rfl, rfl, rfl, ⟨rfl, rfl, rfl, rfl, rfl, rfl⟩, rfl, rfl,
      rfl, rfl⟩

theorem checkFeeder_tally (env : Env) (s : Sys) :
    (checkFeeder env s).tf.FeederCount = bump s.extraBits s.tf._feedTouch s.tf.FeederCount ∧
    (checkFeeder env s).tf._feedTouch = false ∧
    (checkFeeder env s).tf.leftPokeCount = s.tf.leftPokeCount ∧
    (checkFeeder env s).tf._leftTouch = s.tf._leftTouch ∧
    (checkFeeder env s).tf.rightPokeCount = s.tf.rightPokeCount ∧
    (checkFeeder env s).tf._rightTouch = s.tf._rightTouch ∧
    SameSetup s.tf (checkFeeder env s).tf ∧
    (checkFeeder env s).extraBits = s.extraBits ∧
    (checkFeeder env s).hung = s.hung ∧
    (checkFeeder env s).ledHigh = s.ledHigh ∧
    (checkFeeder env s).servoAttached = s.servoAttached := by
  cases h : s.tf._feedTouch with
  | false =>
    rw [checkFeeder_idle env s h]
    exact ⟨by simp [bump], h, rfl, rfl, rfl, rfl, SameSetup.same _, rfl, rfl, rfl, rfl⟩
  | true =>
    rw [checkFeeder_eq env s h]
    exact ⟨by simp [bump], rfl, rfl, rfl, rfl, rfl, ⟨rfl, rfl, rfl, rfl, rfl, rfl⟩, rfl, rfl,
      rfl, rfl⟩

theorem leftRecord_tally (env : Env) (s : Sys) :
    (leftRecord env s).tf.leftPokeCount = intSucc s.extraBits s.tf.leftPokeCount ∧
    (leftRecord env s).tf._leftTouch = false ∧
    (leftRecord env s).tf.rightPokeCount = s.tf.rightPokeCount ∧
    (leftRecord env s).tf._rightTouch = s.tf._rightTouch ∧
    (leftRecord env s).tf.FeederCount = s.tf.FeederCount ∧
    (leftRecord env s).tf._feedTouch = s.tf._feedTouch ∧
    SameSetup s.tf (leftRecord env s).tf := by
  rw [leftRecord_eq]
  exact ⟨rfl, rfl, rfl, rfl, rfl, rfl, ⟨rfl, rfl, rfl, rfl, rfl, rfl⟩⟩

/-- In free-feeding mode a pending left touch is recorded after the right and feeder polls. -/
theorem freeInputs_eq (env : Env) (s : Sys) (h : s.tf._leftTouch = true) :
    freeInputs env s = leftRecord env (checkFeeder env (checkRight env s)) := by
  unfold freeInputs
  simp only []
  rw [if_pos]
  rw [(checkFeeder_tally env _).2.2.2.1, (checkRight_tally env s).2.2.2.1, h]

theorem freeInputs_idle (env : Env) (s : Sys) (h : s.tf._leftTouch = false) :
    freeInputs env s = checkFeeder env (checkRight env s) := by
  unfold freeInputs
  simp only []
  rw [if_neg]
  rw [(checkFeeder_tally env _).2.2.2.1, (checkRight_tally env s).2.2.2.1, h]
  simp

theorem freeInputs_adds (env : Env) (s : Sys) :
    Adds (fun e => isActuation e = false) s (freeInputs env s) := by
  have a1 := checkRight_adds env s
  have a2 := checkFeeder_adds env (checkRight env s)
  cases h : s.tf._leftTouch with
  | false => rw [freeInputs_idle env s h]; exact a1.trans a2
  | true =>
    rw [freeInputs_eq env s h]
    exact (a1.trans a2).trans (leftRecord_adds env _)

theorem freeInputs_tally (env : Env) (s : Sys) :
    (freeInputs env s).tf.leftPokeCount = bump s.extraBits s.tf._leftTouch s.tf.leftPokeCount ∧
    (freeInputs env s).tf.rightPokeCount
      = bump s.extraBits s.tf._rightTouch s.tf.rightPokeCount ∧
    (freeInputs env s).tf.FeederCount = bump s.extraBits s.tf._feedTouch s.tf.FeederCount ∧
    (freeInputs env s).tf._leftTouch = false ∧
    (freeInputs env s).tf._rightTouch = false ∧
    (freeInputs env s).tf._feedTouch = false ∧
    SameSetup s.tf (freeInputs env s).tf ∧
    (freeInputs env s).extraBits = s.extraBits ∧
    (freeInputs env s).hung = s.hung ∧
    (freeInputs env s).ledHigh = s.ledHigh ∧
    (freeInputs env s).servoAttached = s.servoAttached := by
  have r := checkRight_tally env s
  have f := checkFeeder_tally env (checkRight env s)
  have x2 : (checkFeeder env (checkRight env s)).extraBits = s.extraBits := by
    rw [f.2.2.2.2.2.2.2.1, r.2.2.2.2.2.2.2.1]
  cases h : s.tf._leftTouch with
  | false =>
    rw [freeInputs_idle env s h]
    refine ⟨?_, ?_, ?_, ?_, ?_, f.2.1, r.2.2.2.2.2.2.1.next f.2.2.2.2.2.2.1, x2, ?_, ?_, ?_⟩
    · rw [f.2.2.1, r.2.2.1]; simp [bump]
    · rw [f.2.2.2.2.1, r.1]
    · rw [f.1, r.2.2.2.2.1, r.2.2.2.2.2.1, r.2.2.2.2.2.2.2.1]
    · rw [f.2.2.2.1, r.2.2.2.1, h]
    · rw [f.2.2.2.2.2.1, r.2.1]
    · rw [f.2.2.2.2.2.2.2.2.1, r.2.2.2.2.2.2.2.2.1]
    · rw [f.2.2.2.2.2.2.2.2.2.1, r.2.2.2.2.2.2.2.2.2.1]
    · rw [f.2.2.2.2.2.2.2.2.2.2, r.2.2.2.2.2.2.2.2.2.2]
  | true =>
    have l := leftRecord_tally env (checkFeeder env (checkRight env s))
    have lf := leftRecord_frame env (checkFeeder env (checkRight env s))
    rw [freeInputs_eq env s h]
    refine ⟨?_, ?_, ?_, l.2.1, ?_, ?_,
      (r.2.2.2.2.2.2.1.next f.2.2.2.2.2.2.1).next l.2.2.2.2.2.2, ?_, ?_, ?_, ?_⟩
    · rw [l.1, x2, f.2.2.1, r.2.2.1]; simp [bump]
    · rw [l.2.2.1, f.2.2.2.2.1, r.1]
    · rw [l.2.2.2.2.1, f.1, r.2.2.2.2.1, r.2.2.2.2.2.1, r.2.2.2.2.2.2.2.1]
    · rw [l.2.2.2.1, f.2.2.2.2.2.1, r.2.1]
    · rw [l.2.2.2.2.2.1, f.2.1]
    · rw [lf.2.1, x2]
    · rw [lf.1, f.2.2.2.2.2.2.2.2.1, r.2.2.2.2.2.2.2.2.1]
    · rw [lf.2.2.2.2.1, f.2.2.2.2.2.2.2.2.2.1, r.2.2.2.2.2.2.2.2.2.1]
    · rw [lf.2.2.2.2.2, f.2.2.2.2.2.2.2.2.2.2, r.2.2.2.2.2.2.2.2.2.2]

/-- The three polls of `checkInputs` when no call before it and none of its own is stuck. -/
theorem checkInputs_eq (env : Env) (d : Nat) (s : Sys)
    (h : (checkLeft env d (checkRight env s)).hung = false) :
    checkInputs env d s = checkFeeder env (checkLeft env d (checkRight env s)) := by
  have hmono : (checkRight env s).hung = false := by
    cases hr : (checkRight env s).hung with
    | false => rfl
    | true =>
      have t := checkLeft_tally env d (checkRight env s)
      exfalso
      cases hl : (checkRight env s).tf._leftTouch with
      | false => rw [checkLeft_idle env d _ hl, hr] at h; cases h
      | true =>
        rw [checkLeft_eq env d _ hl] at h
        split at h
        · have := (rewardPath_frame env d (leftRecord env (checkRight env s))).2.2.1
            (by rw [(leftRecord_frame env _).1]; exact hr)
          rw [this] at h; cases h
        · rw [(leftRecord_frame env _).1, hr] at h; cases h
  unfold checkInputs
  simp only []
  rw [if_neg (by rw [hmono]; simp), if_neg (by rw [h]; simp)]

theorem checkInputs_hung (env : Env) (d : Nat) (s : Sys) (hh : s.hung = false)
    (hs : SweepsEnd s) :
    (checkLeft env d (checkRight env s)).hung = false ∧ (checkInputs env d s).hung = false := by
  have r := checkRight_tally env s
  have h1 : (checkRight env s).hung = false := by rw [r.2.2.2.2.2.2.2.2.1]; exact hh
  have s1 : SweepsEnd (checkRight env s) :=
    hs.of_eq r.2.2.2.2.2.2.1.2.1 r.2.2.2.2.2.2.1.1 r.2.2.2.2.2.2.2.1
  have h2 := checkLeft_hung env d _ h1 s1
  refine ⟨h2, ?_⟩
  rw [checkInputs_eq env d s h2, (checkFeeder_tally env _).2.2.2.2.2.2.2.2.1]
  exact h2

theorem bump_once (e : Nat) (b b' : Bool) (x x' : Int)
    (h : (x' = x ∧ b' = b) ∨ (b = true ∧ b' = false ∧ x' = intSucc e x)) :
    bump e b' x' = bump e b x := by
  rcases h with ⟨h1, h2⟩ | ⟨h1, h2, h3⟩
  · rw [h1, h2]
  · rw [h1, h2, h3]; simp [bump]

/-- What `checkInputs` does to the counters and the flags when it returns: every pending
touch is counted once and every flag is cleared. -/
theorem checkInputs_tally (env : Env) (d : Nat) (s : Sys)
    (h : (checkLeft env d (checkRight env s)).hung = false) :
    (checkInputs env d s).tf.leftPokeCount
      = bump s.extraBits s.tf._leftTouch s.tf.leftPokeCount ∧
    (checkInputs env d s).tf.rightPokeCount
      = bump s.extraBits s.tf._rightTouch s.tf.rightPokeCount ∧
    (checkInputs env d s).tf.FeederCount
      = bump s.extraBits s.tf._feedTouch s.tf.FeederCount ∧
    (checkInputs env d s).tf._leftTouch = false ∧
    (checkInputs env d s).tf._rightTouch = false ∧
    (checkInputs env d s).tf._feedTouch = false := by
  rw [checkInputs_eq env d s h]
  have r := checkRight_tally env s
  have l := checkLeft_tally env d (checkRight env s)
  have f := checkFeeder_tally env (checkLeft env d (checkRight env s))
  have xr := r.2.2.2.2.2.2.2.1
  have xl := l.2.2.2.2.2.2
  refine ⟨?_, ?_, ?_, ?_, ?_, f.2.1⟩
  · rw [f.2.2.1, l.1, xr, r.2.2.1, r.2.2.2.1]
  · rw [f.2.2.2.2.1, l.2.2.2.1, r.1]
  · rw [f.1, xl, xr]
    have := bump_once s.extraBits _ _ _ _ (by
      rcases l.2.2.1 with ⟨h1, h2⟩ | ⟨h1, h2, h3⟩
      · exact Or.inl ⟨h1, h2⟩
      · exact Or.inr ⟨h1, h2, by rw [h3, xr]⟩)
    rw [this, r.2.2.2.2.1, r.2.2.2.2.2.1]
  · rw [f.2.2.2.1, l.2.1]
  · rw [f.2.2.2.2.2.1, l.2.2.2.2.1, r.2.1]

/-! ## Counters change by one increment at most -/

theorem CountedOnce.of_tf {s s' : Sys} (h : s'.tf = s.tf) : CountedOnce s s' :=
  ⟨Or.inl (by rw [h]), Or.inl (by rw [h]), Or.inl (by rw [h])⟩

theorem bump_or (e : Nat) (b : Bool) (x : Int) : bump e b x = x ∨ bump e b x = intSucc e x := by
  cases b
  · left; rfl
  · right; rfl

theorem checkRight_counted (env : Env) (s : Sys) : CountedOnce s (checkRight env s) := by
  have r := checkRight_tally env s
  exact ⟨Or.inl r.2.2.1, by rw [r.1]; exact bump_or _ _ _, Or.inl r.2.2.2.2.1⟩

theorem checkFeeder_counted (env : Env) (s : Sys) : CountedOnce s (checkFeeder env s) := by
  have r := checkFeeder_tally env s
  exact ⟨Or.inl r.2.2.1, Or.inl r.2.2.2.2.1, by rw [r.1]; exact bump_or _ _ _⟩

theorem checkLeft_counted (env : Env) (d : Nat) (s : Sys) : CountedOnce s (checkLeft env d s) := by
  have l := checkLeft_tally env d s
  refine ⟨by rw [l.1]; exact bump_or _ _ _, Or.inl l.2.2.2.1, ?_⟩
  rcases l.2.2.1 with ⟨h1, _⟩ | ⟨_, _, h3⟩
  · exact Or.inl h1
  · exact Or.inr h3

theorem freeInputs_counted (env : Env) (s : Sys) : CountedOnce s (freeInputs env s) := by
  have f := freeInputs_tally env s
  exact ⟨by rw [f.1]; exact bump_or _ _ _, by rw [f.2.1]; exact bump_or _ _ _,
    by rw [f.2.2.1]; exact bump_or _ _ _⟩

theorem checkInputs_counted (env : Env) (d : Nat) (s : Sys) :
    CountedOnce s (checkInputs env d s) := by
  have r := checkRight_tally env s
  have l := checkLeft_tally env d (checkRight env s)
  have cr := checkRight_counted env s
  have two : CountedOnce s (checkLeft env d (checkRight env s)) := by
    refine ⟨?_, ?_, ?_⟩
    · rw [l.1, r.2.2.2.2.2.2.2.1, r.2.2.1]; exact bump_or _ _ _
    · rw [l.2.2.2.1]; exact cr.2.1
    · rcases l.2.2.1 with ⟨h1, _⟩ | ⟨_, _, h3⟩
      · left; rw [h1, r.2.2.2.2.1]
      · right; rw [h3, r.2.2.2.2.2.2.2.1, r.2.2.2.2.1]
  cases h2 : (checkLeft env d (checkRight env s)).hung with
  | false =>
    have t := checkInputs_tally env d s h2
    exact ⟨by rw [t.1]; exact bump_or _ _ _, by rw [t.2.1]; exact bump_or _ _ _,
      by rw [t.2.2.1]; exact bump_or _ _ _⟩
  | true =>
    unfold checkInputs
    simp only []
    split
    · exact cr
    · exact two

/-! ## Steadiness -/

theorem Steady.unchanged (s : Sys) : Steady s s :=
  ⟨fun h => h, rfl, fun h => h, fun _ h => h, fun _ h => h⟩

theorem Steady.andThen {a b c : Sys} (h1 : Steady a b) (h2 : Steady b c) : Steady a c := by
  have hb : c.hung = false → b.hung = false := by
    intro hc
    cases hbh : b.hung with
    | false => rfl
    | true => rw [h2.2.2.1 hbh] at hc; cases hc
  exact ⟨fun h => h2.1 (h1.1 h), h2.2.1.trans h1.2.1, fun h => h2.2.2.1 (h1.2.2.1 h),
    fun hc h => h2.2.2.2.1 hc (h1.2.2.2.1 (hb hc) h),
    fun hc h => h2.2.2.2.2 hc (h1.2.2.2.2 (hb hc) h)⟩

theorem Steady.guard {a b : Sys} (f : Sys → Sys) (h1 : Steady a b) (h2 : Steady b (f b)) :
    Steady a (if b.hung then b else f b) := by
  split
  · exact h1
  · exact h1.andThen h2

theorem Steady.of_fields {s s' : Sys} (h1 : s'.tf = s.tf) (hx : s'.extraBits = s.extraBits)
    (hh : s'.hung = s.hung) (h2 : s'.ledHigh = false ∨ s'.ledHigh = s.ledHigh)
    (h3 : s'.servoAttached = false ∨ s'.servoAttached = s.servoAttached) : Steady s s' := by
  refine ⟨fun h => by rw [h1]; exact h, hx, fun h => by rw [hh]; exact h, ?_, ?_⟩
  · intro _ h
    rcases h2 with h2 | h2
    · exact h2
    · rw [h2]; exact h
  · intro _ h
    rcases h3 with h3 | h3
    · exact h3
    · rw [h3]; exact h

theorem feederOpen_steady (s : Sys) : Steady s (feederOpen s) := by
  have f := feederOpen_frame s
  exact ⟨fun h => by rw [f.1]; exact h, f.2.1, f.2.2.1, fun hc _ => (f.2.2.2.1 hc).1,
    fun hc _ => (f.2.2.2.1 hc).2.1⟩

theorem feederClose_steady (s : Sys) : Steady s (feederClose s) := by
  have f := feederClose_frame s
  exact ⟨fun h => by rw [f.1]; exact h, f.2.1, f.2.2.1, fun hc _ => (f.2.2.2.1 hc).1,
    fun hc _ => (f.2.2.2.1 hc).2.1⟩

theorem checkRight_steady (env : Env) (s : Sys) : Steady s (checkRight env s) := by
  cases h : s.tf._rightTouch with
  | false => rw [checkRight_idle env s h]; exact Steady.unchanged s
  | true =>
    rw [checkRight_eq env s h]
    exact ⟨fun hd => ⟨hd.1, rfl, hd.2.2⟩, rfl, fun h => h, fun _ h => h, fun _ h => h⟩

theorem checkFeeder_steady (env : Env) (s : Sys) : Steady s (checkFeeder env s) := by
  cases h : s.tf._feedTouch with
  | false => rw [checkFeeder_idle env s h]; exact Steady.unchanged s
  | true =>
    rw [checkFeeder_eq env s h]
    exact ⟨fun hd => ⟨hd.1, hd.2.1, rfl⟩, rfl, fun h => h, fun _ h => h, fun _ h => h⟩

theorem leftRecord_steady (env : Env) (s : Sys) : Steady s (leftRecord env s) := by
  rw [leftRecord_eq env s]
  exact ⟨fun hd => ⟨rfl, hd.2.1, hd.2.2⟩, rfl, fun h => h, fun _ h => h, fun _ h => h⟩

theorem openWindow_steady (env : Env) (d : Nat) (s : Sys) : Steady s (openWindow env d s) := by
  have hb := openWindow_board env d s
  refine ⟨?_, hb.2.2.1, fun h => by rw [hb.2.2.2]; exact h,
    fun _ hl => by rw [hb.1]; exact hl, fun _ hs => by rw [hb.2.1]; exact hs⟩
  rcases openWindow_tf env d s with h | ⟨_, h⟩
  · intro hd; rw [h]; exact hd
  · intro hd; rw [h]; exact ⟨hd.1, hd.2.1, rfl⟩

theorem rewardPath_steady (env : Env) (d : Nat) (s : Sys) : Steady s (rewardPath env d s) := by
  unfold rewardPath
  simp only []
  exact Steady.guard (fun x => feederClose (openWindow env d x)) (feederOpen_steady s)
    ((openWindow_steady env d _).andThen (feederClose_steady _))

theorem checkLeft_steady (env : Env) (d : Nat) (s : Sys) : Steady s (checkLeft env d s) := by
  cases h : s.tf._leftTouch with
  | false => rw [checkLeft_idle env d s h]; exact Steady.unchanged s
  | true =>
    rw [checkLeft_eq env d s h]
    split
    · exact (leftRecord_steady env s).andThen (rewardPath_steady env d _)
    · exact leftRecord_steady env s

theorem checkInputs_steady (env : Env) (d : Nat) (s : Sys) : Steady s (checkInputs env d s) := by
  unfold checkInputs
  simp only []
  refine Steady.guard
    (fun x => if (checkLeft env d x).hung then checkLeft env d x
      else checkFeeder env (checkLeft env d x)) (checkRight_steady env s) ?_
  exact Steady.guard (fun x => checkFeeder env x) (checkLeft_steady env d _)
    (checkFeeder_steady env _)

theorem freeInputs_steady (env : Env) (s : Sys) : Steady s (freeInputs env s) := by
  have h12 := (checkRight_steady env s).andThen (checkFeeder_steady env (checkRight env s))
  cases h : s.tf._leftTouch with
  | false => rw [freeInputs_idle env s h]; exact h12
  | true => rw [freeInputs_eq env s h]; exact h12.andThen (leftRecord_steady env _)

theorem shake_steady (s : Sys) : Steady s (shake s) := by
  have hb := shakeLoop_board 10 s
  have ht := shakeLoop_tf 10 s
  exact Steady.of_fields ht.1 ht.2.1 ht.2.2 (Or.inl (by unfold shake; rw [hb.2]; rfl))
    (Or.inr (by unfold shake; exact hb.1))

theorem _callLogCallback_steady (s : Sys) : Steady s (_callLogCallback s) := by
  rw [_callLogCallback_eq]; exact Steady.unchanged _

theorem shakeFood_steady (s : Sys) : Steady s (shakeFood s) := by
  unfold shakeFood
  simp only []
  refine Steady.guard
    (fun x => if (feederOpen x).hung then feederOpen x else _callLogCallback (feederOpen x))
    (feederClose_steady s) ?_
  exact Steady.guard (fun x => _callLogCallback x) (feederOpen_steady _)
    (_callLogCallback_steady _)

theorem begin_steady (c o : Int) (s : Sys) : Steady s (begin c o s) :=
  ⟨fun h => h, rfl, fun h => h, fun _ _ => rfl, fun _ h => h⟩

/-- Every public operation other than `resetCounts` is steady. -/
theorem step_steady (env : Env) (op : Op) (s : Sys) (h : op ≠ Op.resetCounts) :
    Steady s (step env op s) := by
  cases op with
  | resetCounts => exact absurd rfl h
  | begin c o => exact begin_steady c o s
  | setFR fr => exact Steady.unchanged s
  | setOpenDuration n => exact Steady.unchanged s
  | setPositions o c => exact Steady.unchanged s
  | setLogCallback cb => exact Steady.unchanged s
  | setDisplayCallback cb => exact Steady.unchanged s
  | feederOpen => exact feederOpen_steady s
  | feederClose => exact feederClose_steady s
  | shakeFood => exact shakeFood_steady s
  | shake => exact shake_steady s
  | checkLeft d => exact checkLeft_steady env d s
  | checkRight => exact checkRight_steady env s
  | checkFeeder => exact checkFeeder_steady env s
  | checkInputs d => exact checkInputs_steady env d s
  | freeInputs => exact freeInputs_steady env s
  | handleLeftTouch => exact Steady.unchanged s
  | handleRightTouch => exact Steady.unchanged s
  | handleFeederTouch => exact Steady.unchanged s

/-- The fields after `shakeFood` are the fields before it, whether or not it returns. -/
theorem shakeFood_tf (s : Sys) : (shakeFood s).tf = s.tf := by
  unfold shakeFood
  simp only []
  split
  · exact (feederClose_frame s).1
  · split
    · rw [(feederOpen_frame _).1, (feederClose_frame s).1]
    · rw [_callLogCallback_eq]
      simp only []
      rw [(feederOpen_frame _).1, (feederClose_frame s).1]

/-- Every public operation other than `resetCounts` changes each counter by one increment at
most. -/
theorem step_counted (env : Env) (op : Op) (s : Sys) (h : op ≠ Op.resetCounts) :
    CountedOnce s (step env op s) := by
  cases op with
  | resetCounts => exact absurd rfl h
  | begin c o => exact ⟨Or.inl rfl, Or.inl rfl, Or.inl rfl⟩
  | setFR fr => exact ⟨Or.inl rfl, Or.inl rfl, Or.inl rfl⟩
  | setOpenDuration n => exact ⟨Or.inl rfl, Or.inl rfl, Or.inl rfl⟩
  | setPositions o c => exact ⟨Or.inl rfl, Or.inl rfl, Or.inl rfl⟩
  | setLogCallback cb => exact ⟨Or.inl rfl, Or.inl rfl, Or.inl rfl⟩
  | setDisplayCallback cb => exact ⟨Or.inl rfl, Or.inl rfl, Or.inl rfl⟩
  | feederOpen => exact CountedOnce.of_tf (feederOpen_frame s).1
  | feederClose => exact CountedOnce.of_tf (feederClose_frame s).1
  | shakeFood => exact CountedOnce.of_tf (shakeFood_tf s)
  | shake => exact CountedOnce.of_tf (shakeLoop_tf 10 s).1
  | checkLeft d => exact checkLeft_counted env d s
  | checkRight => exact checkRight_counted env s
  | checkFeeder => exact checkFeeder_counted env s
  | checkInputs d => exact checkInputs_counted env d s
  | freeInputs => exact freeInputs_counted env s
  | handleLeftTouch => exact ⟨Or.inl rfl, Or.inl rfl, Or.inl rfl⟩
  | handleRightTouch => exact ⟨Or.inl rfl, Or.inl rfl, Or.inl rfl⟩
  | handleFeederTouch => exact ⟨Or.inl rfl, Or.inl rfl, Or.inl rfl⟩

theorem checkInputs_setup (env : Env) (d : Nat) (s : Sys) :
    SameSetup s.tf (checkInputs env d s).tf := by
  have r := (checkRight_tally env s).2.2.2.2.2.2.1
  have l := (checkLeft_tally env d (checkRight env s)).2.2.2.2.2.1
  have f := (checkFeeder_tally env (checkLeft env d (checkRight env s))).2.2.2.2.2.2.1
  unfold checkInputs
  simp only []
  split
  · exact r
  · split
    · exact r.next l
    · exact (r.next l).next f

/-- Only `setFR` writes the fixed ratio. -/
theorem step_FR (env : Env) (op : Op) (s : Sys) :
    (step env op s).tf._FR = s.tf._FR ∨
    ∃ fr, op = Op.setFR fr ∧ (step env op s).tf._FR = if fr = 0 then 1 else fr := by
  cases op with
  | setFR fr => right; exact ⟨fr, rfl, rfl⟩
  | begin c o => left; rfl
  | setOpenDuration n => left; rfl
  | setPositions o c => left; rfl
  | setLogCallback cb => left; rfl
  | setDisplayCallback cb => left; rfl
  | feederOpen => left; simp only [step]; rw [(feederOpen_frame s).1]
  | feederClose => left; simp only [step]; rw [(feederClose_frame s).1]
  | shakeFood => left; simp only [step]; rw [shakeFood_tf]
  | shake => left; simp only [step, shake]; rw [(shakeLoop_tf 10 s).1]
  | checkLeft d => left; exact (checkLeft_tally env d s).2.2.2.2.2.1.2.2.1
  | checkRight => left; exact (checkRight_tally env s).2.2.2.2.2.2.1.2.2.1
  | checkFeeder => left; exact (checkFeeder_tally env s).2.2.2.2.2.2.1.2.2.1
  | checkInputs d => left; exact (checkInputs_setup env d s).2.2.1
  | freeInputs => left; exact (freeInputs_tally env s).2.2.2.2.2.2.1.2.2.1
  | handleLeftTouch => left; rfl
  | handleRightTouch => left; rfl
  | handleFeederTouch => left; rfl
  | resetCounts => left; rfl

theorem run_cons (env : Env) (op : Op) (ops : List Op) (s : Sys) :
    run env (op :: ops) s =
      if (step env op s).hung then step env op s else run env ops (step env op s) := rfl

theorem run_FR_ne_zero (env : Env) (ops : List Op) (s : Sys) (h : s.tf._FR ≠ 0) :
    (run env ops s).tf._FR ≠ 0 := by
  induction ops generalizing s with
  | nil => exact h
  | cons op ops ih =>
    have h1 : (step env op s).tf._FR ≠ 0 := by
      rcases step_FR env op s with h1 | ⟨fr, _, h1⟩
      · rw [h1]; exact h
      · rw [h1]; split <;> omega
    rw [run_cons]
    split
    · exact h1
    · exact ih _ h1

theorem run_FR_pos (env : Env) (ops : List Op) (s : Sys) (h : 1 ≤ s.tf._FR)
    (hops : ∀ fr, Op.setFR fr ∈ ops → 0 ≤ fr) : 1 ≤ (run env ops s).tf._FR := by
  induction ops generalizing s with
  | nil => exact h
  | cons op ops ih =>
    have h1 : 1 ≤ (step env op s).tf._FR := by
      rcases step_FR env op s with h1 | ⟨fr, hop, h1⟩
      · rw [h1]; exact h
      · have := hops fr (by rw [hop]; exact List.mem_cons_self _ _)
        rw [h1]; split <;> omega
    rw [run_cons]
    split
    · exact h1
    · exact ih _ h1 (fun fr hfr => hops fr (List.mem_cons_of_mem _ hfr))

/-! ## Claims C2 to C4 -/

/-- Claim C2, as stated, fails: after `setFR(-1)` on a fresh controller `getFR()` is `-1`. -/
theorem C2_counterexample :
    ¬ (1 ≤ getFR (run quietEnv [Op.setFR (-1)] (boot 0 150 0 0))) := by
  decide

/-- Claim C2 (amended). For a controller built by the constructor and driven by any sequence of
public operations, `getFR()` is never `0`; and it is at least `1` when no `setFR` of the
sequence was given a negative argument. -/
theorem C2_fixed_ratio_nonzero (env : Env) (e : Nat) (closed0 open0 : Int) (t0 : Nat)
    (ops : List Op) :
    getFR (run env ops (boot e closed0 open0 t0)) ≠ 0 ∧
    ((∀ fr, Op.setFR fr ∈ ops → 0 ≤ fr) → 1 ≤ getFR (run env ops (boot e closed0 open0 t0))) :=
  ⟨run_FR_ne_zero env ops _ (by simp [boot, construct]),
   fun h => run_FR_pos env ops _ (by simp [boot, construct]) h⟩

/-- Witness of C2: a run with `setFR 0`, a processed left touch and `setFR 3`. -/
theorem C2_fixed_ratio_nonzero_witness :
    (∀ fr, Op.setFR fr ∈ [Op.setFR 0, Op.handleLeftTouch, Op.checkLeft 0, Op.setFR 3] → 0 ≤ fr) ∧
    1 ≤ getFR (run pulseEnv [Op.setFR 0, Op.handleLeftTouch, Op.checkLeft 0, Op.setFR 3]
      (boot 0 150 0 0)) :=
  ⟨by intro fr h; simp at h; omega,
   (C2_fixed_ratio_nonzero pulseEnv 0 150 0 0
      [Op.setFR 0, Op.handleLeftTouch, Op.checkLeft 0, Op.setFR 3]).2
      (by intro fr h; simp at h; omega)⟩

/-- Claim C3 (`setFR` normalises zero). `setFR(0)` leaves exactly the state that `setFR(1)`
leaves, so `getFR()` is `1` afterwards; for `n ≠ 0`, `getFR()` after `setFR(n)` is `n`;
and `setFR` changes no other field, whatever its argument. -/
theorem C3_setFR_normalises_zero (s : Sys) (n : Int) (hn : n ≠ 0) :
    setFR 0 s = setFR 1 s ∧
    getFR (setFR 0 s) = 1 ∧
    getFR (setFR n s) = n ∧
    ∀ m : Int, setFR m s = { s with tf := { s.tf with _FR := getFR (setFR m s) } } := by
  refine ⟨by simp [setFR], by simp [setFR, getFR, setTf], by simp [setFR, getFR, setTf, hn], ?_⟩
  intro m
  simp [setFR, getFR, setTf]

/-- Witness of C3 at `n = -4` on a fresh controller. -/
theorem C3_setFR_normalises_zero_witness :
    (-4 : Int) ≠ 0 ∧ getFR (setFR (-4) (boot 0 150 0 0)) = -4 :=
  ⟨by decide, (C3_setFR_normalises_zero (boot 0 150 0 0) (-4) (by decide)).2.2.1⟩

/-- Claim C4. After `resetCounts()` the six queries return `0`, whatever the state was. -/
theorem C4_resetCounts_zeroes (s : Sys) :
    getLeftPokeCount (resetCounts s) = 0 ∧ getRightPokeCount (resetCounts s) = 0 ∧
    getFeederCount (resetCounts s) = 0 ∧ getLeftPokeDur (resetCounts s) = 0 ∧
    getRightPokeDur (resetCounts s) = 0 ∧ getLeftFeederDur (resetCounts s) = 0 :=
  ⟨rfl, rfl, rfl, rfl, rfl, rfl⟩

/-! ## Claims C5 to C7 -/

/-- After `k` free-feeding rounds the left counter is the `int` with the low bits of `k` added
to it, and nothing else of the board has changed. -/
theorem freeRounds_spec (env : Env) (k : Nat) (s : Sys)
    (hfit : wrapInt s.extraBits s.tf.leftPokeCount = s.tf.leftPokeCount) :
    Adds (fun e => isActuation e = false) s (freeRounds env k s) ∧
    (freeRounds env k s).tf.leftPokeCount = wrapInt s.extraBits (s.tf.leftPokeCount + (k : Int)) ∧
    (freeRounds env k s).ledHigh = s.ledHigh ∧
    (freeRounds env k s).servoAttached = s.servoAttached ∧
    (freeRounds env k s).hung = s.hung ∧
    (freeRounds env k s).extraBits = s.extraBits := by
  induction k generalizing s with
  | zero => exact ⟨Adds.refl _ _, by simp [freeRounds, hfit], rfl, rfl, rfl, rfl⟩
  | succ k ih =>
    have hf := freeInputs_tally env (handleLeftTouch s)
    have c1 : (freeInputs env (handleLeftTouch s)).tf.leftPokeCount
        = intSucc s.extraBits s.tf.leftPokeCount := by rw [hf.1]; rfl
    have x1 : (freeInputs env (handleLeftTouch s)).extraBits = s.extraBits :=
      hf.2.2.2.2.2.2.2.1
    have hs := ih (freeInputs env (handleLeftTouch s)) (by rw [c1, x1]; exact wrapInt_idem _ _)
    have ha : Adds (fun e => isActuation e = false) s (freeInputs env (handleLeftTouch s)) := by
      obtain ⟨l, hl, hp⟩ := freeInputs_adds env (handleLeftTouch s)
      exact ⟨l, hl, hp⟩
    refine ⟨ha.trans hs.1, ?_, ?_, ?_, ?_, ?_⟩
    · simp only [freeRounds]
      rw [hs.2.1, c1, x1]
      unfold intSucc
      rw [wrapInt_add]
      congr 1
      push_cast; ring
    · simp only [freeRounds]
      rw [hs.2.2.1, hf.2.2.2.2.2.2.2.2.2.1]; rfl
    · simp only [freeRounds]
      rw [hs.2.2.2.1, hf.2.2.2.2.2.2.2.2.2.2]; rfl
    · simp only [freeRounds]
      rw [hs.2.2.2.2.1, hf.2.2.2.2.2.2.2.2.1]; rfl
    · simp only [freeRounds]
      rw [hs.2.2.2.2.2, x1]

theorem freeRounds_adds (env : Env) (k : Nat) (s : Sys) :
    Adds (fun e => isActuation e = false) s (freeRounds env k s) ∧
    (freeRounds env k s).ledHigh = s.ledHigh ∧
    (freeRounds env k s).servoAttached = s.servoAttached := by
  induction k generalizing s with
  | zero => exact ⟨Adds.refl _ _, rfl, rfl⟩
  | succ k ih =>
    have hf := freeInputs_tally env (handleLeftTouch s)
    have hs := ih (freeInputs env (handleLeftTouch s))
    have ha : Adds (fun e => isActuation e = false) s (freeInputs env (handleLeftTouch s)) := by
      obtain ⟨l, hl, hp⟩ := freeInputs_adds env (handleLeftTouch s)
      exact ⟨l, hl, hp⟩
    refine ⟨ha.trans hs.1, ?_, ?_⟩
    · simp only [freeRounds]
      rw [hs.2.1, hf.2.2.2.2.2.2.2.2.2.1]; rfl
    · simp only [freeRounds]
      rw [hs.2.2, hf.2.2.2.2.2.2.2.2.2.2]; rfl

/-- The left counter of a fresh board after `k` free-feeding rounds. -/
theorem freeRounds_fresh (e k : Nat) :
    (freeRounds quietEnv k (freshBoard e)).tf.leftPokeCount = wrapInt e (k : Int) ∧
    (freeRounds quietEnv k (freshBoard e)).extraBits = e := by
  have hpos := pow_bits_pos e
  have h := freeRounds_spec quietEnv k (freshBoard e)
    (by
      show wrapInt e 0 = 0
      exact wrapInt_of_fits _ 0 (by unfold INT_MIN; omega) (by unfold INT_MAX; omega))
  have c0 : (freshBoard e).tf.leftPokeCount = 0 := rfl
  have x0 : (freshBoard e).extraBits = e := rfl
  rw [c0, x0, zero_add] at h
  exact ⟨h.2.1, h.2.2.2.2.2⟩

/-- Claim C5 fails as stated at the largest `int`. On a board with 16-bit `int`, a fresh
controller has `leftPokeCount = 32767` after 32767 free-feeding activations; the next
activation brings it to `-32768`, not to `32768`. On a board with 32-bit `int` the same
happens at `2147483647`. -/
theorem C5_counterexample :
    (getLeftPokeCount (freeRounds quietEnv 32767 (freshBoard 0)) = 32767 ∧
      getLeftPokeCount (freeRounds quietEnv 1 (freeRounds quietEnv 32767 (freshBoard 0)))
        = -32768) ∧
    (getLeftPokeCount (freeRounds quietEnv 2147483647 (freshBoard 16)) = 2147483647 ∧
      getLeftPokeCount (freeRounds quietEnv 1 (freeRounds quietEnv 2147483647 (freshBoard 16)))
        = -2147483648) := by
  have key : ∀ e k : Nat,
      getLeftPokeCount (freeRounds quietEnv k (freshBoard e)) = wrapInt e (k : Int) ∧
      getLeftPokeCount (freeRounds quietEnv 1 (freeRounds quietEnv k (freshBoard e)))
        = intSucc e (wrapInt e (k : Int)) := by
    intro e k
    have h := freeRounds_fresh e k
    refine ⟨h.1, ?_⟩
    have t := freeInputs_tally quietEnv (handleLeftTouch (freeRounds quietEnv k (freshBoard e)))
    simp only [getLeftPokeCount, freeRounds]
    rw [t.1]
    show intSucc (freeRounds quietEnv k (freshBoard e)).extraBits
      (freeRounds quietEnv k (freshBoard e)).tf.leftPokeCount = _
    rw [h.1, h.2]
  have k0 := key 0 32767
  have k16 := key 16 2147483647
  have a0 : wrapInt 0 ((32767 : Nat) : Int) = 32767 := by decide
  have b0 : intSucc 0 32767 = -32768 := by decide
  have a16 : wrapInt 16 ((2147483647 : Nat) : Int) = 2147483647 := by decide
  have b16 : intSucc 16 2147483647 = -2147483648 := by decide
  rw [a0, b0] at k0
  rw [a16, b16] at k16
  exact ⟨k0, k16⟩

/-- Claim C5 (free-feeding mode, amended). For every state (hence every fixed ratio) and every
`k`, `k` left activations each processed by `freeInputs()` produce no indicator or servo
effect (no attach, write or detach) and leave the indicator and the servo connection as they
were. When `leftPokeCount` is an `int` and `leftPokeCount + k ≤ INT_MAX`, they raise
`leftPokeCount` by exactly `k`; a single processed activation raises a `leftPokeCount` below
`INT_MAX` by `1`, and brings `INT_MAX` to `INT_MIN`. -/
theorem C5_free_feeding_never_actuates (env : Env) (s : Sys) (k : Nat) :
    (∀ e ∈ newEffects s (freeRounds env k s), isActuation e = false) ∧
    (freeRounds env k s).ledHigh = s.ledHigh ∧
    (freeRounds env k s).servoAttached = s.servoAttached ∧
    (INT_MIN s.extraBits ≤ getLeftPokeCount s →
      getLeftPokeCount s + (k : Int) ≤ INT_MAX s.extraBits →
      getLeftPokeCount (freeRounds env k s) = getLeftPokeCount s + k) ∧
    (INT_MIN s.extraBits ≤ getLeftPokeCount s → getLeftPokeCount s < INT_MAX s.extraBits →
      getLeftPokeCount (freeInputs env (handleLeftTouch s)) = getLeftPokeCount s + 1) ∧
    (getLeftPokeCount s = INT_MAX s.extraBits →
      getLeftPokeCount (freeInputs env (handleLeftTouch s)) = INT_MIN s.extraBits) := by
  have h := freeRounds_adds env k s
  have hf := freeInputs_tally env (handleLeftTouch s)
  have c1 : (freeInputs env (handleLeftTouch s)).tf.leftPokeCount
      = intSucc s.extraBits s.tf.leftPokeCount := by rw [hf.1]; rfl
  refine ⟨h.1.newEffects.2, h.2.1, h.2.2, ?_, ?_, ?_⟩
  · intro h1 h2
    simp only [getLeftPokeCount] at h1 h2 ⊢
    have hs := freeRounds_spec env k s (wrapInt_of_fits _ _ h1 (by omega))
    rw [hs.2.1]
    exact wrapInt_of_fits _ _ (by omega) h2
  · intro h1 h2
    simp only [getLeftPokeCount] at h1 h2 ⊢
    rw [c1]
    exact intSucc_of_lt _ _ h1 h2
  · intro h1
    simp only [getLeftPokeCount] at h1 ⊢
    rw [c1, h1]
    exact intSucc_max _

/-- Witness of C5: three free-feeding activations on a fresh board with 16-bit `int`. -/
theorem C5_free_feeding_never_actuates_witness :
    INT_MIN (freshBoard 0).extraBits ≤ getLeftPokeCount (freshBoard 0) ∧
    getLeftPokeCount (freshBoard 0) + ((3 : Nat) : Int) ≤ INT_MAX (freshBoard 0).extraBits ∧
    getLeftPokeCount (freeRounds pulseEnv 3 (freshBoard 0))
      = getLeftPokeCount (freshBoard 0) + ((3 : Nat) : Int) :=
  ⟨by decide, by decide,
   (C5_free_feeding_never_actuates pulseEnv (freshBoard 0) 3).2.2.2.1 (by decide) (by decide)⟩

/-- Claim C6. Whatever the fixed ratio, the counters and the pending flags are, `checkRight()`
and `checkFeeder()` add to the trace only the reading of their own sensor and the two
notifications (nothing when the flag is not pending): no indicator or servo effect, so no
`feederOpen`, open window or `feederClose`; the indicator and the servo connection are
unchanged and the clock advances only by the time the sensor is held. -/
theorem C6_right_and_feeder_never_reward (env : Env) (s : Sys) :
    (∀ e ∈ newEffects s (checkRight env s), isActuation e = false) ∧
    (∀ e ∈ newEffects s (checkFeeder env s), isActuation e = false) ∧
    newEffects s (checkRight env s) =
      (if s.tf._rightTouch then
        senseEffects env RIGHT_TOUCH_PIN s.now ++
          notifyEffects { s.tf with rightPokeCount := intSucc s.extraBits s.tf.rightPokeCount,
                                    rightPokeDur := measured env s.extraBits RIGHT_TOUCH_PIN s.now }
       else []) ∧
    newEffects s (checkFeeder env s) =
      (if s.tf._feedTouch then
        senseEffects env FEEDER_TOUCH_PIN s.now ++
          notifyEffects { s.tf with FeederCount := intSucc s.extraBits s.tf.FeederCount,
                                    leftFeederDur := measured env s.extraBits FEEDER_TOUCH_PIN s.now }
       else []) ∧
    (checkRight env s).ledHigh = s.ledHigh ∧ (checkRight env s).servoAttached = s.servoAttached ∧
    (checkFeeder env s).ledHigh = s.ledHigh ∧ (checkFeeder env s).servoAttached = s.servoAttached ∧
    (checkRight env s).now
      = s.now + (if s.tf._rightTouch then lowRun env RIGHT_TOUCH_PIN s.now else 0) ∧
    (checkFeeder env s).now
      = s.now + (if s.tf._feedTouch then lowRun env FEEDER_TOUCH_PIN s.now else 0) := by
  have r := checkRight_tally env s
  have f := checkFeeder_tally env s
  refine ⟨(checkRight_adds env s).newEffects.2, (checkFeeder_adds env s).newEffects.2, ?_, ?_,
    r.2.2.2.2.2.2.2.2.2.1, r.2.2.2.2.2.2.2.2.2.2, f.2.2.2.2.2.2.2.2.2.1,
    f.2.2.2.2.2.2.2.2.2.2, ?_, ?_⟩
  · cases h : s.tf._rightTouch with
    | false => rw [checkRight_idle env s h]; simp [newEffects]
    | true => rw [checkRight_eq env s h]; simp [newEffects, seenRight]
  · cases h : s.tf._feedTouch with
    | false => rw [checkFeeder_idle env s h]; simp [newEffects]
    | true => rw [checkFeeder_eq env s h]; simp [newEffects, seenFeeder]
  · cases h : s.tf._rightTouch with
    | false => rw [checkRight_idle env s h]; simp
    | true => rw [checkRight_eq env s h]; simp
  · cases h : s.tf._feedTouch with
    | false => rw [checkFeeder_idle env s h]; simp
    | true => rw [checkFeeder_eq env s h]; simp

/-- The stored duration is the time the line was held when that time is an `int`. -/
theorem measured_eq_lowRun (env : Env) (e : Nat) (pin : Pin) (t : Nat)
    (hi : (lowRun env pin t : Int) ≤ INT_MAX e) (h : lowRun env pin t < ULONG_MOD) :
    measured env e pin t = (lowRun env pin t : Int) := by
  unfold measured
  have : ulongSub ((t + lowRun env pin t) % ULONG_MOD) (t % ULONG_MOD) = lowRun env pin t := by
    unfold ulongSub ULONG_MOD at *; omega
  rw [this]
  have hpos := pow_bits_pos e
  exact wrapInt_of_fits e _ (by unfold INT_MIN; simp only [Int.ofNat_eq_coe]; omega)
    (by simpa using hi)

theorem notifyEffects_registered (f : TumbleFeeder) (a b : Nat)
    (hd : f._displayCallback = some a) (hl : f._logCallback = some b) :
    notifyEffects f = [Effect.displayCallback a f, Effect.logCallback b f] := by
  simp [notifyEffects, hd, hl]

theorem newEffects_checkRight (env : Env) (s : Sys) (h : s.tf._rightTouch = true) :
    newEffects s (checkRight env s) =
      senseEffects env RIGHT_TOUCH_PIN s.now ++ notifyEffects (seenRight env s) :=
  newEffects_of_trace (by rw [checkRight_eq env s h])

theorem newEffects_checkFeeder (env : Env) (s : Sys) (h : s.tf._feedTouch = true) :
    newEffects s (checkFeeder env s) =
      senseEffects env FEEDER_TOUCH_PIN s.now ++ notifyEffects (seenFeeder env s) :=
  newEffects_of_trace (by rw [checkFeeder_eq env s h])

theorem newEffects_leftRecord (env : Env) (s : Sys) :
    newEffects s (leftRecord env s) =
      senseEffects env LEFT_TOUCH_PIN s.now ++ notifyEffects (seenLeft env s) :=
  newEffects_of_trace (by rw [leftRecord_eq env s])

/-- The duration observed by the callbacks when the right sensor of `demoBoard e` is held
until the time `T`. -/
theorem demoBoard_held (e T : Nat) :
    lowRun (holdEnv T) RIGHT_TOUCH_PIN (demoBoard e).now = T ∧
    newEffects (demoBoard e) (checkRight (holdEnv T) (demoBoard e)) =
      senseEffects (holdEnv T) RIGHT_TOUCH_PIN (demoBoard e).now ++
        [Effect.displayCallback 1 (seenRight (holdEnv T) (demoBoard e)),
         Effect.logCallback 2 (seenRight (holdEnv T) (demoBoard e))] ∧
    (seenRight (holdEnv T) (demoBoard e)).rightPokeDur
      = wrapInt e (Int.ofNat (ulongSub (T % ULONG_MOD) 0)) := by
  have h0 : (demoBoard e).now = 0 := rfl
  have hl : lowRun (holdEnv T) RIGHT_TOUCH_PIN (demoBoard e).now = T := by
    rw [lowRun_holdEnv, h0]; rfl
  refine ⟨hl, ?_, ?_⟩
  · rw [newEffects_checkRight _ _ rfl,
      notifyEffects_registered (seenRight (holdEnv T) (demoBoard e)) 1 2 rfl rfl]
  · simp only [seenRight, measured]
    rw [hl, h0]
    simp
    rfl

/-- Claim C7 fails as stated for a long touch. On a board with 16-bit `int`, a right touch held
for 40000 ms is notified with the duration `-25536`: the `unsigned long` difference 40000 does
not fit the `int` it is stored in. On a board with 32-bit `int` a touch held for `2 ^ 31` ms
is notified with the duration `-2147483648`. -/
theorem C7_counterexample :
    (lowRun (holdEnv 40000) RIGHT_TOUCH_PIN (demoBoard 0).now = 40000 ∧
      newEffects (demoBoard 0) (checkRight (holdEnv 40000) (demoBoard 0)) =
        senseEffects (holdEnv 40000) RIGHT_TOUCH_PIN (demoBoard 0).now ++
          [Effect.displayCallback 1 (seenRight (holdEnv 40000) (demoBoard 0)),
           Effect.logCallback 2 (seenRight (holdEnv 40000) (demoBoard 0))] ∧
      (seenRight (holdEnv 40000) (demoBoard 0)).rightPokeDur = -25536) ∧
    (lowRun (holdEnv 2147483648) RIGHT_TOUCH_PIN (demoBoard 16).now = 2147483648 ∧
      newEffects (demoBoard 16) (checkRight (holdEnv 2147483648) (demoBoard 16)) =
        senseEffects (holdEnv 2147483648) RIGHT_TOUCH_PIN (demoBoard 16).now ++
          [Effect.displayCallback 1 (seenRight (holdEnv 2147483648) (demoBoard 16)),
           Effect.logCallback 2 (seenRight (holdEnv 2147483648) (demoBoard 16))] ∧
      (seenRight (holdEnv 2147483648) (demoBoard 16)).rightPokeDur = -2147483648) := by
  have k0 := demoBoard_held 0 40000
  have k16 := demoBoard_held 16 2147483648
  have v0 : wrapInt 0 (Int.ofNat (ulongSub (40000 % ULONG_MOD) 0)) = -25536 := by decide
  have v16 : wrapInt 16 (Int.ofNat (ulongSub (2147483648 % ULONG_MOD) 0)) = -2147483648 := by
    decide
  rw [v0] at k0
  rw [v16] at k16
  exact ⟨k0, k16⟩

/-- Claim C7 (notify before clear, amended). Let both callbacks be registered. A pending
activation processed by `checkRight`, by `checkFeeder`, by `checkLeft` or by the left branch
of `freeInputs` adds to the trace the reading of its sensor, which calls no callback, then one
call of the display callback, then one call of the log callback. Both calls observe the
counter already incremented (by `1` when it was an `int` below `INT_MAX`), the duration
stored by the reading (the `unsigned long` difference of the two clock readings converted to
`int`; it is the time the sensor was held when that time is at most `INT_MAX` ms and below
`2 ^ 32` ms) and the pending flag still set. The routine then clears the flag and the
duration, and `checkLeft` evaluates the fixed-ratio test only on the cleared state. -/
theorem C7_notify_before_clear (env : Env) (d : Nat) (s : Sys) (a b : Nat)
    (hd : s.tf._displayCallback = some a) (hl : s.tf._logCallback = some b) :
    (s.tf._rightTouch = true →
      newEffects s (checkRight env s) =
        senseEffects env RIGHT_TOUCH_PIN s.now ++
          [Effect.displayCallback a (seenRight env s),
           Effect.logCallback b (seenRight env s)] ∧
      (seenRight env s).rightPokeCount = intSucc s.extraBits s.tf.rightPokeCount ∧
      (INT_MIN s.extraBits ≤ s.tf.rightPokeCount → s.tf.rightPokeCount < INT_MAX s.extraBits →
        (seenRight env s).rightPokeCount = s.tf.rightPokeCount + 1) ∧
      (seenRight env s).rightPokeDur = measured env s.extraBits RIGHT_TOUCH_PIN s.now ∧
      (seenRight env s)._rightTouch = true ∧
      (checkRight env s).tf =
        { seenRight env s with _rightTouch := false, rightPokeDur := 0 }) ∧
    (s.tf._feedTouch = true →
      newEffects s (checkFeeder env s) =
        senseEffects env FEEDER_TOUCH_PIN s.now ++
          [Effect.displayCallback a (seenFeeder env s),
           Effect.logCallback b (seenFeeder env s)] ∧
      (seenFeeder env s).FeederCount = intSucc s.extraBits s.tf.FeederCount ∧
      (INT_MIN s.extraBits ≤ s.tf.FeederCount → s.tf.FeederCount < INT_MAX s.extraBits →
        (seenFeeder env s).FeederCount = s.tf.FeederCount + 1) ∧
      (seenFeeder env s).leftFeederDur = measured env s.extraBits FEEDER_TOUCH_PIN s.now ∧
      (seenFeeder env s)._feedTouch = true ∧
      (checkFeeder env s).tf =
        { seenFeeder env s with _feedTouch := false, leftFeederDur := 0 }) ∧
    (s.tf._leftTouch = true →
      newEffects s (leftRecord env s) =
        senseEffects env LEFT_TOUCH_PIN s.now ++
          [Effect.displayCallback a (seenLeft env s),
           Effect.logCallback b (seenLeft env s)] ∧
      (seenLeft env s).leftPokeCount = intSucc s.extraBits s.tf.leftPokeCount ∧
      (INT_MIN s.extraBits ≤ s.tf.leftPokeCount → s.tf.leftPokeCount < INT_MAX s.extraBits →
        (seenLeft env s).leftPokeCount = s.tf.leftPokeCount + 1) ∧
      (seenLeft env s).leftPokeDur = measured env s.extraBits LEFT_TOUCH_PIN s.now ∧
      (seenLeft env s)._leftTouch = true ∧
      (leftRecord env s).tf =
        { seenLeft env s with _leftTouch := false, leftPokeDur := 0 } ∧
      checkLeft env d s =
        (if Int.tmod (leftRecord env s).tf.leftPokeCount (leftRecord env s).tf._FR = 0 then
          rewardPath env d (leftRecord env s)
         else leftRecord env s) ∧
      newEffects s (checkLeft env d s) =
        newEffects s (leftRecord env s) ++ newEffects (leftRecord env s) (checkLeft env d s) ∧
      freeInputs env s = leftRecord env (checkFeeder env (checkRight env s)) ∧
      newEffects (checkFeeder env (checkRight env s)) (freeInputs env s) =
        senseEffects env LEFT_TOUCH_PIN (checkFeeder env (checkRight env s)).now ++
          [Effect.displayCallback a (seenLeft env (checkFeeder env (checkRight env s))),
           Effect.logCallback b (seenLeft env (checkFeeder env (checkRight env s)))] ∧
      (seenLeft env (checkFeeder env (checkRight env s))).leftPokeCount
        = intSucc s.extraBits s.tf.leftPokeCount ∧
      (seenLeft env (checkFeeder env (checkRight env s)))._leftTouch = true ∧
      (freeInputs env s).tf =
        { seenLeft env (checkFeeder env (checkRight env s)) with
            _leftTouch := false, leftPokeDur := 0 }) ∧
    (∀ pin t e, e ∈ senseEffects env pin t → isCallback e = false) ∧
    (∀ pin t, (lowRun env pin t : Int) ≤ INT_MAX s.extraBits → lowRun env pin t < ULONG_MOD →
      measured env s.extraBits pin t = (lowRun env pin t : Int)) := by
  refine ⟨?_, ?_, ?_, fun pin t e he => (mem_senseEffects env pin t e he).2,
    measured_eq_lowRun env s.extraBits⟩
  · intro h
    have hn := notifyEffects_registered (seenRight env s) a b hd hl
    refine ⟨?_, rfl, fun h1 h2 => intSucc_of_lt _ _ h1 h2, rfl, h, ?_⟩
    · rw [← hn, newEffects_checkRight env s h]
    · rw [checkRight_eq env s h]; simp [seenRight]
  · intro h
    have hn := notifyEffects_registered (seenFeeder env s) a b hd hl
    refine ⟨?_, rfl, fun h1 h2 => intSucc_of_lt _ _ h1 h2, rfl, h, ?_⟩
    · rw [← hn, newEffects_checkFeeder env s h]
    · rw [checkFeeder_eq env s h]; simp [seenFeeder]
  · intro h
    have hn := notifyEffects_registered (seenLeft env s) a b hd hl
    have hfree := freeInputs_eq env s h
    have r := checkRight_tally env s
    have f := checkFeeder_tally env (checkRight env s)
    have hcb : (checkFeeder env (checkRight env s)).tf._displayCallback = some a ∧
        (checkFeeder env (checkRight env s)).tf._logCallback = some b ∧
        (checkFeeder env (checkRight env s)).tf._leftTouch = true ∧
        (checkFeeder env (checkRight env s)).tf.leftPokeCount = s.tf.leftPokeCount ∧
        (checkFeeder env (checkRight env s)).extraBits = s.extraBits := by
      have su := r.2.2.2.2.2.2.1.next f.2.2.2.2.2.2.1
      exact ⟨by rw [su.2.2.2.2.2]; exact hd, by rw [su.2.2.2.2.1]; exact hl,
        by rw [f.2.2.2.1, r.2.2.2.1, h], by rw [f.2.2.1, r.2.2.1],
        by rw [f.2.2.2.2.2.2.2.1, r.2.2.2.2.2.2.2.1]⟩
    have hn1 := notifyEffects_registered
      (seenLeft env (checkFeeder env (checkRight env s))) a b hcb.1 hcb.2.1
    refine ⟨?_, rfl, fun h1 h2 => intSucc_of_lt _ _ h1 h2, rfl, h, ?_, ?_, ?_, hfree, ?_, ?_,
      hcb.2.2.1, ?_⟩
    · rw [← hn, newEffects_leftRecord]
    · rw [leftRecord_eq]; simp [seenLeft]
    · unfold checkLeft rewardPath
      rw [if_pos h]
    · exact newEffects_append (leftRecord_adds env s) (by
        rw [checkLeft_eq env d s h]
        split
        · exact rewardPath_adds env d _
        · exact Adds.refl _ _)
    · rw [← hn1, hfree, newEffects_leftRecord]
    · simp only [seenLeft]; rw [hcb.2.2.2.1, hcb.2.2.2.2]
    · rw [hfree, leftRecord_eq]; simp [seenLeft]

/-- Witness of C7: the left activation of `demoState`. -/
theorem C7_notify_before_clear_witness :
    demoState.tf._displayCallback = some 1 ∧ demoState.tf._logCallback = some 2 ∧
    demoState.tf._leftTouch = true ∧
    newEffects demoState (leftRecord pulseEnv demoState) =
      senseEffects pulseEnv LEFT_TOUCH_PIN demoState.now ++
        [Effect.displayCallback 1 (seenLeft pulseEnv demoState),
         Effect.logCallback 2 (seenLeft pulseEnv demoState)] :=
  ⟨rfl, rfl, rfl, ((C7_notify_before_clear pulseEnv 0 demoState 1 2 rfl rfl).2.2.1 rfl).1⟩

/-! ## Claims C8 and C9 -/

theorem sweepDown_eq_flatMap (n : Nat) (pos : Int) :
    sweepDown n pos =
      (List.range n).flatMap (fun i => [Effect.servoWrite (pos - (i : Int)), Effect.delay 50]) := by
  induction n generalizing pos with
  | zero => simp [sweepDown]
  | succ k ih =>
    rw [sweepDown, ih, List.range_succ_eq_map]
    simp only [List.flatMap_cons, List.flatMap_map]
    simp only [Nat.cast_zero, sub_zero, List.cons_append, List.nil_append, List.cons.injEq, true_and]
    congr 1
    funext i
    simp only [Function.comp, Nat.succ_eq_add_one, Nat.cast_add, Nat.cast_one]
    congr 2
    omega

theorem sweepUp_eq_flatMap (n : Nat) (pos : Int) :
    sweepUp n pos =
      (List.range n).flatMap (fun i => [Effect.servoWrite (pos + (i : Int)), Effect.delay 50]) := by
  induction n generalizing pos with
  | zero => simp [sweepUp]
  | succ k ih =>
    rw [sweepUp, ih, List.range_succ_eq_map]
    simp only [List.flatMap_cons, List.flatMap_map]
    simp only [Nat.cast_zero, add_zero, List.cons_append, List.nil_append, List.cons.injEq, true_and]
    congr 1
    funext i
    simp only [Function.comp, Nat.succ_eq_add_one, Nat.cast_add, Nat.cast_one]
    congr 2
    omega

theorem newEffects_feederOpen (s : Sys) (h : OpenEnds s.extraBits s.tf) :
    newEffects s (feederOpen s) = feederOpenEffects s.tf :=
  newEffects_of_trace (by rw [feederOpen_eq s h]; rfl)

theorem newEffects_feederClose (s : Sys) (h : CloseEnds s.extraBits s.tf) :
    newEffects s (feederClose s) = feederCloseEffects s.tf :=
  newEffects_of_trace (by rw [feederClose_eq s h]; rfl)

/-- Claim C8 fails as stated: with `closedPos = 0` and `openPos = 10` the loop of `feederOpen`
is never entered, so there is no servo write where the claim counts `|0 - 10| + 1 = 11`. -/
theorem C8_counterexample :
    ¬ ((newEffects (setPositions 10 0 (boot 0 0 0 0))
        (feederOpen (setPositions 10 0 (boot 0 0 0 0)))).countP isServoWrite
      = Int.natAbs ((setPositions 10 0 (boot 0 0 0 0)).tf._closedPos
          - (setPositions 10 0 (boot 0 0 0 0)).tf._openPos) + 1) := by
  have h : OpenEnds (setPositions 10 0 (boot 0 0 0 0)).extraBits
      (setPositions 10 0 (boot 0 0 0 0)).tf := by
    constructor <;> decide
  rw [newEffects_feederOpen _ h]
  decide

/-- Claim C8 (amended). Whenever `INT_MIN < openPos ≤ closedPos < INT_MAX`, `feederOpen()` and
`feederClose()` return and each perform exactly `|closedPos - openPos| + 1` servo writes, each
followed by one 50 ms delay, between the attach and the detach; the delays add up to, and the
clock advances by, `(|closedPos - openPos| + 1) * 50` ms. -/
theorem C8_deterministic_travel (s : Sys) (h : s.tf._openPos ≤ s.tf._closedPos)
    (ho : INT_MIN s.extraBits < s.tf._openPos) (hc : s.tf._closedPos < INT_MAX s.extraBits) :
    newEffects s (feederOpen s) =
      [Effect.digitalWrite LED_PIN Level.HIGH, Effect.servoAttach SERVO_PIN] ++
      (List.range (Int.natAbs (s.tf._closedPos - s.tf._openPos) + 1)).flatMap
        (fun i => [Effect.servoWrite (s.tf._closedPos - (i : Int)), Effect.delay 50]) ++
      [Effect.servoDetach, Effect.digitalWrite LED_PIN Level.LOW] ∧
    newEffects s (feederClose s) =
      [Effect.digitalWrite LED_PIN Level.HIGH, Effect.servoAttach SERVO_PIN] ++
      (List.range (Int.natAbs (s.tf._closedPos - s.tf._openPos) + 1)).flatMap
        (fun i => [Effect.servoWrite (s.tf._openPos + (i : Int)), Effect.delay 50]) ++
      [Effect.servoDetach, Effect.digitalWrite LED_PIN Level.LOW] ∧
    (newEffects s (feederOpen s)).countP isServoWrite
      = Int.natAbs (s.tf._closedPos - s.tf._openPos) + 1 ∧
    (newEffects s (feederClose s)).countP isServoWrite
      = Int.natAbs (s.tf._closedPos - s.tf._openPos) + 1 ∧
    totalDelay (newEffects s (feederOpen s))
      = (Int.natAbs (s.tf._closedPos - s.tf._openPos) + 1) * 50 ∧
    totalDelay (newEffects s (feederClose s))
      = (Int.natAbs (s.tf._closedPos - s.tf._openPos) + 1) * 50 ∧
    (feederOpen s).now = s.now + (Int.natAbs (s.tf._closedPos - s.tf._openPos) + 1) * 50 ∧
    (feederClose s).now = s.now + (Int.natAbs (s.tf._closedPos - s.tf._openPos) + 1) * 50 ∧
    (feederOpen s).hung = s.hung ∧ (feederClose s).hung = s.hung := by
  have hs : SweepsEnd s := ⟨ho, hc⟩
  have hN : sweepFuel s.tf = Int.natAbs (s.tf._closedPos - s.tf._openPos) + 1 := by
    unfold sweepFuel; omega
  have ho : newEffects s (feederOpen s) = _ :=
    newEffects_of_trace (by rw [feederOpen_eq s hs.openEnds])
  have hc : newEffects s (feederClose s) = _ :=
    newEffects_of_trace (by rw [feederClose_eq s hs.closeEnds])
  have cd := sweepDown_count (sweepFuel s.tf) s.tf._closedPos
  have cu := sweepUp_count (sweepFuel s.tf) s.tf._openPos
  refine ⟨?_, ?_, ?_, ?_, ?_, ?_, ?_, ?_, ?_, ?_⟩
  · rw [ho, sweepDown_eq_flatMap, hN]
  · rw [hc, sweepUp_eq_flatMap, hN]
  · rw [ho, List.countP_append, List.countP_append, cd.1, hN]; simp [isServoWrite]
  · rw [hc, List.countP_append, List.countP_append, cu.1, hN]; simp [isServoWrite]
  · rw [ho, totalDelay_append, totalDelay_append, cd.2, hN]; simp [totalDelay]; omega
  · rw [hc, totalDelay_append, totalDelay_append, cu.2, hN]; simp [totalDelay]; omega
  · rw [feederOpen_eq s hs.openEnds, hN]; simp only []; omega
  · rw [feederClose_eq s hs.closeEnds, hN]; simp only []; omega
  · rw [feederOpen_eq s hs.openEnds]
  · rw [feederClose_eq s hs.closeEnds]

/-- Witness of C8: the default positions `closedPos = 150`, `openPos = 0` give 151 writes. -/
theorem C8_deterministic_travel_witness :
    (freshBoard 0).tf._openPos ≤ (freshBoard 0).tf._closedPos ∧
    INT_MIN (freshBoard 0).extraBits < (freshBoard 0).tf._openPos ∧
    (freshBoard 0).tf._closedPos < INT_MAX (freshBoard 0).extraBits ∧
    (newEffects (freshBoard 0) (feederOpen (freshBoard 0))).countP isServoWrite
      = Int.natAbs ((freshBoard 0).tf._closedPos - (freshBoard 0).tf._openPos) + 1 :=
  ⟨by decide, by decide, by decide,
   (C8_deterministic_travel (freshBoard 0) (by decide) (by decide) (by decide)).2.2.1⟩

theorem StoredOnly.leftRecord {x : Nat} {u v : Sys} (env : Env) (h : StoredOnly x u v) :
    StoredOnly x (leftRecord env u) (leftRecord env v) := by
  obtain ⟨h1, h2, h3, h4, h5, h6⟩ := h
  rw [leftRecord_eq, leftRecord_eq]
  simp [StoredOnly, h1, h2, h3, h4, h5, h6]

theorem StoredOnly.feederOpen {x : Nat} {u v : Sys} (h : StoredOnly x u v) :
    StoredOnly x (feederOpen u) (feederOpen v) := by
  obtain ⟨h1, h2, h3, h4, h5, h6⟩ := h
  have hr : openRun v.extraBits v.tf = openRun u.extraBits u.tf := by
    rw [h4, h5]; rfl
  cases hb : (openRun u.extraBits u.tf).2 with
  | true =>
    rw [feederOpen_returns u hb, feederOpen_returns v (by rw [hr]; exact hb), hr]
    exact ⟨by simp only []; rw [h1], rfl, rfl, h4, h5, h6⟩
  | false =>
    rw [feederOpen_stuck u hb, feederOpen_stuck v (by rw [hr]; exact hb), hr]
    exact ⟨by simp only []; rw [h1], rfl, rfl, h4, h5, rfl⟩

theorem StoredOnly.feederClose {x : Nat} {u v : Sys} (h : StoredOnly x u v) :
    StoredOnly x (feederClose u) (feederClose v) := by
  obtain ⟨h1, h2, h3, h4, h5, h6⟩ := h
  have hr : closeRun v.extraBits v.tf = closeRun u.extraBits u.tf := by
    rw [h4, h5]; rfl
  cases hb : (closeRun u.extraBits u.tf).2 with
  | true =>
    rw [feederClose_returns u hb, feederClose_returns v (by rw [hr]; exact hb), hr]
    exact ⟨by simp only []; rw [h1], rfl, rfl, h4, h5, h6⟩
  | false =>
    rw [feederClose_stuck u hb, feederClose_stuck v (by rw [hr]; exact hb), hr]
    exact ⟨by simp only []; rw [h1], rfl, rfl, h4, h5, rfl⟩

theorem StoredOnly.openWindow {x : Nat} {u v : Sys} (env : Env) (d : Nat)
    (h : StoredOnly x u v) : StoredOnly x (openWindow env d u) (openWindow env d v) := by
  obtain ⟨h1, h2, h3, h4, h5, h6⟩ := h
  have hflag : v.tf._feedTouch = u.tf._feedTouch := by rw [h4]
  rcases openWindow_cases d u with hc | ⟨c1, c2⟩
  · rw [openWindow_idle env d u hc, openWindow_idle env d v (by rw [hflag]; exact hc)]
    simp [StoredOnly, h1, h2, h3, h4, h5, h6]
  · rw [openWindow_busy env d u c1 c2, openWindow_busy env d v (by rw [hflag]; exact c1) c2]
    simp [StoredOnly, h1, h2, h3, h4, h5, h6]

theorem StoredOnly.rewardPath {x : Nat} {u v : Sys} (env : Env) (d : Nat)
    (h : StoredOnly x u v) : StoredOnly x (rewardPath env d u) (rewardPath env d v) := by
  have h6 := h.feederOpen
  unfold TumbleFeeder.rewardPath
  simp only []
  rw [h6.2.2.2.2.2]
  split
  · exact h6
  · exact (h6.openWindow env d).feederClose

/-- The value stored by `setOpenDuration` is read by no statement of `checkLeft`: the call
ends at the same time, in the same state of the board and with the same fields, whether or
not a `setOpenDuration(x)` came before it. -/
theorem checkLeft_setOpenDuration (env : Env) (x d : Nat) (s : Sys) :
    StoredOnly x (checkLeft env d s) (checkLeft env d (setOpenDuration x s)) := by
  have h0 : StoredOnly x s (setOpenDuration x s) := ⟨rfl, rfl, rfl, rfl, rfl, rfl⟩
  cases h : s.tf._leftTouch with
  | false =>
    rw [checkLeft_idle env d s h, checkLeft_idle env d (setOpenDuration x s) h]
    exact h0
  | true =>
    rw [checkLeft_eq env d s h, checkLeft_eq env d (setOpenDuration x s) h]
    have e1 : (setOpenDuration x s).tf.leftPokeCount = s.tf.leftPokeCount := rfl
    have e2 : (setOpenDuration x s).tf._FR = s.tf._FR := rfl
    have e3 : (setOpenDuration x s).extraBits = s.extraBits := rfl
    rw [e1, e2, e3]
    split
    · exact (h0.leftRecord env).rewardPath env d
    · exact h0.leftRecord env

/-- Claim C9 fails on the code. After `setOpenDuration(5)` a rewarded left activation polled by
`checkLeft(2)` holds the feeder open for 2000 ms, not for 5000 ms: the open window lasts
`openDuration * 1000` ms for the argument of `checkLeft`, and the call ends at the same time
and in the same state as without the `setOpenDuration`, apart from the stored value. -/
theorem C9_setOpenDuration_not_read :
    checkLeft quietEnv 2 (handleLeftTouch (setOpenDuration 5 (begin 150 0 (boot 0 0 0 0)))) =
      feederClose (openWindow quietEnv 2 (feederOpen (leftRecord quietEnv
        (handleLeftTouch (setOpenDuration 5 (begin 150 0 (boot 0 0 0 0))))))) ∧
    (openWindow quietEnv 2 (feederOpen (leftRecord quietEnv
        (handleLeftTouch (setOpenDuration 5 (begin 150 0 (boot 0 0 0 0))))))).now =
      (feederOpen (leftRecord quietEnv
        (handleLeftTouch (setOpenDuration 5 (begin 150 0 (boot 0 0 0 0)))))).now + 2000 ∧
    StoredOnly 5 (checkLeft quietEnv 2 (handleLeftTouch (begin 150 0 (boot 0 0 0 0))))
      (checkLeft quietEnv 2 (handleLeftTouch (setOpenDuration 5 (begin 150 0 (boot 0 0 0 0))))) := by
  have hs : SweepsEnd (handleLeftTouch (setOpenDuration 5 (begin 150 0 (boot 0 0 0 0)))) := by
    constructor <;> decide
  refine ⟨?_, ?_, ?_⟩
  · rw [(checkLeft_returns _ _ _ rfl rfl hs).1, if_pos (by decide)]
  · rw [openWindow_idle _ _ _ (Or.inl (by rw [(feederOpen_frame _).1, leftRecord_eq]; rfl))]
    simp [ulongMul, ULONG_MOD]
  · exact checkLeft_setOpenDuration quietEnv 5 2 (handleLeftTouch (begin 150 0 (boot 0 0 0 0)))

/-! ## Claim C10 -/

theorem callbacks_append (l1 l2 : List Effect) :
    callbacks (l1 ++ l2) = callbacks l1 ++ callbacks l2 := by
  simp [callbacks]

theorem callbacks_none (l : List Effect) (h : ∀ e ∈ l, isCallback e = false) : callbacks l = [] := by
  unfold callbacks
  rw [List.filter_eq_nil_iff]
  intro e he
  rw [h e he]; decide

theorem callbacks_notifyEffects (f : TumbleFeeder) : callbacks (notifyEffects f) = notifyEffects f := by
  unfold callbacks
  rw [List.filter_eq_self]
  intro e he
  exact (mem_notifyEffects f e he).2

theorem callbacks_senseEffects (env : Env) (pin : Pin) (t : Nat) :
    callbacks (senseEffects env pin t) = [] :=
  callbacks_none _ (fun e he => (mem_senseEffects env pin t e he).2)

theorem callbacks_spinEffects (n t : Nat) : callbacks (spinEffects n t) = [] :=
  callbacks_none _ (fun e he => (mem_spinEffects n t e he).2)

theorem callbacks_feederOpen (s : Sys) : callbacks (newEffects s (feederOpen s)) = [] :=
  callbacks_none _ (feederOpen_adds s).newEffects.2

theorem callbacks_feederClose (s : Sys) : callbacks (newEffects s (feederClose s)) = [] :=
  callbacks_none _ (feederClose_adds s).newEffects.2

theorem newEffects_openWindow_busy (env : Env) (d : Nat) (s : Sys)
    (h : s.tf._feedTouch = true) (hT : 0 < ulongMul d 1000) :
    newEffects s (openWindow env d s) =
      [Effect.millis (s.now % ULONG_MOD), Effect.millis (s.now % ULONG_MOD)]
        ++ senseEffects env FEEDER_TOUCH_PIN s.now
        ++ notifyEffects (seenFeeder env s)
        ++ spinEffects
            (windowLeft (s.now % ULONG_MOD) d (s.now + lowRun env FEEDER_TOUCH_PIN s.now + 1))
            (s.now + lowRun env FEEDER_TOUCH_PIN s.now + 1) :=
  newEffects_of_trace (by rw [openWindow_busy env d s h hT])

theorem newEffects_openWindow_idle (env : Env) (d : Nat) (s : Sys)
    (h : s.tf._feedTouch = false ∨ ulongMul d 1000 = 0) :
    newEffects s (openWindow env d s) =
      Effect.millis (s.now % ULONG_MOD) :: spinEffects (ulongMul d 1000) s.now :=
  newEffects_of_trace (by rw [openWindow_idle env d s h])

/-- The effects of `checkInputs` when its left poll returns are those of its three polls. -/
theorem checkInputs_newEffects (env : Env) (d : Nat) (s : Sys)
    (h : (checkLeft env d (checkRight env s)).hung = false) :
    newEffects s (checkInputs env d s) =
      newEffects s (checkRight env s) ++
      newEffects (checkRight env s) (checkLeft env d (checkRight env s)) ++
      newEffects (checkLeft env d (checkRight env s))
        (checkFeeder env (checkLeft env d (checkRight env s))) := by
  have a1 := (checkRight_adds env s).any
  have a2 := checkLeft_adds env d (checkRight env s)
  have a3 := (checkFeeder_adds env (checkLeft env d (checkRight env s))).any
  rw [checkInputs_eq env d s h, newEffects_append a1 (a2.trans a3), newEffects_append a2 a3,
    List.append_assoc]

/-- The state after `checkRight` when all three touches are pending: the left and the feeder
touch are still pending and the callbacks are the same. -/
theorem checkRight_pending (env : Env) (s : Sys) (a b : Nat)
    (hr : s.tf._rightTouch = true) (hL : s.tf._leftTouch = true) (hF : s.tf._feedTouch = true)
    (hd : s.tf._displayCallback = some a) (hl : s.tf._logCallback = some b) :
    (checkRight env s).tf._leftTouch = true ∧ (checkRight env s).tf._feedTouch = true ∧
    (checkRight env s).tf._displayCallback = some a ∧ (checkRight env s).tf._logCallback = some b ∧
    (checkRight env s).tf.rightPokeCount = intSucc s.extraBits s.tf.rightPokeCount ∧
    (checkRight env s).tf.leftPokeCount = s.tf.leftPokeCount ∧
    (checkRight env s).tf.FeederCount = s.tf.FeederCount ∧
    (checkRight env s).tf._FR = s.tf._FR ∧
    (checkRight env s).extraBits = s.extraBits := by
  rw [checkRight_eq env s hr]
  exact ⟨hL, hF, hd, hl, rfl, rfl, rfl, rfl, rfl⟩

theorem leftRecord_pending (env : Env) (s : Sys) (a b : Nat)
    (hF : s.tf._feedTouch = true)
    (hd : s.tf._displayCallback = some a) (hl : s.tf._logCallback = some b) :
    (leftRecord env s).tf._feedTouch = true ∧
    (leftRecord env s).tf._displayCallback = some a ∧ (leftRecord env s).tf._logCallback = some b ∧
    (leftRecord env s).tf.rightPokeCount = s.tf.rightPokeCount ∧
    (leftRecord env s).tf.leftPokeCount = intSucc s.extraBits s.tf.leftPokeCount ∧
    (leftRecord env s).tf.FeederCount = s.tf.FeederCount ∧
    (leftRecord env s).extraBits = s.extraBits := by
  rw [leftRecord_eq env s]
  exact ⟨hF, hd, hl, rfl, rfl, rfl, rfl⟩

/-- The effects of `checkLeft` followed by `checkFeeder` when both sweeps end, the left and
the feeder touch are pending and both callbacks are registered: the feeder's calls follow the
left's, and they fall inside the open window exactly when the activation is rewarded with a
window that is not empty. -/
theorem left_then_feeder (env : Env) (d : Nat) (s : Sys) (a b : Nat)
    (hh : s.hung = false) (hs : SweepsEnd s)
    (hL : s.tf._leftTouch = true) (hF : s.tf._feedTouch = true)
    (hd : s.tf._displayCallback = some a) (hl : s.tf._logCallback = some b) :
    ∃ f : TumbleFeeder,
      callbacks (newEffects s (checkLeft env d s) ++
          newEffects (checkLeft env d s) (checkFeeder env (checkLeft env d s))) =
        [Effect.displayCallback a (seenLeft env s),
         Effect.logCallback b (seenLeft env s),
         Effect.displayCallback a f, Effect.logCallback b f] ∧
      f.rightPokeCount = s.tf.rightPokeCount ∧
      f.leftPokeCount = intSucc s.extraBits s.tf.leftPokeCount ∧
      f.FeederCount = intSucc s.extraBits s.tf.FeederCount ∧
      (Int.tmod (intSucc s.extraBits s.tf.leftPokeCount) s.tf._FR = 0 ∧ 0 < ulongMul d 1000 →
        ∃ w1 w2,
          newEffects s (checkLeft env d s) ++
              newEffects (checkLeft env d s) (checkFeeder env (checkLeft env d s)) =
            newEffects s (leftRecord env s) ++
            newEffects (leftRecord env s) (feederOpen (leftRecord env s)) ++
            (w1 ++ [Effect.displayCallback a f, Effect.logCallback b f] ++ w2) ++
            newEffects (openWindow env d (feederOpen (leftRecord env s)))
              (feederClose (openWindow env d (feederOpen (leftRecord env s)))) ∧
          (∀ e ∈ w1, isActuation e = false ∧ isCallback e = false) ∧
          (∀ e ∈ w2, isActuation e = false ∧ isCallback e = false)) ∧
      (¬ (Int.tmod (intSucc s.extraBits s.tf.leftPokeCount) s.tf._FR = 0 ∧ 0 < ulongMul d 1000) →
        newEffects (checkLeft env d s) (checkFeeder env (checkLeft env d s)) =
          senseEffects env FEEDER_TOUCH_PIN (checkLeft env d s).now ++
            [Effect.displayCallback a f, Effect.logCallback b f]) := by
  have p5 := leftRecord_pending env s a b hF hd hl
  have n5 := notifyEffects_registered (seenLeft env s) a b hd hl
  have a5 := (leftRecord_adds env s).any
  have a6 := (feederOpen_adds (leftRecord env s)).any
  have a7 := (openWindow_adds env d (feederOpen (leftRecord env s))).any
  have a8 := (feederClose_adds (openWindow env d (feederOpen (leftRecord env s)))).any
  have t6 : (feederOpen (leftRecord env s)).tf = (leftRecord env s).tf := (feederOpen_frame _).1
  have x6 : (feederOpen (leftRecord env s)).extraBits = s.extraBits := by
    rw [(feederOpen_frame _).2.1, p5.2.2.2.2.2.2]
  have hret := (checkLeft_returns env d s hL hh hs).1
  by_cases hg : Int.tmod (intSucc s.extraBits s.tf.leftPokeCount) s.tf._FR = 0
  · have hc : checkLeft env d s = feederClose (openWindow env d (feederOpen (leftRecord env s))) := by
      rw [hret, if_pos hg]
    by_cases hT : 0 < ulongMul d 1000
    · -- rewarded, window not empty: the feeder touch is processed inside the window
      have hF6 : (feederOpen (leftRecord env s)).tf._feedTouch = true := by rw [t6]; exact p5.1
      have t7 : (openWindow env d (feederOpen (leftRecord env s))).tf._feedTouch = false := by
        rw [openWindow_busy env d _ hF6 hT]
      have t8 : (feederClose (openWindow env d (feederOpen (leftRecord env s)))).tf._feedTouch
          = false := by rw [(feederClose_frame _).1]; exact t7
      have nf := notifyEffects_registered
        (seenFeeder env (feederOpen (leftRecord env s)))
        a b (by simp only [seenFeeder]; rw [t6]; exact p5.2.1)
        (by simp only [seenFeeder]; rw [t6]; exact p5.2.2.1)
      have hdec : newEffects s (checkLeft env d s) ++
          newEffects (checkLeft env d s) (checkFeeder env (checkLeft env d s)) =
          newEffects s (leftRecord env s) ++
          newEffects (leftRecord env s) (feederOpen (leftRecord env s)) ++
          newEffects (feederOpen (leftRecord env s)) (openWindow env d (feederOpen (leftRecord env s))) ++
          newEffects (openWindow env d (feederOpen (leftRecord env s)))
            (feederClose (openWindow env d (feederOpen (leftRecord env s)))) := by
        rw [hc, checkFeeder_idle env _ t8,
          newEffects_append a5 (a6.trans (a7.trans a8)), newEffects_append a6 (a7.trans a8),
          newEffects_append a7 a8]
        simp [newEffects]
      refine ⟨seenFeeder env (feederOpen (leftRecord env s)), ?_, ?_, ?_, ?_, ?_, ?_⟩
      · rw [hdec, newEffects_openWindow_busy env d _ hF6 hT, newEffects_leftRecord]
        simp only [callbacks_append, callbacks_feederOpen, callbacks_feederClose,
          callbacks_senseEffects, callbacks_spinEffects, callbacks_notifyEffects]
        rw [n5, nf]
        simp [callbacks, isCallback]
      · simp only [seenFeeder]; rw [t6]; exact p5.2.2.2.1
      · simp only [seenFeeder]; rw [t6]; exact p5.2.2.2.2.1
      · simp only [seenFeeder]; rw [t6, x6, p5.2.2.2.2.2.1]
      · intro _
        refine ⟨[Effect.millis ((feederOpen (leftRecord env s)).now % ULONG_MOD),
            Effect.millis ((feederOpen (leftRecord env s)).now % ULONG_MOD)]
            ++ senseEffects env FEEDER_TOUCH_PIN (feederOpen (leftRecord env s)).now,
          spinEffects
            (windowLeft ((feederOpen (leftRecord env s)).now % ULONG_MOD) d
              ((feederOpen (leftRecord env s)).now
                + lowRun env FEEDER_TOUCH_PIN (feederOpen (leftRecord env s)).now + 1))
            ((feederOpen (leftRecord env s)).now
              + lowRun env FEEDER_TOUCH_PIN (feederOpen (leftRecord env s)).now + 1), ?_, ?_, ?_⟩
        · rw [hdec, newEffects_openWindow_busy env d _ hF6 hT, nf]
        · intro e he
          rcases List.mem_append.mp he with h | h
          · simp only [List.mem_cons, List.mem_singleton, List.not_mem_nil, or_false] at h
            rcases h with h | h <;> (subst h; exact ⟨rfl, rfl⟩)
          · exact mem_senseEffects _ _ _ e h
        · intro e he
          exact mem_spinEffects _ _ e he
      · intro hn
        exact absurd ⟨hg, hT⟩ hn
    · -- rewarded, empty window: the feeder touch waits for `checkFeeder`
      have hT0 : ulongMul d 1000 = 0 := by omega
      have t7 : (openWindow env d (feederOpen (leftRecord env s))).tf
          = (feederOpen (leftRecord env s)).tf := by
        rw [openWindow_idle env d _ (Or.inr hT0)]
      have t8 : (feederClose (openWindow env d (feederOpen (leftRecord env s)))).tf
          = (leftRecord env s).tf := by
        rw [(feederClose_frame _).1, t7, t6]
      have x8 : (checkLeft env d s).extraBits = s.extraBits :=
        (checkLeft_tally env d s).2.2.2.2.2.2
      have nf := notifyEffects_registered
        (seenFeeder env (checkLeft env d s))
        a b (by simp only [seenFeeder]; rw [hc, t8]; exact p5.2.1)
        (by simp only [seenFeeder]; rw [hc, t8]; exact p5.2.2.1)
      have hF8 : (checkLeft env d s).tf._feedTouch = true := by rw [hc, t8]; exact p5.1
      refine ⟨seenFeeder env (checkLeft env d s), ?_, ?_, ?_, ?_, ?_, ?_⟩
      · rw [newEffects_checkFeeder env _ hF8, nf]
        rw [hc, newEffects_append a5 (a6.trans (a7.trans a8)), newEffects_append a6 (a7.trans a8),
          newEffects_append a7 a8, newEffects_openWindow_idle env d _ (Or.inr hT0),
          newEffects_leftRecord, n5]
        simp only [callbacks_append, callbacks_feederOpen, callbacks_feederClose,
          callbacks_senseEffects]
        simp [callbacks, isCallback, spinEffects, hT0]
      · simp only [seenFeeder]; rw [hc, t8]; exact p5.2.2.2.1
      · simp only [seenFeeder]; rw [hc, t8]; exact p5.2.2.2.2.1
      · simp only [seenFeeder]; rw [x8]; rw [hc, t8, p5.2.2.2.2.2.1]
      · intro hh
        exact absurd hh.2 hT
      · intro _
        rw [newEffects_checkFeeder env _ hF8, nf]
  · -- not rewarded
    have hc : checkLeft env d s = leftRecord env s := by
      rw [hret, if_neg hg]
    have nf := notifyEffects_registered
      (seenFeeder env (checkLeft env d s))
      a b (by simp only [seenFeeder]; rw [hc]; exact p5.2.1)
      (by simp only [seenFeeder]; rw [hc]; exact p5.2.2.1)
    have hF8 : (checkLeft env d s).tf._feedTouch = true := by rw [hc]; exact p5.1
    refine ⟨seenFeeder env (checkLeft env d s), ?_, ?_, ?_, ?_, ?_, ?_⟩
    · rw [newEffects_checkFeeder env _ hF8, nf]
      rw [hc, newEffects_leftRecord, n5]
      simp only [callbacks_append, callbacks_senseEffects]
      simp [callbacks, isCallback]
    · simp only [seenFeeder]; rw [hc]; exact p5.2.2.2.1
    · simp only [seenFeeder]; rw [hc]; exact p5.2.2.2.2.1
    · simp only [seenFeeder]; rw [hc, p5.2.2.2.2.2.1, p5.2.2.2.2.2.2]
    · intro hh
      exact absurd hh.1 hg
    · intro _
      rw [newEffects_checkFeeder env _ hF8, nf]

theorem demoState_sweepsEnd : SweepsEnd demoState := by
  constructor <;> decide

/-- Claim C10 fails in its last part: with all three touches pending, ratio 1 and
`checkInputs(1)`, the feeder activation is notified inside the open window of the left
activation's reward cycle, and `feederClose` drives the indicator and the servo after it. -/
theorem C10_counterexample :
    ¬ RewardBeforeFeederCalls (demoState.tf.FeederCount + 1)
        (newEffects demoState (checkInputs pulseEnv 1 demoState)) := by
  intro H
  have p1 := checkRight_pending pulseEnv demoState 1 2 rfl rfl rfl rfl rfl
  have r := checkRight_tally pulseEnv demoState
  have hh1 : (checkRight pulseEnv demoState).hung = false := by rw [r.2.2.2.2.2.2.2.2.1]; rfl
  have hs1 : SweepsEnd (checkRight pulseEnv demoState) :=
    demoState_sweepsEnd.of_eq r.2.2.2.2.2.2.1.2.1 r.2.2.2.2.2.2.1.1 r.2.2.2.2.2.2.2.1
  obtain ⟨f, _, _, _, hfc, hin, _⟩ := left_then_feeder pulseEnv 1 (checkRight pulseEnv demoState) 1 2
    hh1 hs1 p1.1 p1.2.1 p1.2.2.1 p1.2.2.2.1
  have hg : Int.tmod (intSucc (checkRight pulseEnv demoState).extraBits
      (checkRight pulseEnv demoState).tf.leftPokeCount)
      (checkRight pulseEnv demoState).tf._FR = 0 := by
    rw [p1.2.2.2.2.2.1, p1.2.2.2.2.2.2.2.1, p1.2.2.2.2.2.2.2.2]; decide
  obtain ⟨w1, w2, hdec, _, _⟩ := hin ⟨hg, by decide⟩
  obtain ⟨cl, hclose⟩ : ∃ cl, newEffects
      (openWindow pulseEnv 1 (feederOpen (leftRecord pulseEnv (checkRight pulseEnv demoState))))
      (feederClose
        (openWindow pulseEnv 1 (feederOpen (leftRecord pulseEnv (checkRight pulseEnv demoState)))))
      = Effect.digitalWrite LED_PIN Level.HIGH :: cl := by
    obtain ⟨l, hl, _⟩ := (feederClose_frame
      (openWindow pulseEnv 1
        (feederOpen (leftRecord pulseEnv (checkRight pulseEnv demoState))))).2.2.2.2
    exact ⟨l, newEffects_of_trace hl⟩
  have htr := checkInputs_newEffects pulseEnv 1 demoState
    (checkInputs_hung pulseEnv 1 demoState rfl demoState_sweepsEnd).1
  rw [List.append_assoc, hdec, hclose] at htr
  have := H (newEffects demoState (checkRight pulseEnv demoState) ++
        (newEffects (checkRight pulseEnv demoState)
            (leftRecord pulseEnv (checkRight pulseEnv demoState)) ++
          newEffects (leftRecord pulseEnv (checkRight pulseEnv demoState))
            (feederOpen (leftRecord pulseEnv (checkRight pulseEnv demoState))) ++ w1))
    (Effect.logCallback 2 f :: (w2 ++ Effect.digitalWrite LED_PIN Level.HIGH :: cl)) 1 f
    (by rw [htr]; simp only [List.append_assoc, List.cons_append, List.nil_append])
    (by rw [hfc, p1.2.2.2.2.2.2.1, p1.2.2.2.2.2.2.2.2]; decide)
    (Effect.digitalWrite LED_PIN Level.HIGH) (by simp)
  cases this

/-- Claim C10 (amended). `checkInputs(d)` is the sequence `checkRight(); checkLeft(d);
checkFeeder()`: same final state, for every state and every `d`. On a board whose sweeps end
(`INT_MIN < openPos`, `closedPos < INT_MAX`) the call returns and its effects are the effects
of the three calls in that order. When, moreover, all three touches are pending and both
callbacks are registered, the callbacks are called six times: display and log for the right
activation, then for the left one, then for the feeder one, each observing the counters of
the activations processed so far. When the left activation is rewarded and the open window is
not empty, the feeder's two calls are made inside the window, after the effects of
`feederOpen` and before those of `feederClose`; otherwise they are the last effects of
`checkInputs`, after the whole of `checkLeft`. -/
theorem C10_checkInputs_sequence (env : Env) (d : Nat) (s : Sys) (a b : Nat) :
    checkInputs env d s = pollAllSpec env d s ∧
    (s.hung = false → INT_MIN s.extraBits < s.tf._openPos →
      s.tf._closedPos < INT_MAX s.extraBits →
      (checkInputs env d s).hung = false ∧
      newEffects s (checkInputs env d s) =
        newEffects s (checkRight env s) ++
        newEffects (checkRight env s) (checkLeft env d (checkRight env s)) ++
        newEffects (checkLeft env d (checkRight env s))
          (checkFeeder env (checkLeft env d (checkRight env s))) ∧
      (s.tf._rightTouch = true → s.tf._leftTouch = true → s.tf._feedTouch = true →
        s.tf._displayCallback = some a → s.tf._logCallback = some b →
        ∃ f : TumbleFeeder,
          callbacks (newEffects s (checkInputs env d s)) =
            [Effect.displayCallback a (seenRight env s),
             Effect.logCallback b (seenRight env s),
             Effect.displayCallback a (seenLeft env (checkRight env s)),
             Effect.logCallback b (seenLeft env (checkRight env s)),
             Effect.displayCallback a f, Effect.logCallback b f] ∧
          (seenRight env s).rightPokeCount = intSucc s.extraBits s.tf.rightPokeCount ∧
          (seenRight env s).leftPokeCount = s.tf.leftPokeCount ∧
          (seenRight env s).FeederCount = s.tf.FeederCount ∧
          (seenLeft env (checkRight env s)).rightPokeCount
            = intSucc s.extraBits s.tf.rightPokeCount ∧
          (seenLeft env (checkRight env s)).leftPokeCount
            = intSucc s.extraBits s.tf.leftPokeCount ∧
          (seenLeft env (checkRight env s)).FeederCount = s.tf.FeederCount ∧
          f.rightPokeCount = intSucc s.extraBits s.tf.rightPokeCount ∧
          f.leftPokeCount = intSucc s.extraBits s.tf.leftPokeCount ∧
          f.FeederCount = intSucc s.extraBits s.tf.FeederCount ∧
          (Int.tmod (intSucc s.extraBits s.tf.leftPokeCount) s.tf._FR = 0 ∧
              0 < ulongMul d 1000 →
            ∃ w1 w2,
              newEffects s (checkInputs env d s) =
                newEffects s (checkRight env s) ++
                newEffects (checkRight env s) (leftRecord env (checkRight env s)) ++
                newEffects (leftRecord env (checkRight env s))
                  (feederOpen (leftRecord env (checkRight env s))) ++
                (w1 ++ [Effect.displayCallback a f, Effect.logCallback b f] ++ w2) ++
                newEffects (openWindow env d (feederOpen (leftRecord env (checkRight env s))))
                  (feederClose (openWindow env d (feederOpen (leftRecord env (checkRight env s))))) ∧
              (∀ e ∈ w1, isActuation e = false ∧ isCallback e = false) ∧
              (∀ e ∈ w2, isActuation e = false ∧ isCallback e = false)) ∧
          (¬ (Int.tmod (intSucc s.extraBits s.tf.leftPokeCount) s.tf._FR = 0 ∧
                0 < ulongMul d 1000) →
            newEffects s (checkInputs env d s) =
              newEffects s (checkRight env s) ++
              newEffects (checkRight env s) (checkLeft env d (checkRight env s)) ++
              (senseEffects env FEEDER_TOUCH_PIN (checkLeft env d (checkRight env s)).now ++
                [Effect.displayCallback a f, Effect.logCallback b f])))) := by
  refine ⟨by simp [pollAllSpec, run, step, checkInputs], ?_⟩
  intro hh ho hc
  have hs : SweepsEnd s := ⟨ho, hc⟩
  have hu := checkInputs_hung env d s hh hs
  have hne := checkInputs_newEffects env d s hu.1
  refine ⟨hu.2, hne, ?_⟩
  intro hr hL hF hd hl
  have p1 := checkRight_pending env s a b hr hL hF hd hl
  have r := checkRight_tally env s
  have hh1 : (checkRight env s).hung = false := by rw [r.2.2.2.2.2.2.2.2.1]; exact hh
  have hs1 : SweepsEnd (checkRight env s) :=
    hs.of_eq r.2.2.2.2.2.2.1.2.1 r.2.2.2.2.2.2.1.1 r.2.2.2.2.2.2.2.1
  obtain ⟨f, hcb, hf1, hf2, hf3, hin, hout⟩ :=
    left_then_feeder env d (checkRight env s) a b hh1 hs1 p1.1 p1.2.1 p1.2.2.1 p1.2.2.2.1
  have nr := notifyEffects_registered (seenRight env s) a b hd hl
  rw [p1.2.2.2.2.2.1, p1.2.2.2.2.2.2.2.1, p1.2.2.2.2.2.2.2.2] at hin hout
  rw [p1.2.2.2.2.2.2.2.2] at hf2 hf3
  refine ⟨f, ?_, rfl, rfl, rfl, ?_, ?_, ?_, ?_, ?_, ?_, ?_, ?_⟩
  · rw [hne, List.append_assoc, callbacks_append, hcb,
      newEffects_checkRight env s hr, callbacks_append, callbacks_senseEffects,
      callbacks_notifyEffects, nr]
    rfl
  · simp only [seenLeft]; exact p1.2.2.2.2.1
  · simp only [seenLeft]; rw [p1.2.2.2.2.2.1, p1.2.2.2.2.2.2.2.2]
  · simp only [seenLeft]; exact p1.2.2.2.2.2.2.1
  · rw [hf1]; exact p1.2.2.2.2.1
  · rw [hf2, p1.2.2.2.2.2.1]
  · rw [hf3, p1.2.2.2.2.2.2.1]
  · intro hh
    obtain ⟨w1, w2, hdec, hw1, hw2⟩ := hin hh
    refine ⟨w1, w2, ?_, hw1, hw2⟩
    rw [hne, List.append_assoc, hdec]
    simp only [List.append_assoc]
  · intro hh
    rw [hne, hout hh]

/-- Witness of C10: `demoState` polled by `checkInputs(0)`. -/
theorem C10_checkInputs_sequence_witness :
    demoState.hung = false ∧ INT_MIN demoState.extraBits < demoState.tf._openPos ∧
    demoState.tf._closedPos < INT_MAX demoState.extraBits ∧
    demoState.tf._rightTouch = true ∧ demoState.tf._leftTouch = true ∧
    demoState.tf._feedTouch = true ∧ demoState.tf._displayCallback = some 1 ∧
    demoState.tf._logCallback = some 2 ∧
    ∃ f : TumbleFeeder,
      callbacks (newEffects demoState (checkInputs pulseEnv 0 demoState)) =
        [Effect.displayCallback 1 (seenRight pulseEnv demoState),
         Effect.logCallback 2 (seenRight pulseEnv demoState),
         Effect.displayCallback 1 (seenLeft pulseEnv (checkRight pulseEnv demoState)),
         Effect.logCallback 2 (seenLeft pulseEnv (checkRight pulseEnv demoState)),
         Effect.displayCallback 1 f, Effect.logCallback 2 f] ∧
      f.FeederCount = intSucc demoState.extraBits demoState.tf.FeederCount := by
  refine ⟨rfl, by decide, by decide, rfl, rfl, rfl, rfl, rfl, ?_⟩
  obtain ⟨f, h1, _, _, _, _, _, _, _, _, h2, _⟩ :=
    ((C10_checkInputs_sequence pulseEnv 0 demoState 1 2).2 rfl (by decide) (by decide)).2.2
      rfl rfl rfl rfl rfl
  exact ⟨f, h1, h2⟩

/-! ## Claims C11 and C12 -/

theorem bump_exact (e : Nat) (b : Bool) (x : Int) (h1 : INT_MIN e ≤ x) (h2 : x < INT_MAX e) :
    bump e b x = x + pendingCount b := by
  cases b
  · simp [bump, pendingCount]
  · simp only [bump, pendingCount, if_true]
    exact intSucc_of_lt e x h1 h2

theorem grows_of_once (e : Nat) (x y : Int) (h1 : INT_MIN e ≤ x) (h2 : x < INT_MAX e)
    (h : y = x ∨ y = intSucc e x) : x ≤ y := by
  rcases h with h | h
  · omega
  · rw [h, intSucc_of_lt e x h1 h2]; omega

/-- Claim C11 (counters only grow). With counters in exact integer arithmetic, that is, `int`
values below `INT_MAX`, whose increment does not overflow: a public operation other than
`resetCounts` never decreases `leftPokeCount`, `rightPokeCount` or `FeederCount`; and each
poll routine (`checkLeft`, `checkRight`, `checkFeeder`, `freeInputs`, and `checkInputs` on a
board whose sweeps end) raises the counter of a sensor it serves by exactly `1` when that
sensor's touch is pending and leaves it unchanged otherwise. -/
theorem C11_counters_only_grow (env : Env) (op : Op) (d : Nat) (s : Sys)
    (h : op ≠ Op.resetCounts) (hb : CountersBelowMax s) :
    getLeftPokeCount s ≤ getLeftPokeCount (step env op s) ∧
    getRightPokeCount s ≤ getRightPokeCount (step env op s) ∧
    getFeederCount s ≤ getFeederCount (step env op s) ∧
    getLeftPokeCount (checkLeft env d s) = getLeftPokeCount s + pendingCount s.tf._leftTouch ∧
    getRightPokeCount (checkRight env s) = getRightPokeCount s + pendingCount s.tf._rightTouch ∧
    getFeederCount (checkFeeder env s) = getFeederCount s + pendingCount s.tf._feedTouch ∧
    (s.hung = false → INT_MIN s.extraBits < s.tf._openPos →
      s.tf._closedPos < INT_MAX s.extraBits →
      getLeftPokeCount (checkInputs env d s) = getLeftPokeCount s + pendingCount s.tf._leftTouch ∧
      getRightPokeCount (checkInputs env d s)
        = getRightPokeCount s + pendingCount s.tf._rightTouch ∧
      getFeederCount (checkInputs env d s)
        = getFeederCount s + pendingCount s.tf._feedTouch) ∧
    getLeftPokeCount (freeInputs env s) = getLeftPokeCount s + pendingCount s.tf._leftTouch ∧
    getRightPokeCount (freeInputs env s) = getRightPokeCount s + pendingCount s.tf._rightTouch ∧
    getFeederCount (freeInputs env s) = getFeederCount s + pendingCount s.tf._feedTouch ∧
    pendingCount true = 1 ∧ pendingCount false = 0 := by
  have st := step_counted env op s h
  have fi := freeInputs_tally env s
  obtain ⟨⟨l1, l2⟩, ⟨r1, r2⟩, ⟨f1, f2⟩⟩ := hb
  simp only [getLeftPokeCount, getRightPokeCount, getFeederCount]
  refine ⟨grows_of_once _ _ _ l1 l2 st.1, grows_of_once _ _ _ r1 r2 st.2.1,
    grows_of_once _ _ _ f1 f2 st.2.2, ?_, ?_, ?_, ?_, ?_, ?_, ?_, rfl, rfl⟩
  · rw [(checkLeft_tally env d s).1]; exact bump_exact _ _ _ l1 l2
  · rw [(checkRight_tally env s).1]; exact bump_exact _ _ _ r1 r2
  · rw [(checkFeeder_tally env s).1]; exact bump_exact _ _ _ f1 f2
  · intro hh ho hc
    have ci := checkInputs_tally env d s (checkInputs_hung env d s hh ⟨ho, hc⟩).1
    rw [ci.1, ci.2.1, ci.2.2.1]
    exact ⟨bump_exact _ _ _ l1 l2, bump_exact _ _ _ r1 r2, bump_exact _ _ _ f1 f2⟩
  · rw [fi.1]; exact bump_exact _ _ _ l1 l2
  · rw [fi.2.1]; exact bump_exact _ _ _ r1 r2
  · rw [fi.2.2.1]; exact bump_exact _ _ _ f1 f2

/-- Witness of C11: `checkInputs(0)` on `demoState`, where all three touches are pending. -/
theorem C11_counters_only_grow_witness :
    Op.checkInputs 0 ≠ Op.resetCounts ∧ CountersBelowMax demoState ∧
    demoState.hung = false ∧ INT_MIN demoState.extraBits < demoState.tf._openPos ∧
    demoState.tf._closedPos < INT_MAX demoState.extraBits ∧
    getLeftPokeCount demoState ≤ getLeftPokeCount (step pulseEnv (Op.checkInputs 0) demoState) ∧
    getLeftPokeCount (checkInputs pulseEnv 0 demoState)
      = getLeftPokeCount demoState + pendingCount demoState.tf._leftTouch :=
  ⟨by decide, ⟨⟨by decide, by decide⟩, ⟨by decide, by decide⟩, ⟨by decide, by decide⟩⟩,
   rfl, by decide, by decide,
   (C11_counters_only_grow pulseEnv (Op.checkInputs 0) 0 demoState (by decide)
      ⟨⟨by decide, by decide⟩, ⟨by decide, by decide⟩, ⟨by decide, by decide⟩⟩).1,
   ((C11_counters_only_grow pulseEnv (Op.checkInputs 0) 0 demoState (by decide)
      ⟨⟨by decide, by decide⟩, ⟨by decide, by decide⟩,
        ⟨by decide, by decide⟩⟩).2.2.2.2.2.2.1 rfl (by decide) (by decide)).1⟩

theorem feederClose_sweepsEnd (s : Sys) (hs : SweepsEnd s) : SweepsEnd (feederClose s) := by
  have f := feederClose_frame s
  exact hs.of_eq (by rw [f.1]) (by rw [f.1]) f.2.1

theorem feederOpen_sweepsEnd (s : Sys) (hs : SweepsEnd s) : SweepsEnd (feederOpen s) := by
  have f := feederOpen_frame s
  exact hs.of_eq (by rw [f.1]) (by rw [f.1]) f.2.1

/-- The three calls of `shakeFood` when both sweeps end. -/
theorem shakeFood_returns (s : Sys) (hh : s.hung = false) (hs : SweepsEnd s) :
    shakeFood s = _callLogCallback (feederOpen (feederClose s)) ∧
    (shakeFood s).hung = false := by
  have h1 := feederClose_hung s hh hs.closeEnds
  have s1 := feederClose_sweepsEnd s hs
  have h2 := feederOpen_hung (feederClose s) h1 s1.openEnds
  have e : shakeFood s = _callLogCallback (feederOpen (feederClose s)) := by
    unfold shakeFood
    simp only []
    rw [if_neg (by rw [h1]; simp), if_neg (by rw [h2]; simp)]
  refine ⟨e, ?_⟩
  rw [e, _callLogCallback_eq]
  exact h2

theorem shakeFood_eq (s : Sys) (hh : s.hung = false) (hs : SweepsEnd s) :
    shakeFood s =
      { s with
        now := s.now + 50 * sweepFuel s.tf + 50 * sweepFuel s.tf
        ledHigh := false
        servoAttached := false
        trace := s.trace ++ (feederCloseEffects s.tf ++ feederOpenEffects s.tf
                  ++ logEffects s.tf) } := by
  have s1 := feederClose_sweepsEnd s hs
  rw [(shakeFood_returns s hh hs).1, _callLogCallback_eq, feederOpen_eq _ s1.openEnds,
    feederClose_eq s hs.closeEnds]
  simp [feederCloseEffects, feederOpenEffects]

theorem callbacks_sweep (l : List Effect) (h : ∀ e ∈ l, isSweepEffect e = true) :
    callbacks l = [] := by
  apply callbacks_none
  intro e he
  exact (sweepEffect_kind e (h e he)).1

theorem callbacks_feederOpenEffects (t : TumbleFeeder) : callbacks (feederOpenEffects t) = [] := by
  unfold feederOpenEffects
  rw [callbacks_append, callbacks_append, callbacks_sweep _ (mem_sweepDown_kind _ _)]
  rfl

theorem callbacks_feederCloseEffects (t : TumbleFeeder) :
    callbacks (feederCloseEffects t) = [] := by
  unfold feederCloseEffects
  rw [callbacks_append, callbacks_append, callbacks_sweep _ (mem_sweepUp_kind _ _)]
  rfl

theorem callbacks_logEffects (t : TumbleFeeder) : callbacks (logEffects t) = logEffects t := by
  unfold logEffects
  cases t._logCallback <;> rfl

theorem isCallback_not_display (e : Effect) (h : isCallback e = false) :
    isDisplayCall e = false := by
  cases e <;> simp_all [isCallback, isDisplayCall]

/-- The call `shakeFood()` calls the display callback in no case, whether or not it returns. -/
theorem shakeFood_adds (s : Sys) : Adds (fun e => isDisplayCall e = false) s (shakeFood s) := by
  have a1 := (feederClose_adds s).mono isCallback_not_display
  have a2 := (feederOpen_adds (feederClose s)).mono isCallback_not_display
  have a3 : Adds (fun e => isDisplayCall e = false) (feederOpen (feederClose s))
      (_callLogCallback (feederOpen (feederClose s))) := by
    rw [_callLogCallback_eq]
    refine Adds.of_trace rfl ?_
    intro e he
    unfold logEffects at he
    cases hl : (feederOpen (feederClose s)).tf._logCallback with
    | none => rw [hl] at he; cases he
    | some fn =>
      rw [hl] at he
      simp only [List.mem_singleton] at he
      subst he; rfl
  unfold shakeFood
  simp only []
  split
  · exact a1
  · split
    · exact a1.trans a2
    · exact a1.trans (a2.trans a3)

/-- The call `feederClose()` on a controller whose closed position is `INT_MAX` does not
return: the board stays with the indicator high and the servo attached, after the effects
indicator HIGH, servo attach, and servo writes and delays only. -/
theorem closedAtMax_stuck (e : Nat) :
    (closedAtMax e).tf._closedPos = INT_MAX e ∧
    (closedAtMax e).tf._openPos = 0 ∧
    (closedAtMax e).tf._logCallback = some 2 ∧
    (closedAtMax e).hung = false ∧
    (closedAtMax e).ledHigh = false ∧ (closedAtMax e).servoAttached = false ∧
    (feederClose (closedAtMax e)).hung = true ∧
    (feederClose (closedAtMax e)).ledHigh = true ∧
    (feederClose (closedAtMax e)).servoAttached = true ∧
    (∃ l, newEffects (closedAtMax e) (feederClose (closedAtMax e)) =
        Effect.digitalWrite LED_PIN Level.HIGH :: Effect.servoAttach SERVO_PIN :: l ∧
      ∀ x ∈ l, isSweepEffect x = true) := by
  have hpos := pow_bits_pos e
  have hr := closeRun_hangs e (closedAtMax e).tf (le_refl _)
    (by show (0 : Int) ≤ INT_MAX e; unfold INT_MAX; omega)
  have hst := feederClose_stuck (closedAtMax e) hr.1
  refine ⟨rfl, rfl, rfl, rfl, rfl, rfl, ?_, ?_, ?_, (closeRun e (closedAtMax e).tf).1, ?_, ?_⟩
  · rw [hst]
  · rw [hst]
  · rw [hst]
  · exact newEffects_of_trace (by rw [hst]; rfl)
  · intro x hx
    exact mem_closeSweep_kind _ _ _ _ x hx

/-- Claim C12 fails as stated when the closed position is `INT_MAX`. After
`setPositions(0, 32767)` on a board with 16-bit `int`, with a log callback registered, the
call `feederClose()` made by `shakeFood()` does not return: `shakeFood` performs no
`feederOpen` and calls no callback. The same holds with 32-bit `int` at `2147483647`. -/
theorem C12_counterexample :
    ((closedAtMax 0).tf._closedPos = 32767 ∧ (closedAtMax 0).tf._logCallback = some 2 ∧
      shakeFood (closedAtMax 0) = feederClose (closedAtMax 0) ∧
      (shakeFood (closedAtMax 0)).hung = true ∧
      callbacks (newEffects (closedAtMax 0) (shakeFood (closedAtMax 0))) = []) ∧
    ((closedAtMax 16).tf._closedPos = 2147483647 ∧ (closedAtMax 16).tf._logCallback = some 2 ∧
      shakeFood (closedAtMax 16) = feederClose (closedAtMax 16) ∧
      (shakeFood (closedAtMax 16)).hung = true ∧
      callbacks (newEffects (closedAtMax 16) (shakeFood (closedAtMax 16))) = []) := by
  have key : ∀ e : Nat,
      shakeFood (closedAtMax e) = feederClose (closedAtMax e) ∧
      (shakeFood (closedAtMax e)).hung = true ∧
      callbacks (newEffects (closedAtMax e) (shakeFood (closedAtMax e))) = [] := by
    intro e
    have st := closedAtMax_stuck e
    have h : shakeFood (closedAtMax e) = feederClose (closedAtMax e) := by
      unfold shakeFood
      simp only []
      rw [if_pos st.2.2.2.2.2.2.1]
    rw [h]
    exact ⟨rfl, st.2.2.2.2.2.2.1, callbacks_feederClose _⟩
  exact ⟨⟨by decide, rfl, key 0⟩, ⟨by decide, rfl, key 16⟩⟩

/-- Claim C12 (amended). `shakeFood()` changes no field of the controller, so no counter,
duration or pending flag, and never calls the display callback. On a board whose sweeps end
(`INT_MIN < openPos`, `closedPos < INT_MAX`) it returns, and its effects are the effects of
`feederClose()`, then those of `feederOpen()`, then one call of the log callback (if one is
registered), which is the only callback called. -/
theorem C12_shakeFood (s : Sys) :
    (shakeFood s).tf = s.tf ∧
    (∀ e ∈ newEffects s (shakeFood s), isDisplayCall e = false) ∧
    (s.hung = false → INT_MIN s.extraBits < s.tf._openPos →
      s.tf._closedPos < INT_MAX s.extraBits →
      (shakeFood s).hung = false ∧
      newEffects s (shakeFood s) =
        newEffects s (feederClose s) ++ newEffects s (feederOpen s) ++ logEffects s.tf ∧
      newEffects s (shakeFood s) =
        newEffects s (feederClose s) ++
          newEffects (feederClose s) (feederOpen (feederClose s)) ++
          newEffects (feederOpen (feederClose s)) (shakeFood s) ∧
      callbacks (newEffects s (shakeFood s)) = logEffects s.tf ∧
      (∀ fn, s.tf._logCallback = some fn →
        callbacks (newEffects s (shakeFood s)) = [Effect.logCallback fn s.tf])) := by
  refine ⟨shakeFood_tf s, (shakeFood_adds s).newEffects.2, ?_⟩
  intro hh ho hc
  have hs : SweepsEnd s := ⟨ho, hc⟩
  have s1 := feederClose_sweepsEnd s hs
  have h0 : newEffects s (shakeFood s) =
      feederCloseEffects s.tf ++ feederOpenEffects s.tf ++ logEffects s.tf :=
    newEffects_of_trace (by rw [shakeFood_eq s hh hs])
  have hct : (feederClose s).tf = s.tf := (feederClose_frame s).1
  have hot : (feederOpen (feederClose s)).tf = s.tf := by rw [(feederOpen_frame _).1, hct]
  have hl : newEffects (feederOpen (feederClose s)) (shakeFood s) = logEffects s.tf := by
    rw [(shakeFood_returns s hh hs).1]
    exact newEffects_of_trace (by rw [_callLogCallback_eq, hot])
  have hcb : callbacks (newEffects s (shakeFood s)) = logEffects s.tf := by
    rw [h0, callbacks_append, callbacks_append, callbacks_feederCloseEffects,
      callbacks_feederOpenEffects, callbacks_logEffects]
    rfl
  refine ⟨(shakeFood_returns s hh hs).2, ?_, ?_, hcb, ?_⟩
  · rw [h0, newEffects_feederClose s hs.closeEnds, newEffects_feederOpen s hs.openEnds]
  · rw [h0, newEffects_feederClose s hs.closeEnds, newEffects_feederOpen _ s1.openEnds, hl, hct]
  · intro fn hfn
    rw [hcb]; simp [logEffects, hfn]

/-- Witness of C12: `demoState`, whose positions are 150 and 0 and whose log callback is `2`. -/
theorem C12_shakeFood_witness :
    demoState.hung = false ∧ INT_MIN demoState.extraBits < demoState.tf._openPos ∧
    demoState.tf._closedPos < INT_MAX demoState.extraBits ∧
    (shakeFood demoState).hung = false ∧
    callbacks (newEffects demoState (shakeFood demoState)) = logEffects demoState.tf :=
  ⟨rfl, by decide, by decide,
   ((C12_shakeFood demoState).2.2 rfl (by decide) (by decide)).1,
   ((C12_shakeFood demoState).2.2 rfl (by decide) (by decide)).2.2.2.1⟩

/-! ## Claims C14 to C16 -/

theorem step_board (env : Env) (op : Op) (s : Sys) (hr : (step env op s).hung = false)
    (hl : s.ledHigh = false) (hs : s.servoAttached = false) :
    (step env op s).ledHigh = false ∧ (step env op s).servoAttached = false := by
  by_cases h : op = Op.resetCounts
  · subst h; exact ⟨hl, hs⟩
  · have st := step_steady env op s h
    exact ⟨st.2.2.2.1 hr hl, st.2.2.2.2 hr hs⟩

theorem run_board (env : Env) (ops : List Op) (s : Sys) (hr : (run env ops s).hung = false)
    (hl : s.ledHigh = false) (hs : s.servoAttached = false) :
    (run env ops s).ledHigh = false ∧ (run env ops s).servoAttached = false := by
  induction ops generalizing s with
  | nil => exact ⟨hl, hs⟩
  | cons op ops ih =>
    rw [run_cons] at hr ⊢
    cases hh : (step env op s).hung with
    | true => rw [hh] at hr; simp only [if_true] at hr; rw [hh] at hr; cases hr
    | false =>
      rw [hh] at hr
      simp only [Bool.false_eq_true, if_false] at hr ⊢
      have := step_board env op s hh hl hs
      exact ih _ hr this.1 this.2

/-- On a board whose sweeps end every public operation returns. -/
theorem step_hung (env : Env) (op : Op) (s : Sys) (hh : s.hung = false) (hs : SweepsEnd s) :
    (step env op s).hung = false := by
  cases op with
  | resetCounts => exact hh
  | begin c o => exact hh
  | setFR fr => exact hh
  | setOpenDuration n => exact hh
  | setPositions o c => exact hh
  | setLogCallback cb => exact hh
  | setDisplayCallback cb => exact hh
  | feederOpen => exact feederOpen_hung s hh hs.openEnds
  | feederClose => exact feederClose_hung s hh hs.closeEnds
  | shakeFood => exact (shakeFood_returns s hh hs).2
  | shake => simp only [step, shake]; rw [(shakeLoop_tf 10 s).2.2]; exact hh
  | checkLeft d => exact checkLeft_hung env d s hh hs
  | checkRight => simp only [step]; rw [(checkRight_tally env s).2.2.2.2.2.2.2.2.1]; exact hh
  | checkFeeder => simp only [step]; rw [(checkFeeder_tally env s).2.2.2.2.2.2.2.2.1]; exact hh
  | checkInputs d => exact (checkInputs_hung env d s hh hs).2
  | freeInputs => simp only [step]; rw [(freeInputs_tally env s).2.2.2.2.2.2.2.2.1]; exact hh
  | handleLeftTouch => exact hh
  | handleRightTouch => exact hh
  | handleFeederTouch => exact hh

theorem step_extraBits (env : Env) (op : Op) (s : Sys) :
    (step env op s).extraBits = s.extraBits := by
  by_cases h : op = Op.resetCounts
  · subst h; rfl
  · exact (step_steady env op s h).2.1

/-- The positions after a public operation are positions for which both sweeps end, when they
were before it and the operation sets none or sets such positions. -/
theorem step_sweepsEnd (env : Env) (op : Op) (ops : List Op) (s : Sys) (hs : SweepsEnd s)
    (hr : OpsInRange s.extraBits (op :: ops)) :
    SweepsEnd (step env op s) ∧ OpsInRange (step env op s).extraBits ops := by
  rw [step_extraBits]
  cases op with
  | begin c o => exact ⟨hr.1, hr.2⟩
  | setPositions o c => exact ⟨hr.1, hr.2⟩
  | resetCounts => exact ⟨hs, hr⟩
  | setFR fr => exact ⟨hs, hr⟩
  | setOpenDuration n => exact ⟨hs, hr⟩
  | setLogCallback cb => exact ⟨hs, hr⟩
  | setDisplayCallback cb => exact ⟨hs, hr⟩
  | feederOpen => exact ⟨feederOpen_sweepsEnd s hs, hr⟩
  | feederClose => exact ⟨feederClose_sweepsEnd s hs, hr⟩
  | shakeFood =>
    exact ⟨hs.of_eq (by simp only [step]; rw [shakeFood_tf]) (by simp only [step]; rw [shakeFood_tf])
      (shakeFood_steady s).2.1, hr⟩
  | shake =>
    exact ⟨hs.of_eq (by simp only [step, shake]; rw [(shakeLoop_tf 10 s).1])
      (by simp only [step, shake]; rw [(shakeLoop_tf 10 s).1]) (shakeLoop_tf 10 s).2.1, hr⟩
  | checkLeft d => exact ⟨checkLeft_sweepsEnd env d s hs, hr⟩
  | checkRight =>
    have t := checkRight_tally env s
    exact ⟨hs.of_eq t.2.2.2.2.2.2.1.2.1 t.2.2.2.2.2.2.1.1 t.2.2.2.2.2.2.2.1, hr⟩
  | checkFeeder =>
    have t := checkFeeder_tally env s
    exact ⟨hs.of_eq t.2.2.2.2.2.2.1.2.1 t.2.2.2.2.2.2.1.1 t.2.2.2.2.2.2.2.1, hr⟩
  | checkInputs d =>
    have t := checkInputs_setup env d s
    exact ⟨hs.of_eq t.2.1 t.1 (checkInputs_steady env d s).2.1, hr⟩
  | freeInputs =>
    have t := freeInputs_tally env s
    exact ⟨hs.of_eq t.2.2.2.2.2.2.1.2.1 t.2.2.2.2.2.2.1.1 t.2.2.2.2.2.2.2.1, hr⟩
  | handleLeftTouch => exact ⟨hs, hr⟩
  | handleRightTouch => exact ⟨hs, hr⟩
  | handleFeederTouch => exact ⟨hs, hr⟩

/-- A run on a board whose sweeps end, with operations that set only such positions,
returns. -/
theorem run_returns (env : Env) (ops : List Op) (s : Sys) (hh : s.hung = false)
    (hs : SweepsEnd s) (hr : OpsInRange s.extraBits ops) : (run env ops s).hung = false := by
  induction ops generalizing s with
  | nil => exact hh
  | cons op ops ih =>
    have h1 := step_hung env op s hh hs
    have s1 := step_sweepsEnd env op ops s hs hr
    rw [run_cons, if_neg (by rw [h1]; simp)]
    exact ih _ h1 s1.1 s1.2

/-- The call `feederOpen()` on a controller whose positions are `INT_MIN` does not return, and
the angle it writes after `INT_MIN` is `INT_MAX`. -/
theorem openAtMin_stuck (e : Nat) :
    (openAtMin e).tf._openPos = INT_MIN e ∧ (openAtMin e).tf._closedPos = INT_MIN e ∧
    (feederOpen (openAtMin e)).hung = true ∧
    (writtenAngles (newEffects (openAtMin e) (feederOpen (openAtMin e)))).take 2
      = [INT_MIN e, INT_MAX e] := by
  have hr := openRun_hangs e (openAtMin e).tf (le_refl _) (le_refl _)
  have hst := feederOpen_stuck (openAtMin e) hr.1
  have hne : newEffects (openAtMin e) (feederOpen (openAtMin e)) =
      [Effect.digitalWrite LED_PIN Level.HIGH, Effect.servoAttach SERVO_PIN]
        ++ (openRun (openAtMin e).extraBits (openAtMin e).tf).1 :=
    newEffects_of_trace (by rw [hst])
  obtain ⟨k, hk⟩ : ∃ k, sweepTurns e = k + 2 := by
    refine ⟨sweepTurns e - 2, ?_⟩
    have h1 := sweepTurns_cast e
    have h2 := pow_bits_ge e
    omega
  have hrun : (openRun (openAtMin e).extraBits (openAtMin e).tf).1 =
      Effect.servoWrite (INT_MIN e) :: Effect.delay 50 ::
        Effect.servoWrite (INT_MAX e) :: Effect.delay 50 ::
          (openSweep e (INT_MIN e) k (intPred e (INT_MAX e))).1 := by
    show (openSweep e (INT_MIN e) (sweepTurns e) (INT_MIN e)).1 = _
    rw [hk, openSweep, if_pos (le_refl _), intPred_min, openSweep,
      if_pos (by have := pow_bits_pos e; unfold INT_MAX INT_MIN; omega)]
  refine ⟨rfl, rfl, by rw [hst], ?_⟩
  rw [hne, hrun]
  simp [writtenAngles]

/-- Claim C14 fails as stated when the closed position is `INT_MAX`. After
`setPositions(0, 32767)` on a board with 16-bit `int`, `feederClose()` never leaves its loop
(`pos <= 32767` holds for every `int`): the indicator stays high and the servo attached, and
the effects contain neither a servo detach nor an indicator LOW. The same holds with 32-bit
`int` at `2147483647`. -/
theorem C14_counterexample :
    ((closedAtMax 0).tf._closedPos = 32767 ∧
      (feederClose (closedAtMax 0)).hung = true ∧
      (feederClose (closedAtMax 0)).ledHigh = true ∧
      (feederClose (closedAtMax 0)).servoAttached = true ∧
      Effect.servoDetach ∉ newEffects (closedAtMax 0) (feederClose (closedAtMax 0)) ∧
      Effect.digitalWrite LED_PIN Level.LOW
        ∉ newEffects (closedAtMax 0) (feederClose (closedAtMax 0))) ∧
    ((closedAtMax 16).tf._closedPos = 2147483647 ∧
      (feederClose (closedAtMax 16)).hung = true ∧
      (feederClose (closedAtMax 16)).ledHigh = true ∧
      (feederClose (closedAtMax 16)).servoAttached = true ∧
      Effect.servoDetach ∉ newEffects (closedAtMax 16) (feederClose (closedAtMax 16)) ∧
      Effect.digitalWrite LED_PIN Level.LOW
        ∉ newEffects (closedAtMax 16) (feederClose (closedAtMax 16))) := by
  have key : ∀ e : Nat,
      (feederClose (closedAtMax e)).hung = true ∧
      (feederClose (closedAtMax e)).ledHigh = true ∧
      (feederClose (closedAtMax e)).servoAttached = true ∧
      Effect.servoDetach ∉ newEffects (closedAtMax e) (feederClose (closedAtMax e)) ∧
      Effect.digitalWrite LED_PIN Level.LOW
        ∉ newEffects (closedAtMax e) (feederClose (closedAtMax e)) := by
    intro e
    have st := closedAtMax_stuck e
    obtain ⟨l, hl, hk⟩ := st.2.2.2.2.2.2.2.2.2
    refine ⟨st.2.2.2.2.2.2.1, st.2.2.2.2.2.2.2.1, st.2.2.2.2.2.2.2.2.1, ?_, ?_⟩
    · rw [hl]
      intro hm
      simp only [List.mem_cons] at hm
      rcases hm with hm | hm | hm
      · cases hm
      · cases hm
      · exact (sweepEffect_kind _ (hk _ hm)).2.1 rfl
    · rw [hl]
      intro hm
      simp only [List.mem_cons] at hm
      rcases hm with hm | hm | hm
      · cases hm
      · cases hm
      · exact (sweepEffect_kind _ (hk _ hm)).2.2.1 rfl
  exact ⟨⟨by decide, key 0⟩, ⟨by decide, key 16⟩⟩

/-- Claim C14 (amended). For every pair of positions with `INT_MIN < openPos` and
`closedPos < INT_MAX`, `feederOpen()` and `feederClose()` return and their effects are:
indicator HIGH, servo attach, then only servo writes and delays, then servo detach, indicator
LOW; after them and after `shakeFood` the indicator is low and the servo detached. After
`shake` the indicator is low and the servo as before. Every public operation that returns,
started with the indicator low and the servo detached, ends so, and it returns on a board
whose sweeps end; hence every run of a controller from its construction that returns ends
with the indicator low and the servo detached, and it returns when the positions at
construction and those given to `begin` and `setPositions` are such that both sweeps end. -/
theorem C14_engaged_only_during_motion (env : Env) (s : Sys) (op : Op) (ops : List Op)
    (e : Nat) (closed0 open0 : Int) (t0 : Nat) :
    (s.hung = false → INT_MIN s.extraBits < s.tf._openPos →
      s.tf._closedPos < INT_MAX s.extraBits →
      (newEffects s (feederOpen s) =
          [Effect.digitalWrite LED_PIN Level.HIGH, Effect.servoAttach SERVO_PIN]
            ++ sweepDown (sweepFuel s.tf) s.tf._closedPos
            ++ [Effect.servoDetach, Effect.digitalWrite LED_PIN Level.LOW] ∧
        ∀ x ∈ sweepDown (sweepFuel s.tf) s.tf._closedPos, isSweepEffect x = true) ∧
      (newEffects s (feederClose s) =
          [Effect.digitalWrite LED_PIN Level.HIGH, Effect.servoAttach SERVO_PIN]
            ++ sweepUp (sweepFuel s.tf) s.tf._openPos
            ++ [Effect.servoDetach, Effect.digitalWrite LED_PIN Level.LOW] ∧
        ∀ x ∈ sweepUp (sweepFuel s.tf) s.tf._openPos, isSweepEffect x = true) ∧
      ((feederOpen s).hung = false ∧ (feederOpen s).ledHigh = false ∧
        (feederOpen s).servoAttached = false) ∧
      ((feederClose s).hung = false ∧ (feederClose s).ledHigh = false ∧
        (feederClose s).servoAttached = false) ∧
      ((shakeFood s).hung = false ∧ (shakeFood s).ledHigh = false ∧
        (shakeFood s).servoAttached = false) ∧
      (step env op s).hung = false) ∧
    ((shake s).ledHigh = false ∧ (shake s).servoAttached = s.servoAttached ∧
      (shake s).hung = s.hung) ∧
    ((step env op s).hung = false → s.ledHigh = false → s.servoAttached = false →
      (step env op s).ledHigh = false ∧ (step env op s).servoAttached = false) ∧
    ((run env ops (boot e closed0 open0 t0)).hung = false →
      (run env ops (boot e closed0 open0 t0)).ledHigh = false ∧
      (run env ops (boot e closed0 open0 t0)).servoAttached = false) ∧
    (INT_MIN e < open0 → closed0 < INT_MAX e → OpsInRange e ops →
      (run env ops (boot e closed0 open0 t0)).hung = false) := by
  have hb := shakeLoop_board 10 s
  refine ⟨?_, ?_, step_board env op s, fun hr => run_board env ops _ hr rfl rfl,
    fun ho hc hr => run_returns env ops _ rfl ⟨ho, hc⟩ hr⟩
  · intro hh ho hc
    have hs : SweepsEnd s := ⟨ho, hc⟩
    refine ⟨⟨newEffects_feederOpen s hs.openEnds, mem_sweepDown_kind _ _⟩,
      ⟨newEffects_feederClose s hs.closeEnds, mem_sweepUp_kind _ _⟩, ?_, ?_, ?_,
      step_hung env op s hh hs⟩
    · rw [feederOpen_eq s hs.openEnds]; exact ⟨hh, rfl, rfl⟩
    · rw [feederClose_eq s hs.closeEnds]; exact ⟨hh, rfl, rfl⟩
    · rw [shakeFood_eq s hh hs]; exact ⟨hh, rfl, rfl⟩
  · unfold shake; rw [hb.1, hb.2]; exact ⟨rfl, rfl, (shakeLoop_tf 10 s).2.2⟩

/-- Witness of C14: a rewarded `checkLeft` from a controller just after `begin`. -/
theorem C14_engaged_only_during_motion_witness :
    (handleLeftTouch (freshBoard 0)).hung = false ∧
    INT_MIN (handleLeftTouch (freshBoard 0)).extraBits
      < (handleLeftTouch (freshBoard 0)).tf._openPos ∧
    (handleLeftTouch (freshBoard 0)).tf._closedPos
      < INT_MAX (handleLeftTouch (freshBoard 0)).extraBits ∧
    (handleLeftTouch (freshBoard 0)).ledHigh = false ∧
    (handleLeftTouch (freshBoard 0)).servoAttached = false ∧
    (step pulseEnv (Op.checkLeft 2) (handleLeftTouch (freshBoard 0))).hung = false ∧
    (step pulseEnv (Op.checkLeft 2) (handleLeftTouch (freshBoard 0))).ledHigh = false ∧
    (step pulseEnv (Op.checkLeft 2) (handleLeftTouch (freshBoard 0))).servoAttached = false :=
  ⟨rfl, by decide, by decide, rfl, rfl,
   ((C14_engaged_only_during_motion pulseEnv (handleLeftTouch (freshBoard 0))
      (Op.checkLeft 2) [] 0 0 0 0).1 rfl (by decide) (by decide)).2.2.2.2.2,
   ((C14_engaged_only_during_motion pulseEnv (handleLeftTouch (freshBoard 0))
      (Op.checkLeft 2) [] 0 0 0 0).2.2.1
      (((C14_engaged_only_during_motion pulseEnv (handleLeftTouch (freshBoard 0))
        (Op.checkLeft 2) [] 0 0 0 0).1 rfl (by decide) (by decide)).2.2.2.2.2) rfl rfl).1,
   ((C14_engaged_only_during_motion pulseEnv (handleLeftTouch (freshBoard 0))
      (Op.checkLeft 2) [] 0 0 0 0).2.2.1
      (((C14_engaged_only_during_motion pulseEnv (handleLeftTouch (freshBoard 0))
        (Op.checkLeft 2) [] 0 0 0 0).1 rfl (by decide) (by decide)).2.2.2.2.2) rfl rfl).2⟩

theorem writtenAngles_append (l1 l2 : List Effect) :
    writtenAngles (l1 ++ l2) = writtenAngles l1 ++ writtenAngles l2 := by
  induction l1 with
  | nil => rfl
  | cons e l ih => cases e <;> simp [writtenAngles, ih]

theorem writtenAngles_sweepDown (n : Nat) (pos : Int) :
    writtenAngles (sweepDown n pos) = (List.range n).map (fun (i : Nat) => pos - (i : Int)) := by
  induction n generalizing pos with
  | zero => rfl
  | succ k ih =>
    rw [sweepDown, List.range_succ_eq_map]
    simp only [writtenAngles, ih, List.map_cons, List.map_map, Nat.cast_zero, sub_zero,
      List.cons.injEq, true_and]
    apply List.map_congr_left
    intro i _
    simp only [Function.comp, Nat.succ_eq_add_one, Nat.cast_add, Nat.cast_one]
    omega

theorem writtenAngles_sweepUp (n : Nat) (pos : Int) :
    writtenAngles (sweepUp n pos) = (List.range n).map (fun (i : Nat) => pos + (i : Int)) := by
  induction n generalizing pos with
  | zero => rfl
  | succ k ih =>
    rw [sweepUp, List.range_succ_eq_map]
    simp only [writtenAngles, ih, List.map_cons, List.map_map, Nat.cast_zero, add_zero,
      List.cons.injEq, true_and]
    apply List.map_congr_left
    intro i _
    simp only [Function.comp, Nat.succ_eq_add_one, Nat.cast_add, Nat.cast_one]
    omega

theorem reverse_down_eq_up (n : Nat) (c : Int) :
    ((List.range n).map (fun (i : Nat) => c - (i : Int))).reverse
      = (List.range n).map (fun (i : Nat) => (c - (n : Int) + 1) + (i : Int)) := by
  induction n generalizing c with
  | zero => rfl
  | succ k ih =>
    have h1 : (List.map ((fun (i : Nat) => c - (i : Int)) ∘ Nat.succ) (List.range k))
        = (List.range k).map (fun (i : Nat) => (c - 1) - (i : Int)) := by
      apply List.map_congr_left
      intro i _
      simp only [Function.comp, Nat.succ_eq_add_one, Nat.cast_add, Nat.cast_one]
      omega
    conv_lhs => rw [List.range_succ_eq_map]
    conv_rhs => rw [List.range_succ]
    simp only [List.map_cons, List.map_map, List.reverse_cons, Nat.cast_zero, sub_zero,
      List.map_append, List.map_nil]
    rw [h1, ih (c - 1)]
    congr 1
    · apply List.map_congr_left
      intro i _
      push_cast; omega
    · congr 1
      push_cast; omega

theorem writtenAngles_feederOpenEffects (t : TumbleFeeder) :
    writtenAngles (feederOpenEffects t)
      = (List.range (sweepFuel t)).map (fun (i : Nat) => t._closedPos - (i : Int)) := by
  rw [feederOpenEffects, writtenAngles_append, writtenAngles_append, writtenAngles_sweepDown]
  simp [writtenAngles]

theorem writtenAngles_feederCloseEffects (t : TumbleFeeder) :
    writtenAngles (feederCloseEffects t)
      = (List.range (sweepFuel t)).map (fun (i : Nat) => t._openPos + (i : Int)) := by
  rw [feederCloseEffects, writtenAngles_append, writtenAngles_append, writtenAngles_sweepUp]
  simp [writtenAngles]

/-- Claim C15 fails as stated when the open position is `INT_MIN`. After
`setPositions(-32768, -32768)` on a board with 16-bit `int`, where `openPos ≤ closedPos`,
`feederOpen()` writes `-32768` and then `32767`, an angle above `closedPos`, and never leaves
its loop. The same holds with 32-bit `int` at `-2147483648`. -/
theorem C15_counterexample :
    ((openAtMin 0).tf._openPos = -32768 ∧ (openAtMin 0).tf._closedPos = -32768 ∧
      (feederOpen (openAtMin 0)).hung = true ∧
      (writtenAngles (newEffects (openAtMin 0) (feederOpen (openAtMin 0)))).take 2
        = [-32768, 32767]) ∧
    ((openAtMin 16).tf._openPos = -2147483648 ∧ (openAtMin 16).tf._closedPos = -2147483648 ∧
      (feederOpen (openAtMin 16)).hung = true ∧
      (writtenAngles (newEffects (openAtMin 16) (feederOpen (openAtMin 16)))).take 2
        = [-2147483648, 2147483647]) := by
  have k0 := openAtMin_stuck 0
  have k16 := openAtMin_stuck 16
  have a0 : INT_MIN 0 = -32768 := by decide
  have b0 : INT_MAX 0 = 32767 := by decide
  have a16 : INT_MIN 16 = -2147483648 := by decide
  have b16 : INT_MAX 16 = 2147483647 := by decide
  rw [a0, b0] at k0
  rw [a16, b16] at k16
  exact ⟨k0, k16⟩

/-- Claim C15 (monotone one-degree sweep, amended). Whenever
`INT_MIN < openPos ≤ closedPos < INT_MAX`, the angles written by `feederOpen()` are
`closedPos, closedPos - 1, ..., openPos` (the `i`-th one is `closedPos - i`, the first
`closedPos`, the last `openPos`), the angles written by `feederClose()` are
`openPos, openPos + 1, ..., closedPos`, which is the reverse list, and every written angle lies
between `openPos` and `closedPos`. -/
theorem C15_monotone_sweep (s : Sys) (h : s.tf._openPos ≤ s.tf._closedPos)
    (ho : INT_MIN s.extraBits < s.tf._openPos) (hc : s.tf._closedPos < INT_MAX s.extraBits) :
    writtenAngles (newEffects s (feederOpen s))
      = (List.range ((s.tf._closedPos - s.tf._openPos).toNat + 1)).map
          (fun (i : Nat) => s.tf._closedPos - (i : Int)) ∧
    writtenAngles (newEffects s (feederClose s))
      = (List.range ((s.tf._closedPos - s.tf._openPos).toNat + 1)).map
          (fun (i : Nat) => s.tf._openPos + (i : Int)) ∧
    writtenAngles (newEffects s (feederClose s))
      = (writtenAngles (newEffects s (feederOpen s))).reverse ∧
    (writtenAngles (newEffects s (feederOpen s))).head? = some s.tf._closedPos ∧
    (writtenAngles (newEffects s (feederOpen s))).getLast? = some s.tf._openPos ∧
    (writtenAngles (newEffects s (feederClose s))).head? = some s.tf._openPos ∧
    (writtenAngles (newEffects s (feederClose s))).getLast? = some s.tf._closedPos ∧
    (∀ a ∈ writtenAngles (newEffects s (feederOpen s)),
      s.tf._openPos ≤ a ∧ a ≤ s.tf._closedPos) ∧
    (∀ a ∈ writtenAngles (newEffects s (feederClose s)),
      s.tf._openPos ≤ a ∧ a ≤ s.tf._closedPos) := by
  have hs : SweepsEnd s := ⟨ho, hc⟩
  have hN : sweepFuel s.tf = (s.tf._closedPos - s.tf._openPos).toNat + 1 := by
    unfold sweepFuel; omega
  have ho := writtenAngles_feederOpenEffects s.tf
  have hc := writtenAngles_feederCloseEffects s.tf
  rw [← newEffects_feederOpen s hs.openEnds, hN] at ho
  rw [← newEffects_feederClose s hs.closeEnds, hN] at hc
  have hcast : (((s.tf._closedPos - s.tf._openPos).toNat : Nat) : Int)
      = s.tf._closedPos - s.tf._openPos := Int.toNat_of_nonneg (by omega)
  refine ⟨ho, hc, ?_, ?_, ?_, ?_, ?_, ?_, ?_⟩
  · rw [ho, hc, reverse_down_eq_up]
    apply List.map_congr_left
    intro i _
    push_cast
    rw [hcast]; omega
  · rw [ho, List.range_succ_eq_map]; simp
  · rw [ho, List.range_succ, List.map_append]
    simp only [List.map_cons, List.map_nil, List.getLast?_append, List.getLast?_singleton,
      Option.or_some]
    rw [hcast]; simp
  · rw [hc, List.range_succ_eq_map]; simp
  · rw [hc, List.range_succ, List.map_append]
    simp only [List.map_cons, List.map_nil, List.getLast?_append, List.getLast?_singleton,
      Option.or_some]
    rw [hcast]; simp
  · intro a ha
    rw [ho] at ha
    simp only [List.mem_map, List.mem_range] at ha
    obtain ⟨i, hi, rfl⟩ := ha
    omega
  · intro a ha
    rw [hc] at ha
    simp only [List.mem_map, List.mem_range] at ha
    obtain ⟨i, hi, rfl⟩ := ha
    omega

/-- Witness of C15: the positions `closedPos = 150`, `openPos = 0` set by `begin`. -/
theorem C15_monotone_sweep_witness :
    (freshBoard 0).tf._openPos ≤ (freshBoard 0).tf._closedPos ∧
    INT_MIN (freshBoard 0).extraBits < (freshBoard 0).tf._openPos ∧
    (freshBoard 0).tf._closedPos < INT_MAX (freshBoard 0).extraBits ∧
    writtenAngles (newEffects (freshBoard 0) (feederClose (freshBoard 0)))
      = (writtenAngles (newEffects (freshBoard 0) (feederOpen (freshBoard 0)))).reverse :=
  ⟨by decide, by decide, by decide,
   (C15_monotone_sweep (freshBoard 0) (by decide) (by decide) (by decide)).2.2.1⟩

/-- Claim C16. A poll with nothing pending is a no-op: when its flag is not set, `checkLeft(d)`,
`checkRight()` or `checkFeeder()` returns the very same state (fields, clock, board and trace)
and so adds no effect, for every `d` and whatever the counters and the fixed ratio are; and so
do `checkInputs(d)` and `freeInputs()` when none of the three flags is set. -/
theorem C16_idle_poll_is_noop (env : Env) (d : Nat) (s : Sys) :
    (s.tf._leftTouch = false →
      checkLeft env d s = s ∧ newEffects s (checkLeft env d s) = []) ∧
    (s.tf._rightTouch = false →
      checkRight env s = s ∧ newEffects s (checkRight env s) = []) ∧
    (s.tf._feedTouch = false →
      checkFeeder env s = s ∧ newEffects s (checkFeeder env s) = []) ∧
    (s.tf._leftTouch = false → s.tf._rightTouch = false → s.tf._feedTouch = false →
      checkInputs env d s = s ∧ newEffects s (checkInputs env d s) = [] ∧
      freeInputs env s = s ∧ newEffects s (freeInputs env s) = []) := by
  have hnil : newEffects s s = [] := by simp [newEffects]
  refine ⟨?_, ?_, ?_, ?_⟩
  · intro h; rw [checkLeft_idle env d s h]; exact ⟨rfl, hnil⟩
  · intro h; rw [checkRight_idle env s h]; exact ⟨rfl, hnil⟩
  · intro h; rw [checkFeeder_idle env s h]; exact ⟨rfl, hnil⟩
  · intro hl hr hf
    have e1 : checkInputs env d s = s := by
      unfold checkInputs
      simp only []
      rw [checkRight_idle env s hr, checkLeft_idle env d s hl, checkFeeder_idle env s hf]
      simp
    have e2 : freeInputs env s = s := by
      rw [freeInputs_idle env s hl, checkRight_idle env s hr, checkFeeder_idle env s hf]
    rw [e1, e2]; exact ⟨rfl, hnil, rfl, hnil⟩

/-- Witness of C16: a controller just after `begin`, with ratio 1 and a zero left counter. -/
theorem C16_idle_poll_is_noop_witness :
    (freshBoard 0).tf._leftTouch = false ∧
    (freshBoard 0).tf._rightTouch = false ∧
    (freshBoard 0).tf._feedTouch = false ∧
    checkLeft pulseEnv 2 (freshBoard 0) = freshBoard 0 ∧
    checkInputs pulseEnv 2 (freshBoard 0) = freshBoard 0 :=
  ⟨rfl, rfl, rfl,
   ((C16_idle_poll_is_noop pulseEnv 2 (freshBoard 0)).1 rfl).1,
   ((C16_idle_poll_is_noop pulseEnv 2 (freshBoard 0)).2.2.2 rfl rfl rfl).1⟩

/-! ## Claims C17 to C19 -/

theorem repeatOp_idempotent (f : Sys → Sys) (hf : ∀ s, f (f s) = f s) (k : Nat) (s : Sys)
    (hk : 1 ≤ k) : repeatOp f k s = f s := by
  induction k generalizing s with
  | zero => omega
  | succ n ih =>
    rw [repeatOp]
    rcases Nat.eq_zero_or_pos n with h0 | h0
    · subst h0; rfl
    · rw [ih (f s) h0, hf]

theorem callbacks_checkRight (env : Env) (s : Sys) (h : s.tf._rightTouch = true) :
    callbacks (newEffects s (checkRight env s)) = notifyEffects (seenRight env s) := by
  rw [newEffects_checkRight env s h, callbacks_append, callbacks_senseEffects,
    callbacks_notifyEffects]
  rfl

theorem callbacks_checkFeeder (env : Env) (s : Sys) (h : s.tf._feedTouch = true) :
    callbacks (newEffects s (checkFeeder env s)) = notifyEffects (seenFeeder env s) := by
  rw [newEffects_checkFeeder env s h, callbacks_append, callbacks_senseEffects,
    callbacks_notifyEffects]
  rfl

theorem callbacks_leftRecord (env : Env) (s : Sys) :
    callbacks (newEffects s (leftRecord env s)) = notifyEffects (seenLeft env s) := by
  rw [newEffects_leftRecord env s, callbacks_append, callbacks_senseEffects,
    callbacks_notifyEffects]
  rfl

theorem intSucc_zero (e : Nat) : intSucc e 0 = 1 := by
  have hp := pow_bits_ge e
  rw [intSucc_of_lt e 0 (by unfold INT_MIN; omega) (by unfold INT_MAX; omega)]
  rfl

/-- Claim C17 fails as stated at the largest `int`. On a board with 16-bit `int`, a controller
whose `leftPokeCount` is `32767` receives three left edges; the poll that processes them as
one activation brings the counter to `-32768`: it does not rise by 1. The same holds with
32-bit `int` at `2147483647`. -/
theorem C17_counterexample :
    (getLeftPokeCount (freeRounds quietEnv 32767 (freshBoard 0)) = 32767 ∧
      getLeftPokeCount (checkLeft quietEnv 0
        (repeatOp handleLeftTouch 3 (freeRounds quietEnv 32767 (freshBoard 0)))) = -32768) ∧
    (getLeftPokeCount (freeRounds quietEnv 2147483647 (freshBoard 16)) = 2147483647 ∧
      getLeftPokeCount (checkLeft quietEnv 0
        (repeatOp handleLeftTouch 3 (freeRounds quietEnv 2147483647 (freshBoard 16))))
          = -2147483648) := by
  have key : ∀ e k : Nat,
      getLeftPokeCount (freeRounds quietEnv k (freshBoard e)) = wrapInt e (k : Int) ∧
      getLeftPokeCount (checkLeft quietEnv 0
        (repeatOp handleLeftTouch 3 (freeRounds quietEnv k (freshBoard e))))
          = intSucc e (wrapInt e (k : Int)) := by
    intro e k
    have h := freeRounds_fresh e k
    refine ⟨h.1, ?_⟩
    rw [repeatOp_idempotent handleLeftTouch (fun _ => rfl) 3 _ (by decide)]
    have t := checkLeft_tally quietEnv 0 (handleLeftTouch (freeRounds quietEnv k (freshBoard e)))
    simp only [getLeftPokeCount]
    rw [t.1]
    show intSucc (freeRounds quietEnv k (freshBoard e)).extraBits
      (freeRounds quietEnv k (freshBoard e)).tf.leftPokeCount = _
    rw [h.1, h.2]
  have k0 := key 0 32767
  have k16 := key 16 2147483647
  have a0 : wrapInt 0 ((32767 : Nat) : Int) = 32767 := by decide
  have b0 : intSucc 0 32767 = -32768 := by decide
  have a16 : wrapInt 16 ((2147483647 : Nat) : Int) = 2147483647 := by decide
  have b16 : intSucc 16 2147483647 = -2147483648 := by decide
  rw [a0, b0] at k0
  rw [a16, b16] at k16
  exact ⟨k0, k16⟩

/-- Claim C17 (edge intake is a latch, amended). Each of `handleLeftTouch`, `handleRightTouch`
and `handleFeederTouch` sets its own pending flag and changes nothing else, and doing it twice
is doing it once; so `k ≥ 1` edges of one sensor before the next poll leave the state of one
edge, and the poll processes them as one activation: the counter is incremented once (it rises
by `1` when it was an `int` below `INT_MAX`), the callbacks are called once for it, and the
flag is clear afterwards. -/
theorem C17_edge_intake_is_latch (env : Env) (d : Nat) (s : Sys) (k : Nat) (hk : 1 ≤ k) :
    (handleLeftTouch s = { s with tf := { s.tf with _leftTouch := true } } ∧
      handleRightTouch s = { s with tf := { s.tf with _rightTouch := true } } ∧
      handleFeederTouch s = { s with tf := { s.tf with _feedTouch := true } }) ∧
    (handleLeftTouch (handleLeftTouch s) = handleLeftTouch s ∧
      handleRightTouch (handleRightTouch s) = handleRightTouch s ∧
      handleFeederTouch (handleFeederTouch s) = handleFeederTouch s) ∧
    (repeatOp handleLeftTouch k s = handleLeftTouch s ∧
      repeatOp handleRightTouch k s = handleRightTouch s ∧
      repeatOp handleFeederTouch k s = handleFeederTouch s) ∧
    (getRightPokeCount (checkRight env (repeatOp handleRightTouch k s))
        = intSucc s.extraBits (getRightPokeCount s) ∧
      (INT_MIN s.extraBits ≤ getRightPokeCount s → getRightPokeCount s < INT_MAX s.extraBits →
        getRightPokeCount (checkRight env (repeatOp handleRightTouch k s))
          = getRightPokeCount s + 1) ∧
      (checkRight env (repeatOp handleRightTouch k s)).tf._rightTouch = false ∧
      callbacks (newEffects (repeatOp handleRightTouch k s)
          (checkRight env (repeatOp handleRightTouch k s)))
        = notifyEffects (seenRight env (handleRightTouch s))) ∧
    (getFeederCount (checkFeeder env (repeatOp handleFeederTouch k s))
        = intSucc s.extraBits (getFeederCount s) ∧
      (INT_MIN s.extraBits ≤ getFeederCount s → getFeederCount s < INT_MAX s.extraBits →
        getFeederCount (checkFeeder env (repeatOp handleFeederTouch k s))
          = getFeederCount s + 1) ∧
      (checkFeeder env (repeatOp handleFeederTouch k s)).tf._feedTouch = false ∧
      callbacks (newEffects (repeatOp handleFeederTouch k s)
          (checkFeeder env (repeatOp handleFeederTouch k s)))
        = notifyEffects (seenFeeder env (handleFeederTouch s))) ∧
    (getLeftPokeCount (checkLeft env d (repeatOp handleLeftTouch k s))
        = intSucc s.extraBits (getLeftPokeCount s) ∧
      (INT_MIN s.extraBits ≤ getLeftPokeCount s → getLeftPokeCount s < INT_MAX s.extraBits →
        getLeftPokeCount (checkLeft env d (repeatOp handleLeftTouch k s))
          = getLeftPokeCount s + 1) ∧
      (checkLeft env d (repeatOp handleLeftTouch k s)).tf._leftTouch = false ∧
      callbacks (newEffects (repeatOp handleLeftTouch k s)
          (leftRecord env (repeatOp handleLeftTouch k s)))
        = notifyEffects (seenLeft env (handleLeftTouch s))) := by
  have rl := repeatOp_idempotent handleLeftTouch (fun _ => rfl) k s hk
  have rr := repeatOp_idempotent handleRightTouch (fun _ => rfl) k s hk
  have rf := repeatOp_idempotent handleFeederTouch (fun _ => rfl) k s hk
  refine ⟨⟨rfl, rfl, rfl⟩, ⟨rfl, rfl, rfl⟩, ⟨rl, rr, rf⟩, ?_, ?_, ?_⟩
  · rw [rr]
    have t := checkRight_tally env (handleRightTouch s)
    have c : getRightPokeCount (checkRight env (handleRightTouch s))
        = intSucc s.extraBits (getRightPokeCount s) := by
      simp only [getRightPokeCount]; rw [t.1]; rfl
    exact ⟨c, fun h1 h2 => by rw [c]; exact intSucc_of_lt _ _ h1 h2, t.2.1,
      callbacks_checkRight env (handleRightTouch s) rfl⟩
  · rw [rf]
    have t := checkFeeder_tally env (handleFeederTouch s)
    have c : getFeederCount (checkFeeder env (handleFeederTouch s))
        = intSucc s.extraBits (getFeederCount s) := by
      simp only [getFeederCount]; rw [t.1]; rfl
    exact ⟨c, fun h1 h2 => by rw [c]; exact intSucc_of_lt _ _ h1 h2, t.2.1,
      callbacks_checkFeeder env (handleFeederTouch s) rfl⟩
  · rw [rl]
    have t := checkLeft_tally env d (handleLeftTouch s)
    have c : getLeftPokeCount (checkLeft env d (handleLeftTouch s))
        = intSucc s.extraBits (getLeftPokeCount s) := by
      simp only [getLeftPokeCount]; rw [t.1]; rfl
    exact ⟨c, fun h1 h2 => by rw [c]; exact intSucc_of_lt _ _ h1 h2, t.2.1,
      callbacks_leftRecord env (handleLeftTouch s)⟩

/-- Witness of C17: three right edges before one `checkRight`. -/
theorem C17_edge_intake_is_latch_witness :
    1 ≤ 3 ∧
    repeatOp handleRightTouch 3 (freshBoard 0) = handleRightTouch (freshBoard 0) ∧
    INT_MIN (freshBoard 0).extraBits ≤ getRightPokeCount (freshBoard 0) ∧
    getRightPokeCount (freshBoard 0) < INT_MAX (freshBoard 0).extraBits ∧
    getRightPokeCount (checkRight pulseEnv (repeatOp handleRightTouch 3 (freshBoard 0)))
      = getRightPokeCount (freshBoard 0) + 1 :=
  ⟨by decide,
   (C17_edge_intake_is_latch pulseEnv 0 (freshBoard 0) 3 (by decide)).2.2.1.2.1,
   by decide, by decide,
   (C17_edge_intake_is_latch pulseEnv 0 (freshBoard 0) 3 (by decide)).2.2.2.1.2.1
     (by decide) (by decide)⟩

theorem step_durations (env : Env) (op : Op) (s : Sys)
    (h : s.tf.leftPokeDur = 0 ∧ s.tf.rightPokeDur = 0 ∧ s.tf.leftFeederDur = 0) :
    (step env op s).tf.leftPokeDur = 0 ∧ (step env op s).tf.rightPokeDur = 0 ∧
    (step env op s).tf.leftFeederDur = 0 := by
  by_cases hop : op = Op.resetCounts
  · subst hop; exact ⟨rfl, rfl, rfl⟩
  · exact (step_steady env op s hop).1 h

theorem run_durations (env : Env) (ops : List Op) (s : Sys)
    (h : s.tf.leftPokeDur = 0 ∧ s.tf.rightPokeDur = 0 ∧ s.tf.leftFeederDur = 0) :
    (run env ops s).tf.leftPokeDur = 0 ∧ (run env ops s).tf.rightPokeDur = 0 ∧
    (run env ops s).tf.leftFeederDur = 0 := by
  induction ops generalizing s with
  | nil => exact h
  | cons op ops ih =>
    rw [run_cons]
    split
    · exact step_durations env op s h
    · exact ih _ (step_durations env op s h)

/-- Claim C18. For a controller built by the constructor and driven by any sequence of public
operations, with any behaviour of the sensor lines, `getLeftPokeDur()`, `getRightPokeDur()` and
`getLeftFeederDur()` return `0` after the sequence, hence at every operation boundary. -/
theorem C18_durations_zero_at_boundaries (env : Env) (e : Nat) (closed0 open0 : Int) (t0 : Nat)
    (ops : List Op) :
    getLeftPokeDur (run env ops (boot e closed0 open0 t0)) = 0 ∧
    getRightPokeDur (run env ops (boot e closed0 open0 t0)) = 0 ∧
    getLeftFeederDur (run env ops (boot e closed0 open0 t0)) = 0 :=
  run_durations env ops _ ⟨rfl, rfl, rfl⟩

/-- Claim C19. `resetCounts()` writes `0` to the six counters and durations and nothing else:
the fixed ratio, both positions, the stored open duration, both callbacks, the three pending
flags, the clock, the board and the trace are unchanged. So a touch pending before the reset
is processed by the next poll, and it is activation number `1`. -/
theorem C19_resetCounts_frame (env : Env) (d : Nat) (s : Sys) :
    resetCounts s =
      { s with tf := { s.tf with leftPokeCount := 0, rightPokeCount := 0, FeederCount := 0,
                                 leftPokeDur := 0, rightPokeDur := 0, leftFeederDur := 0 } } ∧
    getFR (resetCounts s) = getFR s ∧
    (resetCounts s).tf._closedPos = s.tf._closedPos ∧
    (resetCounts s).tf._openPos = s.tf._openPos ∧
    (resetCounts s).tf._openDuration = s.tf._openDuration ∧
    (resetCounts s).tf._logCallback = s.tf._logCallback ∧
    (resetCounts s).tf._displayCallback = s.tf._displayCallback ∧
    (resetCounts s).tf._leftTouch = s.tf._leftTouch ∧
    (resetCounts s).tf._rightTouch = s.tf._rightTouch ∧
    (resetCounts s).tf._feedTouch = s.tf._feedTouch ∧
    (s.tf._leftTouch = true →
      getLeftPokeCount (checkLeft env d (resetCounts s)) = 1 ∧
      (checkLeft env d (resetCounts s)).tf._leftTouch = false) ∧
    (s.tf._rightTouch = true →
      getRightPokeCount (checkRight env (resetCounts s)) = 1 ∧
      (checkRight env (resetCounts s)).tf._rightTouch = false) ∧
    (s.tf._feedTouch = true →
      getFeederCount (checkFeeder env (resetCounts s)) = 1 ∧
      (checkFeeder env (resetCounts s)).tf._feedTouch = false) := by
  refine ⟨rfl, rfl, rfl, rfl, rfl, rfl, rfl, rfl, rfl, rfl, ?_, ?_, ?_⟩
  · intro h
    have t := checkLeft_tally env d (resetCounts s)
    refine ⟨?_, t.2.1⟩
    simp only [getLeftPokeCount]; rw [t.1]
    have : (resetCounts s).tf._leftTouch = true := h
    rw [this]
    exact intSucc_zero _
  · intro h
    have t := checkRight_tally env (resetCounts s)
    refine ⟨?_, t.2.1⟩
    simp only [getRightPokeCount]; rw [t.1]
    have : (resetCounts s).tf._rightTouch = true := h
    rw [this]
    exact intSucc_zero _
  · intro h
    have t := checkFeeder_tally env (resetCounts s)
    refine ⟨?_, t.2.1⟩
    simp only [getFeederCount]; rw [t.1]
    have : (resetCounts s).tf._feedTouch = true := h
    rw [this]
    exact intSucc_zero _

/-- Witness of C19: `demoState`, whose three touches are pending, reset and then polled. -/
theorem C19_resetCounts_frame_witness :
    demoState.tf._leftTouch = true ∧
    getLeftPokeCount (checkLeft pulseEnv 0 (resetCounts demoState)) = 1 :=
  ⟨rfl, ((C19_resetCounts_frame pulseEnv 0 demoState).2.2.2.2.2.2.2.2.2.2.1 rfl).1⟩

/-! ## Claim C13: the scenario -/

theorem lowRun_pulse_0 : lowRun pulseEnv LEFT_TOUCH_PIN 0 = 10 := by decide
theorem lowRun_pulse_100 : lowRun pulseEnv LEFT_TOUCH_PIN 100 = 10 := by decide
theorem lowRun_pulse_200 : lowRun pulseEnv LEFT_TOUCH_PIN 200 = 10 := by decide

theorem scenario_sweepsEnd (s : Sys) (n : Int) (b : Bool) (h : s.tf = scenarioFields n b)
    (hx : s.extraBits = 0) : SweepsEnd s := by
  unfold SweepsEnd
  rw [h, hx]
  constructor
  · show INT_MIN 0 < (0 : Int)
    decide
  · show (150 : Int) < INT_MAX 0
    decide

theorem edge1_state :
    edge1.tf = scenarioFields 0 true ∧ edge1.now = 0 ∧ edge1.extraBits = 0 ∧
    edge1.hung = false := ⟨rfl, rfl, rfl, rfl⟩

theorem after1_state :
    after1 = leftRecord pulseEnv edge1 ∧ after1.tf = scenarioFields 1 false ∧ after1.now = 10 ∧
    after1.extraBits = 0 ∧ after1.hung = false := by
  have h : after1 = leftRecord pulseEnv edge1 := by
    unfold after1
    rw [checkLeft_eq _ _ _ rfl, if_neg (by decide)]
  refine ⟨h, ?_, ?_, ?_, ?_⟩
  · rw [h, leftRecord_eq]; rfl
  · rw [h, leftRecord_eq]
    show edge1.now + lowRun pulseEnv LEFT_TOUCH_PIN edge1.now = 10
    rw [edge1_state.2.1, lowRun_pulse_0]
  · rw [h, (leftRecord_frame _ _).2.1]; rfl
  · rw [h, (leftRecord_frame _ _).1]; rfl

theorem edge2_state :
    edge2.tf = scenarioFields 1 true ∧ edge2.now = 100 ∧ edge2.extraBits = 0 ∧
    edge2.hung = false := by
  refine ⟨?_, ?_, after1_state.2.2.2.1, after1_state.2.2.2.2⟩
  · show { after1.tf with _leftTouch := true } = _
    rw [after1_state.2.1]; rfl
  · show after1.now + 90 = 100
    rw [after1_state.2.2.1]

theorem after2_state :
    after2 = leftRecord pulseEnv edge2 ∧ after2.tf = scenarioFields 2 false ∧ after2.now = 110 ∧
    after2.extraBits = 0 ∧ after2.hung = false := by
  have hflag : edge2.tf._leftTouch = true := by rw [edge2_state.1]; rfl
  have h : after2 = leftRecord pulseEnv edge2 := by
    unfold after2
    rw [checkLeft_eq _ _ _ hflag, if_neg (by rw [edge2_state.1, edge2_state.2.2.1]; decide)]
  refine ⟨h, ?_, ?_, ?_, ?_⟩
  · rw [h, leftRecord_eq]
    show { edge2.tf with leftPokeCount := intSucc edge2.extraBits edge2.tf.leftPokeCount,
                         leftPokeDur := 0, _leftTouch := false } = _
    rw [edge2_state.1, edge2_state.2.2.1]; rfl
  · rw [h, leftRecord_eq]
    show edge2.now + lowRun pulseEnv LEFT_TOUCH_PIN edge2.now = 110
    rw [edge2_state.2.1, lowRun_pulse_100]
  · rw [h, (leftRecord_frame _ _).2.1]; exact edge2_state.2.2.1
  · rw [h, (leftRecord_frame _ _).1]; exact edge2_state.2.2.2

theorem edge3_state :
    edge3.tf = scenarioFields 2 true ∧ edge3.now = 200 ∧ edge3.extraBits = 0 ∧
    edge3.hung = false := by
  refine ⟨?_, ?_, after2_state.2.2.2.1, after2_state.2.2.2.2⟩
  · show { after2.tf with _leftTouch := true } = _
    rw [after2_state.2.1]; rfl
  · show after2.now + 90 = 200
    rw [after2_state.2.2.1]

theorem edge3_sweepsEnd : SweepsEnd edge3 :=
  scenario_sweepsEnd edge3 2 true edge3_state.1 edge3_state.2.2.1

theorem record3_state :
    (leftRecord pulseEnv edge3).tf = scenarioFields 3 false ∧
    (leftRecord pulseEnv edge3).now = 210 ∧
    seenLeft pulseEnv edge3 = scenarioSeen ∧
    (leftRecord pulseEnv edge3).extraBits = 0 ∧ (leftRecord pulseEnv edge3).hung = false := by
  refine ⟨?_, ?_, ?_, ?_, ?_⟩
  · rw [leftRecord_eq]
    show { edge3.tf with leftPokeCount := intSucc edge3.extraBits edge3.tf.leftPokeCount,
                         leftPokeDur := 0, _leftTouch := false } = _
    rw [edge3_state.1, edge3_state.2.2.1]; rfl
  · rw [leftRecord_eq]
    show edge3.now + lowRun pulseEnv LEFT_TOUCH_PIN edge3.now = 210
    rw [edge3_state.2.1, lowRun_pulse_200]
  · unfold seenLeft
    rw [edge3_state.1, edge3_state.2.1, edge3_state.2.2.1,
      measured_eq_lowRun _ _ _ _ (by rw [lowRun_pulse_200]; decide)
        (by rw [lowRun_pulse_200]; decide), lowRun_pulse_200]
    rfl
  · rw [(leftRecord_frame _ _).2.1]; exact edge3_state.2.2.1
  · rw [(leftRecord_frame _ _).1]; exact edge3_state.2.2.2

theorem record3_sweepsEnd : SweepsEnd (leftRecord pulseEnv edge3) :=
  leftRecord_sweepsEnd pulseEnv edge3 edge3_sweepsEnd

theorem sweepFuel_scenario : sweepFuel (scenarioFields 3 false) = 151 := by decide

theorem open3_state :
    (feederOpen (leftRecord pulseEnv edge3)).tf = scenarioFields 3 false ∧
    (feederOpen (leftRecord pulseEnv edge3)).now = 7760 := by
  constructor
  · rw [(feederOpen_frame _).1]; exact record3_state.1
  · rw [feederOpen_eq _ record3_sweepsEnd.openEnds]
    show (leftRecord pulseEnv edge3).now + 50 * sweepFuel (leftRecord pulseEnv edge3).tf = 7760
    rw [record3_state.1, record3_state.2.1, sweepFuel_scenario]

theorem window3_state :
    (openWindow pulseEnv 2 (feederOpen (leftRecord pulseEnv edge3))).tf
      = scenarioFields 3 false ∧
    (openWindow pulseEnv 2 (feederOpen (leftRecord pulseEnv edge3))).now = 9760 ∧
    newEffects (feederOpen (leftRecord pulseEnv edge3))
        (openWindow pulseEnv 2 (feederOpen (leftRecord pulseEnv edge3)))
      = Effect.millis 7760 :: spinEffects 2000 7760 ∧
    SweepsEnd (openWindow pulseEnv 2 (feederOpen (leftRecord pulseEnv edge3))) := by
  have hidle : (feederOpen (leftRecord pulseEnv edge3)).tf._feedTouch = false
      ∨ ulongMul 2 1000 = 0 := Or.inl (by rw [open3_state.1]; rfl)
  have hT : ulongMul 2 1000 = 2000 := by decide
  have htf : (openWindow pulseEnv 2 (feederOpen (leftRecord pulseEnv edge3))).tf
      = scenarioFields 3 false := by
    rw [openWindow_idle _ _ _ hidle]; simp only []; exact open3_state.1
  refine ⟨htf, ?_, ?_, ?_⟩
  · rw [openWindow_idle _ _ _ hidle]
    show (feederOpen (leftRecord pulseEnv edge3)).now + ulongMul 2 1000 = 9760
    rw [open3_state.2, hT]
  · have hm : 7760 % ULONG_MOD = 7760 := by decide
    rw [newEffects_openWindow_idle _ _ _ hidle, open3_state.2, hT, hm]
  · exact scenario_sweepsEnd _ 3 false htf
      (by rw [(openWindow_board _ _ _).2.2.1, (feederOpen_frame _).2.1]; exact record3_state.2.2.2.1)

theorem after3_state :
    after3 = feederClose (openWindow pulseEnv 2 (feederOpen (leftRecord pulseEnv edge3))) ∧
    after3.tf = scenarioFields 3 false ∧ after3.now = 17310 := by
  have hflag : edge3.tf._leftTouch = true := by rw [edge3_state.1]; rfl
  have h : after3
      = feederClose (openWindow pulseEnv 2 (feederOpen (leftRecord pulseEnv edge3))) := by
    unfold after3
    rw [(checkLeft_returns _ _ _ hflag edge3_state.2.2.2 edge3_sweepsEnd).1,
      if_pos (by rw [edge3_state.1, edge3_state.2.2.1]; decide)]
  refine ⟨h, ?_, ?_⟩
  · rw [h, (feederClose_frame _).1]; exact window3_state.1
  · rw [h, feederClose_eq _ window3_state.2.2.2.closeEnds]
    show (openWindow pulseEnv 2 (feederOpen (leftRecord pulseEnv edge3))).now
      + 50 * sweepFuel (openWindow pulseEnv 2 (feederOpen (leftRecord pulseEnv edge3))).tf
      = 17310
    rw [window3_state.1, window3_state.2.1, sweepFuel_scenario]

theorem after3_effects :
    newEffects edge3 after3 =
      senseEffects pulseEnv LEFT_TOUCH_PIN 200
        ++ [Effect.displayCallback 1 scenarioSeen, Effect.logCallback 2 scenarioSeen]
        ++ feederOpenEffects (scenarioFields 3 false)
        ++ (Effect.millis 7760 :: spinEffects 2000 7760)
        ++ feederCloseEffects (scenarioFields 3 false) := by
  have a5 := (leftRecord_adds pulseEnv edge3).any
  have a6 := (feederOpen_adds (leftRecord pulseEnv edge3)).any
  have a7 := (openWindow_adds pulseEnv 2 (feederOpen (leftRecord pulseEnv edge3))).any
  have a8 := (feederClose_adds
    (openWindow pulseEnv 2 (feederOpen (leftRecord pulseEnv edge3)))).any
  have hn := notifyEffects_registered scenarioSeen 1 2 rfl rfl
  rw [after3_state.1, newEffects_append a5 (a6.trans (a7.trans a8)),
    newEffects_append a6 (a7.trans a8), newEffects_append a7 a8,
    newEffects_leftRecord, newEffects_feederOpen _ record3_sweepsEnd.openEnds,
    newEffects_feederClose _ window3_state.2.2.2.closeEnds,
    window3_state.2.2.1, window3_state.1, record3_state.1, record3_state.2.2.1, hn,
    edge3_state.2.1]
  simp only [List.append_assoc]

theorem sweep_counts (t : TumbleFeeder) :
    (feederOpenEffects t).countP isServoWrite = sweepFuel t ∧
    totalDelay (feederOpenEffects t) = 50 * sweepFuel t ∧
    (feederCloseEffects t).countP isServoWrite = sweepFuel t ∧
    totalDelay (feederCloseEffects t) = 50 * sweepFuel t := by
  have cd := sweepDown_count (sweepFuel t) t._closedPos
  have cu := sweepUp_count (sweepFuel t) t._openPos
  unfold feederOpenEffects feederCloseEffects
  refine ⟨?_, ?_, ?_, ?_⟩
  · rw [List.countP_append, List.countP_append, cd.1]; simp [isServoWrite]
  · rw [totalDelay_append, totalDelay_append, cd.2]; simp [totalDelay]
  · rw [List.countP_append, List.countP_append, cu.1]; simp [isServoWrite]
  · rw [totalDelay_append, totalDelay_append, cu.2]; simp [totalDelay]

/-- A rewarded `checkLeft` with a window that is not empty, on a board whose sweeps end, serves
a pending feeder touch inside the window. -/
theorem checkLeft_window_serves_feeder (env : Env) (d : Nat) (s : Sys)
    (hh : s.hung = false) (hs : SweepsEnd s)
    (hL : s.tf._leftTouch = true) (hF : s.tf._feedTouch = true)
    (hg : Int.tmod (intSucc s.extraBits s.tf.leftPokeCount) s.tf._FR = 0)
    (hT : 0 < ulongMul d 1000) :
    (checkLeft env d s).tf.FeederCount = intSucc s.extraBits s.tf.FeederCount ∧
    (checkLeft env d s).tf._feedTouch = false ∧
    (openWindow env d (feederOpen (leftRecord env s))).tf.FeederCount
      = intSucc s.extraBits s.tf.FeederCount := by
  have f6 := feederOpen_frame (leftRecord env s)
  have h6 : (feederOpen (leftRecord env s)).tf._feedTouch = true := by
    rw [f6.1, leftRecord_eq]; exact hF
  have h6c : (feederOpen (leftRecord env s)).tf.FeederCount = s.tf.FeederCount := by
    rw [f6.1, leftRecord_eq]
  have x6 : (feederOpen (leftRecord env s)).extraBits = s.extraBits := by
    rw [f6.2.1, (leftRecord_frame env s).2.1]
  have hw : (openWindow env d (feederOpen (leftRecord env s))).tf.FeederCount
        = intSucc s.extraBits s.tf.FeederCount ∧
      (openWindow env d (feederOpen (leftRecord env s))).tf._feedTouch = false := by
    rw [openWindow_busy env d _ h6 hT]
    simp only []
    rw [h6c, x6]
    exact ⟨rfl, trivial⟩
  rw [(checkLeft_returns env d s hL hh hs).1, if_pos hg, (feederClose_frame _).1]
  exact ⟨hw.1, hw.2, hw.1⟩

/-- Claim C13 fails in one number: in the scenario the closed-to-open sequence of the third
activation writes the 151 angles from 150 down to 0, not 150 of them. -/
theorem C13_counterexample :
    ¬ ((newEffects (leftRecord pulseEnv edge3)
        (feederOpen (leftRecord pulseEnv edge3))).countP isServoWrite = 150) := by
  rw [newEffects_feederOpen _ record3_sweepsEnd.openEnds,
    (sweep_counts (leftRecord pulseEnv edge3).tf).1, record3_state.1]
  decide

/-- Claim C13 (amended). In the scenario (fixed ratio 3, `openPos = 0`, `closedPos = 150`,
`checkLeft(2)`, three left edges at the times 0, 100 and 200 with the line held for 10 ms):
after the edges 1 and 2 `leftPokeCount` is 1 and 2 and the call drives neither indicator nor
servo; after the edge 3 it is 3 and the call is the record step, `feederOpen`, the open window
and `feederClose`. The closed-to-open sequence writes the 151 angles 150, 149, ..., 0, each
followed by a 50 ms delay (7550 ms); the window lasts 2000 ms, during which the clock is polled
every millisecond and a pending feeder touch would be served; the open-to-closed sequence
writes 151 angles again. The callbacks of the third activation observe the count 3 and the
duration 10 ms. -/
theorem C13_end_to_end_scenario :
    (edge1.now = 0 ∧ edge2.now = 100 ∧ edge3.now = 200 ∧
      lowRun pulseEnv LEFT_TOUCH_PIN 0 = 10 ∧ lowRun pulseEnv LEFT_TOUCH_PIN 100 = 10 ∧
      lowRun pulseEnv LEFT_TOUCH_PIN 200 = 10) ∧
    (getLeftPokeCount after1 = 1 ∧ ∀ e ∈ newEffects edge1 after1, isActuation e = false) ∧
    (getLeftPokeCount after2 = 2 ∧ ∀ e ∈ newEffects edge2 after2, isActuation e = false) ∧
    getLeftPokeCount after3 = 3 ∧
    after3 = feederClose (openWindow pulseEnv 2 (feederOpen (leftRecord pulseEnv edge3))) ∧
    newEffects edge3 after3 =
      senseEffects pulseEnv LEFT_TOUCH_PIN 200
        ++ [Effect.displayCallback 1 scenarioSeen, Effect.logCallback 2 scenarioSeen]
        ++ feederOpenEffects (scenarioFields 3 false)
        ++ (Effect.millis 7760 :: spinEffects 2000 7760)
        ++ feederCloseEffects (scenarioFields 3 false) ∧
    (scenarioSeen.leftPokeCount = 3 ∧ scenarioSeen.leftPokeDur = 10) ∧
    ((feederOpenEffects (scenarioFields 3 false)).countP isServoWrite = 151 ∧
      totalDelay (feederOpenEffects (scenarioFields 3 false)) = 7550 ∧
      writtenAngles (feederOpenEffects (scenarioFields 3 false))
        = (List.range 151).map (fun (i : Nat) => (150 : Int) - (i : Int))) ∧
    ((openWindow pulseEnv 2 (feederOpen (leftRecord pulseEnv edge3))).now
        = (feederOpen (leftRecord pulseEnv edge3)).now + 2000 ∧
      getFeederCount (checkLeft pulseEnv 2 (handleFeederTouch edge3)) = 1 ∧
      (openWindow pulseEnv 2
        (feederOpen (leftRecord pulseEnv (handleFeederTouch edge3)))).tf.FeederCount = 1) ∧
    ((feederCloseEffects (scenarioFields 3 false)).countP isServoWrite = 151 ∧
      totalDelay (feederCloseEffects (scenarioFields 3 false)) = 7550 ∧
      writtenAngles (feederCloseEffects (scenarioFields 3 false))
        = (List.range 151).map (fun (i : Nat) => (0 : Int) + (i : Int))) := by
  have hf := sweepFuel_scenario
  have hc := sweep_counts (scenarioFields 3 false)
  have wo := writtenAngles_feederOpenEffects (scenarioFields 3 false)
  have wc := writtenAngles_feederCloseEffects (scenarioFields 3 false)
  rw [hf] at hc wo wc
  have hfeed := checkLeft_window_serves_feeder pulseEnv 2 (handleFeederTouch edge3)
    edge3_state.2.2.2
    (SweepsEnd.of_eq edge3_sweepsEnd rfl rfl rfl)
    (by show edge3.tf._leftTouch = true; rw [edge3_state.1]; rfl) rfl
    (by show Int.tmod (intSucc edge3.extraBits edge3.tf.leftPokeCount) edge3.tf._FR = 0
        rw [edge3_state.1, edge3_state.2.2.1]; decide)
    (by decide)
  have hfc : (handleFeederTouch edge3).tf.FeederCount = 0 := by
    show edge3.tf.FeederCount = 0
    rw [edge3_state.1]; rfl
  have hfx : (handleFeederTouch edge3).extraBits = 0 := edge3_state.2.2.1
  refine ⟨⟨edge1_state.2.1, edge2_state.2.1, edge3_state.2.1, lowRun_pulse_0, lowRun_pulse_100,
      lowRun_pulse_200⟩, ⟨?_, ?_⟩, ⟨?_, ?_⟩, ?_, after3_state.1, after3_effects, ⟨rfl, rfl⟩,
    ⟨hc.1, hc.2.1, wo⟩, ⟨?_, ?_, ?_⟩, ⟨hc.2.2.1, hc.2.2.2, wc⟩⟩
  · simp only [getLeftPokeCount]; rw [after1_state.2.1]; rfl
  · rw [after1_state.1]; exact (leftRecord_adds pulseEnv edge1).newEffects.2
  · simp only [getLeftPokeCount]; rw [after2_state.2.1]; rfl
  · rw [after2_state.1]; exact (leftRecord_adds pulseEnv edge2).newEffects.2
  · simp only [getLeftPokeCount]; rw [after3_state.2.1]; rfl
  · rw [window3_state.2.1, open3_state.2]
  · simp only [getFeederCount]; rw [hfeed.1, hfc, hfx]; rfl
  · rw [hfeed.2.2, hfc, hfx]; rfl

end TumbleFeeder
